import Mathlib

/-! # KDiff3: the diff driver `KDiff3App::mainInit` and the three-way engine

A shallow embedding of `src/src/pdiff.cpp` (the driver that loads the sources, runs the
pairwise diffs, weaves them into the `Diff3Line` list, runs the fine diff and sizes the
display), together with models of the engine stages the driver calls.  The stages live in
files that are not part of the excerpt; the driver takes them as an `Engine` record, and
the sections marked "Modelled from the spec" follow the written specification of the
engine.
-/

namespace KDiff3

/-! ## Data model -/

/-- Source selector: the tagged variant `e_SrcSelector`. -/
inductive e_SrcSelector where
  | Invalid
  | None
  | A
  | B
  | C
  deriving DecidableEq, Repr

/-- One entry of a pairwise diff list (`Diff`): `nofEquals` matching lines, then `diff1`
lines of the first and `diff2` lines of the second source that do not match. -/
structure Diff where
  nofEquals : Nat
  diff1 : Nat
  diff2 : Nat
  deriving DecidableEq, Repr

abbrev DiffList := List Diff

/-- One line of a source.  `text` is the raw character range, `inComment` the lexer's
per-character comment flag, `width` the length in display columns. -/
structure LineData where
  text : List Char
  inComment : List Bool
  width : Nat
  deriving DecidableEq, Repr

/-- One aligned triple: line indices into A, B, C (`none` is "absent"), the three equality
flags, the fine-diff segments per pair, and the whitespace-only flag. -/
structure Diff3Line where
  lineA : Option Nat
  lineB : Option Nat
  lineC : Option Nat
  bAEqB : Bool
  bAEqC : Bool
  bBEqC : Bool
  fineAB : DiffList
  fineBC : DiffList
  fineCA : DiffList
  bWhiteLine : Bool
  deriving DecidableEq, Repr

abbrev Diff3LineList := List Diff3Line

/-- A manual alignment hint `(selector, firstLine, lastLine)`. -/
structure ManualDiffHelpEntry where
  sel : e_SrcSelector
  firstLine : Nat
  lastLine : Nat
  deriving DecidableEq, Repr

abbrev ManualDiffHelpList := List ManualDiffHelpEntry

/-- The ignore-mask `IgnoreFlags`.  `mainInit` only ever sets the first two members. -/
structure IgnoreFlags where
  ignoreComments : Bool
  ignoreWhiteSpace : Bool
  ignoreCase : Bool
  deriving DecidableEq, Repr

/-- The value `IgnoreFlag::none`. -/
def IgnoreFlags.none : IgnoreFlags := ⟨false, false, false⟩

/-- The `InitFlags` bit set passed to `mainInit`. -/
structure InitFlags where
  loadFiles : Bool
  useCurrentEncoding : Bool
  autoSolve : Bool
  initGUI : Bool
  deriving DecidableEq, Repr

/-- What the driver reads of one `SourceData` object: `isEmpty()`, `hasData()`, `isText()`,
the line array (`getLineDataForDiff`/`getLineDataForDisplay`, `lineCount()` is its length),
`getSizeBytes()`, `getErrors()` and `getAliasName()`. -/
structure SourceData where
  empty : Bool
  data : Bool
  text : Bool
  lines : List LineData
  sizeBytes : Nat
  errors : List String
  aliasName : String
  deriving DecidableEq, Repr

def SourceData.lineCount (sd : SourceData) : Nat := sd.lines.length

/-- The fields of `TotalDiffStatus` that `mainInit` writes. -/
structure TotalDiffStatus where
  bBinaryAEqB : Bool
  bBinaryAEqC : Bool
  bBinaryBEqC : Bool
  bTextAEqB : Bool
  bTextAEqC : Bool
  bTextBEqC : Bool
  deriving DecidableEq, Repr

/-- The state after `TotalDiffStatus::reset()`. -/
def TotalDiffStatus.reset : TotalDiffStatus := ⟨false, false, false, false, false, false⟩

/-- The two exceptions `mainInit` distinguishes: `std::bad_alloc` and any other
`std::exception` (with its `what()` text). -/
inductive Exn where
  | badAlloc
  | other (what : String)
  deriving DecidableEq, Repr

/-- Calls made by the driver, in the order they happen.  The log is what the claims about
"which stage runs" are stated on. -/
inductive Event where
  | mergeResultReset
  | setMaxNofSteps (n : Nat)
  | readAndPreprocess (sel : e_SrcSelector) (useCurrentEncoding : Bool)
  | step
  | progressClear
  | statusReset
  | setBinaryEqualAB (b : Bool)
  | setBinaryEqualAC (b : Bool)
  | setBinaryEqualBC (b : Bool)
  | runDiff (s1 s2 : e_SrcSelector)
  | calcDiff3LineListUsingAB
  | calcDiff3LineListUsingAC
  | calcDiff3LineListUsingBC
  | correctManualDiffAlignment
  | calcDiff3LineListTrim
  | debugLineCheck (size : Nat) (sel : e_SrcSelector)
  | fineDiff (sel : e_SrcSelector) (flags : IgnoreFlags)
  | setTextEqualAB (b : Bool)
  | setTextEqualAC (b : Bool)
  | setTextEqualBC (b : Bool)
  | sourceReset (sel : e_SrcSelector)
  | calcWhiteDiff3Lines
  | calcDiff3LineVector
  | mergeResultInit (autoSolve : Bool)
  | createCaption
  | sigRecalcWordWrap
  | endBackgroundTask
  | setWordWrap (b : Bool)
  | listRecalcWordWrap (b : Bool)
  | windowRecalcWordWrap (win : e_SrcSelector) (wrap : Bool) (lines : Int) (width : Int)
  | startRunnables
  | setVScrollRange (max : Int)
  | setVScrollValue (v : Int)
  | setHScrollBarRange
  | slotFinishMainInit
  | insertEntry (sel : e_SrcSelector) (firstLine lastLine : Nat)
  | nothingSelectedMessage
  deriving DecidableEq, Repr

/-- The options `mainInit` and the word-wrap slots consult (`gOptions`). -/
structure Options where
  ignoreComments : Bool
  whiteSpaceIsEqual : Bool
  bDiff3AlignBC : Bool
  wordWrapOn : Bool
  deriving DecidableEq, Repr

/-- The engine stages and collaborators the driver calls.  Their code is outside the
excerpt, so the driver is parametric in them.  A stage that runs inside the `try` block
may raise; the two file reads for A and B and the `isBinaryEqualWith` comparison are taken
as total.  `lineTypeMax` is the largest value of the line index type `LineType`. -/
structure Engine where
  readAndPreprocess : e_SrcSelector → Bool → SourceData → SourceData
  isBinaryEqualWith : SourceData → SourceData → Bool
  runDiff : ManualDiffHelpList → List LineData → List LineData →
    e_SrcSelector → e_SrcSelector → Except Exn DiffList
  calcDiff3LineListUsingAB : DiffList → Diff3LineList → Except Exn Diff3LineList
  calcDiff3LineListUsingAC : DiffList → Diff3LineList → Except Exn Diff3LineList
  calcDiff3LineListUsingBC : DiffList → Diff3LineList → Except Exn Diff3LineList
  correctManualDiffAlignment : ManualDiffHelpList → Diff3LineList → Except Exn Diff3LineList
  calcDiff3LineListTrim : List LineData → List LineData → List LineData →
    ManualDiffHelpList → Diff3LineList → Except Exn Diff3LineList
  fineDiff : e_SrcSelector → List LineData → List LineData → IgnoreFlags →
    Diff3LineList → Except Exn (Diff3LineList × Bool)
  calcWhiteDiff3Lines : List LineData → List LineData → List LineData → Bool →
    Diff3LineList → Diff3LineList
  sourceReset : SourceData → SourceData
  insertEntry : e_SrcSelector → Nat → Nat → ManualDiffHelpList → ManualDiffHelpList
  lineTypeMax : Nat

/-- The members of `KDiff3App` that `mainInit`, the manual-hint slots and the word-wrap
slots read or write. -/
structure KDiff3App where
  m_sd1 : SourceData
  m_sd2 : SourceData
  m_sd3 : SourceData
  m_diffList12 : DiffList
  m_diffList23 : DiffList
  m_diffList13 : DiffList
  m_diff3LineList : Diff3LineList
  mDiff3LineVector : Diff3LineList
  m_manualDiffHelpList : ManualDiffHelpList
  mErrors : List String
  m_neededLines : Int
  status : TotalDiffStatus
  m_outputFilename : String
  m_bTripleDiff : Bool
  m_bOutputModified : Bool
  m_bFinishMainInit : Bool
  m_bLoadFiles : Bool
  m_bRecalcWordWrapPosted : Bool
  m_firstD3LIdx : Int
  mRunnablesStarted : Bool
  hasDiffTextWindow1 : Bool
  hasDiffTextWindow2 : Bool
  hasDiffTextWindow3 : Bool
  m_DTWHeight : Int
  vScrollMax : Int
  vScrollValue : Int
  log : List Event

/-- The message appended by the `std::bad_alloc` handler. -/
def msgNotEnoughMemory : String := "Not enough memory to complete request."

/-- The message appended when the number of lines does not fit `LineType`. -/
def msgTooManyLines : String := "Too many lines in diff. Skipping file."

/-- The message of the `std::exception` handler. -/
def msgInternalError (what : String) : String := "An internal error occurred: " ++ what

/-! ## The driver: `KDiff3App::resetDiffData` and `KDiff3App::mainInit` -/

/-- Append one call to the log. -/
def emit (e : Event) (app : KDiff3App) : KDiff3App :=
  { app with log := app.log ++ [e] }

/-- `ProgressProxy::step()`. -/
def progressStep (app : KDiff3App) : KDiff3App := emit Event.step app

/-- `KDiff3App::resetDiffData`: reset the merge result window, then clear the three
pairwise diff lists, the Diff3Line list, the Diff3Line vector and the manual-hint list. -/
def resetDiffData (app : KDiff3App) : KDiff3App :=
  { emit Event.mergeResultReset app with
    m_diffList12 := []
    m_diffList23 := []
    m_diffList13 := []
    m_diff3LineList := []
    mDiff3LineVector := []
    m_manualDiffHelpList := [] }

/-- The state of a run of statements inside the `try` block: the application state reached
and the exception raised, if any. -/
abbrev Run := KDiff3App × Option Exn

/-- A statement of the `try` block. -/
abbrev Stage := KDiff3App → Run

/-- A statement that cannot raise. -/
def Stage.total (f : KDiff3App → KDiff3App) : Stage := fun app => (f app, none)

/-- A call of an engine stage: the call is logged, then either its result is stored with
`store`, or its exception leaves the block. -/
def Stage.call {α : Type} (e : Event) (r : KDiff3App → Except Exn α)
    (store : α → KDiff3App → KDiff3App) : Stage := fun app =>
  match r app with
  | Except.ok a => (store a (emit e app), none)
  | Except.error x => (emit e app, some x)

/-- Statements in sequence; the first exception ends the sequence. -/
def runStages : List Stage → Stage
  | [], app => (app, none)
  | st :: rest, app =>
    match st app with
    | (app1, none) => runStages rest app1
    | (app1, some x) => (app1, some x)

/-- A block `if(cond) { ... }`. -/
def Stage.when (cond : KDiff3App → Bool) (body : List Stage) : Stage := fun app =>
  if cond app then runStages body app else (app, none)

/-- A block `if(cond) { ... } else { ... }`. -/
def Stage.ite (cond : KDiff3App → Bool) (thenB elseB : List Stage) : Stage := fun app =>
  if cond app then runStages thenB app else runStages elseB app

def setBinaryEqualAB (b : Bool) (app : KDiff3App) : KDiff3App :=
  { emit (Event.setBinaryEqualAB b) app with status := { app.status with bBinaryAEqB := b } }

def setBinaryEqualAC (b : Bool) (app : KDiff3App) : KDiff3App :=
  { emit (Event.setBinaryEqualAC b) app with status := { app.status with bBinaryAEqC := b } }

def setBinaryEqualBC (b : Bool) (app : KDiff3App) : KDiff3App :=
  { emit (Event.setBinaryEqualBC b) app with status := { app.status with bBinaryBEqC := b } }

def setTextEqualAB (b : Bool) (app : KDiff3App) : KDiff3App :=
  { emit (Event.setTextEqualAB b) app with status := { app.status with bTextAEqB := b } }

def setTextEqualAC (b : Bool) (app : KDiff3App) : KDiff3App :=
  { emit (Event.setTextEqualAC b) app with status := { app.status with bTextAEqC := b } }

def setTextEqualBC (b : Bool) (app : KDiff3App) : KDiff3App :=
  { emit (Event.setTextEqualBC b) app with status := { app.status with bTextBEqC := b } }

/-- `m_manualDiffHelpList.runDiff(..., m_diffList12, A, B)`. -/
def stRunDiff12 (eng : Engine) : Stage :=
  Stage.call (Event.runDiff e_SrcSelector.A e_SrcSelector.B)
    (fun app => eng.runDiff app.m_manualDiffHelpList app.m_sd1.lines app.m_sd2.lines
      e_SrcSelector.A e_SrcSelector.B)
    (fun l app => { app with m_diffList12 := l })

/-- `m_manualDiffHelpList.runDiff(..., m_diffList13, A, C)`. -/
def stRunDiff13 (eng : Engine) : Stage :=
  Stage.call (Event.runDiff e_SrcSelector.A e_SrcSelector.C)
    (fun app => eng.runDiff app.m_manualDiffHelpList app.m_sd1.lines app.m_sd3.lines
      e_SrcSelector.A e_SrcSelector.C)
    (fun l app => { app with m_diffList13 := l })

/-- `m_manualDiffHelpList.runDiff(..., m_diffList23, B, C)`. -/
def stRunDiff23 (eng : Engine) : Stage :=
  Stage.call (Event.runDiff e_SrcSelector.B e_SrcSelector.C)
    (fun app => eng.runDiff app.m_manualDiffHelpList app.m_sd2.lines app.m_sd3.lines
      e_SrcSelector.B e_SrcSelector.C)
    (fun l app => { app with m_diffList23 := l })

def stUsingAB (eng : Engine) : Stage :=
  Stage.call Event.calcDiff3LineListUsingAB
    (fun app => eng.calcDiff3LineListUsingAB app.m_diffList12 app.m_diff3LineList)
    (fun l app => { app with m_diff3LineList := l })

def stUsingAC (eng : Engine) : Stage :=
  Stage.call Event.calcDiff3LineListUsingAC
    (fun app => eng.calcDiff3LineListUsingAC app.m_diffList13 app.m_diff3LineList)
    (fun l app => { app with m_diff3LineList := l })

def stUsingBC (eng : Engine) : Stage :=
  Stage.call Event.calcDiff3LineListUsingBC
    (fun app => eng.calcDiff3LineListUsingBC app.m_diffList23 app.m_diff3LineList)
    (fun l app => { app with m_diff3LineList := l })

def stCorrectManualDiffAlignment (eng : Engine) : Stage :=
  Stage.call Event.correctManualDiffAlignment
    (fun app => eng.correctManualDiffAlignment app.m_manualDiffHelpList app.m_diff3LineList)
    (fun l app => { app with m_diff3LineList := l })

def stTrim (eng : Engine) : Stage :=
  Stage.call Event.calcDiff3LineListTrim
    (fun app => eng.calcDiff3LineListTrim app.m_sd1.lines app.m_sd2.lines app.m_sd3.lines
      app.m_manualDiffHelpList app.m_diff3LineList)
    (fun l app => { app with m_diff3LineList := l })

/-- `pTotalDiffStatus->setTextEqualAB(m_diff3LineList.fineDiff(A, linesA, linesB, flags))`. -/
def stFineDiffAB (eng : Engine) (eIgnoreFlags : IgnoreFlags) : Stage :=
  Stage.call (Event.fineDiff e_SrcSelector.A eIgnoreFlags)
    (fun app => eng.fineDiff e_SrcSelector.A app.m_sd1.lines app.m_sd2.lines eIgnoreFlags
      app.m_diff3LineList)
    (fun r app => setTextEqualAB r.2 { app with m_diff3LineList := r.1 })

/-- `pTotalDiffStatus->setTextEqualBC(m_diff3LineList.fineDiff(B, linesB, linesC, flags))`. -/
def stFineDiffBC (eng : Engine) (eIgnoreFlags : IgnoreFlags) : Stage :=
  Stage.call (Event.fineDiff e_SrcSelector.B eIgnoreFlags)
    (fun app => eng.fineDiff e_SrcSelector.B app.m_sd2.lines app.m_sd3.lines eIgnoreFlags
      app.m_diff3LineList)
    (fun r app => setTextEqualBC r.2 { app with m_diff3LineList := r.1 })

/-- `pTotalDiffStatus->setTextEqualAC(m_diff3LineList.fineDiff(C, linesC, linesA, flags))`. -/
def stFineDiffAC (eng : Engine) (eIgnoreFlags : IgnoreFlags) : Stage :=
  Stage.call (Event.fineDiff e_SrcSelector.C eIgnoreFlags)
    (fun app => eng.fineDiff e_SrcSelector.C app.m_sd3.lines app.m_sd1.lines eIgnoreFlags
      app.m_diff3LineList)
    (fun r app => setTextEqualAC r.2 { app with m_diff3LineList := r.1 })

def stStep : Stage := Stage.total progressStep

/-- `m_diff3LineList.debugLineCheck(size, sel)`: a consistency check that changes nothing. -/
def stDebugLineCheck (size : KDiff3App → Nat) (sel : e_SrcSelector) : Stage :=
  Stage.total (fun app => emit (Event.debugLineCheck (size app) sel) app)

/-- The branch `if(m_sd3->isEmpty())` of the `try` block: the two-way diff. -/
def diffTwoWay (eng : Engine) (eIgnoreFlags : IgnoreFlags) : List Stage :=
  [ Stage.total (fun app => setBinaryEqualAB (eng.isBinaryEqualWith app.m_sd1 app.m_sd2) app),
    Stage.ite (fun app => app.m_sd1.text && app.m_sd2.text)
      [ stRunDiff12 eng,
        stStep,
        stUsingAB eng,
        stFineDiffAB eng eIgnoreFlags,
        Stage.when (fun app => app.m_sd1.sizeBytes == 0) [Stage.total (setTextEqualAB false)],
        stStep ]
      [ stStep, stStep ] ]

/-- Lines 202-217 of the three-way branch: source C is read when files are loaded, and
the three binary comparisons are made. -/
def threeWayLoad (eng : Engine) (bLoadFiles bUseCurrentEncoding : Bool) : List Stage :=
  [ Stage.when (fun _ => bLoadFiles)
      [ Stage.total (fun app =>
          { emit (Event.readAndPreprocess e_SrcSelector.C bUseCurrentEncoding) app with
            m_sd3 := eng.readAndPreprocess e_SrcSelector.C bUseCurrentEncoding app.m_sd3 }),
        stStep ],
    Stage.total (fun app => setBinaryEqualAB (eng.isBinaryEqualWith app.m_sd1 app.m_sd2) app),
    Stage.total (fun app => setBinaryEqualAC (eng.isBinaryEqualWith app.m_sd1 app.m_sd3) app),
    Stage.total (fun app => setBinaryEqualBC (eng.isBinaryEqualWith app.m_sd3 app.m_sd2) app) ]

/-- Lines 219-228: "Diff: A <-> B", the AB diff and the seed of the Diff3Line list. -/
def threeWayAB (eng : Engine) : List Stage :=
  [ Stage.when (fun app => app.m_sd1.text && app.m_sd2.text)
      [ stRunDiff12 eng, stUsingAB eng ],
    stStep ]

/-- Lines 230-241: "Diff: A <-> C", the AC diff folded in, the manual alignment
correction and the trim. -/
def threeWayAC (eng : Engine) : List Stage :=
  [ Stage.when (fun app => app.m_sd1.text && app.m_sd3.text)
      [ stRunDiff13 eng, stUsingAC eng, stCorrectManualDiffAlignment eng, stTrim eng ],
    stStep ]

/-- Lines 243-263: "Diff: B <-> C", the BC diff, folded in only with `m_bDiff3AlignBC`,
and the line checks made without that option. -/
def threeWayBC (eng : Engine) (opts : Options) : List Stage :=
  [ Stage.when (fun app => app.m_sd2.text && app.m_sd3.text)
      [ stRunDiff23 eng,
        Stage.when (fun _ => opts.bDiff3AlignBC)
          [ stUsingBC eng, stCorrectManualDiffAlignment eng, stTrim eng ] ],
    stStep,
    Stage.when (fun _ => !opts.bDiff3AlignBC)
      [ stDebugLineCheck (fun app => app.m_sd1.lineCount) e_SrcSelector.A,
        stDebugLineCheck (fun app => app.m_sd2.lineCount) e_SrcSelector.B,
        stDebugLineCheck (fun app => app.m_sd3.lineCount) e_SrcSelector.C ] ]

/-- Lines 265-286: the first round of fine diffs, and the line checks after it. -/
def threeWayFine (eng : Engine) (opts : Options) (eIgnoreFlags : IgnoreFlags) : List Stage :=
  [ Stage.when (fun app => app.m_sd1.data && app.m_sd2.data && app.m_sd1.text && app.m_sd2.text)
      [ stFineDiffAB eng eIgnoreFlags ],
    stStep,
    Stage.when (fun app => app.m_sd2.data && app.m_sd3.data && app.m_sd2.text && app.m_sd3.text)
      [ stFineDiffBC eng eIgnoreFlags ],
    stStep,
    Stage.when (fun app => app.m_sd1.data && app.m_sd3.data && app.m_sd1.text && app.m_sd3.text)
      [ stFineDiffAC eng eIgnoreFlags ],
    Stage.when (fun _ => !opts.bDiff3AlignBC)
      [ stDebugLineCheck (fun app => app.m_sd2.lineCount) e_SrcSelector.B,
        stDebugLineCheck (fun app => app.m_sd3.lineCount) e_SrcSelector.C ] ]

/-- Lines 288-301: the second round of fine diffs. -/
def threeWayFineAgain (eng : Engine) (eIgnoreFlags : IgnoreFlags) : List Stage :=
  [ Stage.when (fun app => app.m_sd1.data && app.m_sd2.data && app.m_sd1.text && app.m_sd2.text)
      [ stFineDiffAB eng eIgnoreFlags ],
    stStep,
    Stage.when (fun app => app.m_sd3.data && app.m_sd2.data && app.m_sd3.text && app.m_sd2.text)
      [ stFineDiffBC eng eIgnoreFlags ],
    stStep,
    Stage.when (fun app => app.m_sd1.data && app.m_sd3.data && app.m_sd1.text && app.m_sd3.text)
      [ stFineDiffAC eng eIgnoreFlags ],
    stStep ]

/-- Lines 302-313: an empty A or B is never text-equal to another source; the errors of
source C are collected. -/
def threeWayEnd : List Stage :=
  [ Stage.when (fun app => app.m_sd1.sizeBytes == 0)
      [ Stage.total (setTextEqualAB false), Stage.total (setTextEqualAC false) ],
    Stage.when (fun app => app.m_sd2.sizeBytes == 0)
      [ Stage.total (setTextEqualAB false), Stage.total (setTextEqualBC false) ],
    Stage.total (fun app => { app with mErrors := app.mErrors ++ app.m_sd3.errors }) ]

/-- The `else` branch of the `try` block: the three-way diff (lines 202-313). -/
def diffThreeWay (eng : Engine) (opts : Options) (eIgnoreFlags : IgnoreFlags)
    (bLoadFiles bUseCurrentEncoding : Bool) : List Stage :=
  threeWayLoad eng bLoadFiles bUseCurrentEncoding ++ (threeWayAB eng ++ (threeWayAC eng ++
    (threeWayBC eng opts ++ (threeWayFine eng opts eIgnoreFlags ++
      (threeWayFineAgain eng eIgnoreFlags ++ threeWayEnd)))))

/-- `bFirstRun`: all three sources are empty and hold no data. -/
def isFirstRun (app : KDiff3App) : Bool :=
  (app.m_sd1.empty && !app.m_sd1.data) &&
  (app.m_sd2.empty && !app.m_sd2.data) &&
  (app.m_sd3.empty && !app.m_sd3.data)

/-- The ignore-mask `eIgnoreFlags` built at the top of `mainInit`. -/
def mainInitIgnoreFlags (opts : Options) : IgnoreFlags :=
  let f := IgnoreFlags.none
  let f := if opts.ignoreComments then { f with ignoreComments := true } else f
  if opts.whiteSpaceIsEqual then { f with ignoreWhiteSpace := true } else f

/-- The value of `bLoadFiles` after `if(bFirstRun) bLoadFiles = false;`. -/
def effLoadFiles (inFlags : InitFlags) (app : KDiff3App) : Bool :=
  if isFirstRun app then false else inFlags.loadFiles

/-- Lines 93-166 of `mainInit`: clear the error list, then either reset the diff data and
read A and B (`bLoadFiles`), or clear the Diff3Line list and vector; finally reset the
status.  The dialog about the preprocessor command and the painting lock touch nothing
that is modelled. -/
def mainInitLoad (eng : Engine) (inFlags : InitFlags) (app0 : KDiff3App) : KDiff3App :=
  let bLoadFiles := effLoadFiles inFlags app0
  let bUseCurrentEncoding := inFlags.useCurrentEncoding
  let app := { app0 with mErrors := [] }
  let app :=
    if bLoadFiles then
      let app := resetDiffData app
      let app := emit (Event.setMaxNofSteps (if app.m_sd3.empty then 4 else 9)) app
      let app :=
        { emit (Event.readAndPreprocess e_SrcSelector.A bUseCurrentEncoding) app with
          m_sd1 := eng.readAndPreprocess e_SrcSelector.A bUseCurrentEncoding app.m_sd1 }
      let app := progressStep app
      let app :=
        { emit (Event.readAndPreprocess e_SrcSelector.B bUseCurrentEncoding) app with
          m_sd2 := eng.readAndPreprocess e_SrcSelector.B bUseCurrentEncoding app.m_sd2 }
      let app := progressStep app
      let app := { app with mErrors := app.mErrors ++ app.m_sd1.errors }
      { app with mErrors := app.mErrors ++ app.m_sd2.errors }
    else
      let app := { app with m_diff3LineList := [], mDiff3LineVector := [] }
      emit (Event.setMaxNofSteps (if app.m_sd3.empty then 2 else 6)) app
  { emit Event.statusReset app with status := TotalDiffStatus.reset }

/-- The body of the `try` block (lines 172-314), guarded by
`mErrors.isEmpty() && !bFirstRun`; the `else` of the guard clears the progress. -/
def mainInitTry (eng : Engine) (opts : Options) (inFlags : InitFlags) (bFirstRun : Bool)
    (bLoadFiles : Bool) : Stage := fun app =>
  if app.mErrors.isEmpty && !bFirstRun then
    Stage.ite (fun app => app.m_sd3.empty)
      (diffTwoWay eng (mainInitIgnoreFlags opts))
      (diffThreeWay eng opts (mainInitIgnoreFlags opts) bLoadFiles inFlags.useCurrentEncoding)
      app
  else (emit Event.progressClear app, none)

/-- The two `catch` clauses (lines 316-331). -/
def mainInitCatch (eng : Engine) (r : Run) : KDiff3App :=
  match r.2 with
  | none => r.1
  | some Exn.badAlloc =>
    let app := resetDiffData r.1
    let app := { emit (Event.sourceReset e_SrcSelector.A) app with
                 m_sd1 := eng.sourceReset app.m_sd1 }
    let app := { emit (Event.sourceReset e_SrcSelector.B) app with
                 m_sd2 := eng.sourceReset app.m_sd2 }
    let app := { emit (Event.sourceReset e_SrcSelector.C) app with
                 m_sd3 := eng.sourceReset app.m_sd3 }
    let app := { app with mErrors := app.mErrors ++ [msgNotEnoughMemory] }
    emit Event.progressClear app
  | some (Exn.other what) =>
    let app := { r.1 with mErrors := r.1.mErrors ++ [msgInternalError what] }
    emit Event.progressClear app

/-- Lines 338-347: the whitespace classification and the Diff3Line vector. -/
def mainInitWhite (eng : Engine) (opts : Options) (bFirstRun : Bool) (app : KDiff3App) :
    KDiff3App :=
  if !bFirstRun && app.mErrors.isEmpty && app.m_sd1.text && app.m_sd2.text then
    let app := { emit Event.calcWhiteDiff3Lines app with
                 m_diff3LineList := eng.calcWhiteDiff3Lines app.m_sd1.lines app.m_sd2.lines
                   app.m_sd3.lines opts.ignoreComments app.m_diff3LineList }
    { emit Event.calcDiff3LineVector app with mDiff3LineVector := app.m_diff3LineList }
  else app

/-- `SafeInt<LineType>(n)` for a container size `n`: the value, or nothing when it does not
fit the line index type. -/
def safeLineType (lineTypeMax : Nat) (n : Nat) : Option Int :=
  if n ≤ lineTypeMax then some (n : Int) else none

/-- Lines 349-357: "Calc needed lines for display". -/
def mainInitNeededLines (eng : Engine) (app : KDiff3App) : KDiff3App :=
  match safeLineType eng.lineTypeMax app.m_diff3LineList.length with
  | some n => { app with m_neededLines := n }
  | none => { app with mErrors := app.mErrors ++ [msgTooManyLines] }

/-- `KDiff3App::postRecalcWordWrap`. -/
def postRecalcWordWrap (app : KDiff3App) : KDiff3App :=
  if !app.m_bRecalcWordWrapPosted then
    emit Event.sigRecalcWordWrap { app with m_bRecalcWordWrapPosted := true, m_firstD3LIdx := -1 }
  else app

/-- Lines 359-415: triple-diff flag, merge result window, and with `initGUI` the caption
and the posted word-wrap recalculation. -/
def mainInitFinish (inFlags : InitFlags) (bLoadFiles : Bool) (app : KDiff3App) : KDiff3App :=
  let bVisibleMergeResultWindow := !app.m_outputFilename.isEmpty
  let app := { app with m_bTripleDiff := !app.m_sd3.empty }
  let app := { app with m_bOutputModified := bVisibleMergeResultWindow }
  let app := emit (Event.mergeResultInit inFlags.autoSolve) app
  if inFlags.initGUI then
    let app := if app.mErrors.isEmpty then emit Event.createCaption app else app
    let app := { app with m_bFinishMainInit := true, m_bLoadFiles := bLoadFiles }
    postRecalcWordWrap app
  else app

/-- The `try` block of `mainInit`, run on the state that lines 93-166 leave: the state at
the end of the block, or at the point where a stage raised, with the exception. -/
def mainInitRun (eng : Engine) (opts : Options) (inFlags : InitFlags) (app : KDiff3App) : Run :=
  mainInitTry eng opts inFlags (isFirstRun app) (effLoadFiles inFlags app)
    (mainInitLoad eng inFlags app)

/-- The state of `mainInit` in front of "Calc needed lines for display" (line 349). -/
def mainInitDiffed (eng : Engine) (opts : Options) (inFlags : InitFlags) (app : KDiff3App) :
    KDiff3App :=
  mainInitWhite eng opts (isFirstRun app) (mainInitCatch eng (mainInitRun eng opts inFlags app))

/-- `KDiff3App::mainInit(pTotalDiffStatus, inFlags)`. -/
def mainInit (eng : Engine) (opts : Options) (inFlags : InitFlags) (app : KDiff3App) :
    KDiff3App :=
  mainInitFinish inFlags (effLoadFiles inFlags app)
    (mainInitNeededLines eng (mainInitDiffed eng opts inFlags app))

/-! ## The manual-hint slots -/

/-- The `InitFlags` value `autoSolve | initGUI` ("Init without reload"). -/
def initWithoutReload : InitFlags := ⟨false, false, true, true⟩

/-- A selection as `getSelectionRange` reports it: first and last line, each possibly
invalid (`none`). -/
abbrev SelectionRange := Option Nat × Option Nat

/-- The selection `slotAddManualDiffHelp` ends up with, and the window it came from: the
first existing window is asked, and the next one only while `firstLine` is invalid. -/
def findSelection (app : KDiff3App) (sel1 sel2 sel3 : SelectionRange) :
    e_SrcSelector × SelectionRange :=
  let r : e_SrcSelector × SelectionRange := (e_SrcSelector.Invalid, (none, none))
  let r := if app.hasDiffTextWindow1 then (e_SrcSelector.A, sel1) else r
  let r := if r.2.1.isNone && app.hasDiffTextWindow2 then (e_SrcSelector.B, sel2) else r
  if r.2.1.isNone && app.hasDiffTextWindow3 then (e_SrcSelector.C, sel3) else r

/-- `KDiff3App::slotAddManualDiffHelp`; `sel1`, `sel2`, `sel3` are what the three windows
answer to `getSelectionRange`.  The closing `slotRefresh()` repaints and is not modelled. -/
def slotAddManualDiffHelp (eng : Engine) (opts : Options) (sel1 sel2 sel3 : SelectionRange)
    (app : KDiff3App) : KDiff3App :=
  match findSelection app sel1 sel2 sel3 with
  | (winIdx, (some firstLine, some lastLine)) =>
    if lastLine < firstLine then emit Event.nothingSelectedMessage app
    else
      let app := { emit (Event.insertEntry winIdx firstLine lastLine) app with
                   m_manualDiffHelpList :=
                     eng.insertEntry winIdx firstLine lastLine app.m_manualDiffHelpList }
      mainInit eng opts initWithoutReload app
  | _ => emit Event.nothingSelectedMessage app

/-- `KDiff3App::slotClearManualDiffHelpList`. -/
def slotClearManualDiffHelpList (eng : Engine) (opts : Options) (app : KDiff3App) :
    KDiff3App :=
  mainInit eng opts initWithoutReload { app with m_manualDiffHelpList := [] }

/-! ## The word-wrap slots -/

/-- What the word-wrap slots get from their collaborators: the first visible line of
window 1, the two conversions of `DiffTextWindow`, whether `startRunnables` started any
background work, the cancel state of the progress dialog when the finishing slot runs, and
the row total `m_diff3LineList.recalcWordWrap(false)` returns. -/
structure WrapEnv where
  firstLine : Int
  convertLineToDiff3LineIdx : Int → Int
  convertDiff3LineIdxToLine : Int → Int
  startRunnables : Bool
  wasCancelled : Bool
  cancelReasonUserAbort : Bool
  sumOfLines : Int

/-- One `recalcWordWrap(wrap, lines, width)` call per existing diff text window. -/
def windowsRecalcWordWrap (wrap : Bool) (lines width : Int) (app : KDiff3App) : KDiff3App :=
  let app := if app.hasDiffTextWindow1 then
    emit (Event.windowRecalcWordWrap e_SrcSelector.A wrap lines width) app else app
  let app := if app.hasDiffTextWindow2 then
    emit (Event.windowRecalcWordWrap e_SrcSelector.B wrap lines width) app else app
  if app.hasDiffTextWindow3 then
    emit (Event.windowRecalcWordWrap e_SrcSelector.C wrap lines width) app else app

/-- `QScrollBar::setValue`: the value is kept inside `[0, max]`. -/
def clampScroll (max v : Int) : Int := if v < 0 then 0 else if max < v then max else v

/-- Lines 1313-1317 of `slotFinishRecalcWordWrap`: the background task is ended. -/
def finishBackground (app : KDiff3App) : KDiff3App :=
  if app.mRunnablesStarted then
    { emit Event.endBackgroundTask app with mRunnablesStarted := false }
  else app

/-- Lines 1339-1365 of `slotFinishRecalcWordWrap`: the finishing pass over the Diff3Line
list and the windows. -/
def finishWrap (w : WrapEnv) (width : Int) (opts : Options) (app : KDiff3App) : KDiff3App :=
  if !app.m_diff3LineList.isEmpty then
    if opts.wordWrapOn then
      let app := emit (Event.listRecalcWordWrap false) app
      let app := windowsRecalcWordWrap true w.sumOfLines width app
      { app with m_neededLines := w.sumOfLines }
    else windowsRecalcWordWrap false 1 0 app
  else app

/-- Lines 1367-1381 of `slotFinishRecalcWordWrap`: the scroll bars, unless printing. -/
def finishScroll (w : WrapEnv) (width : Int) (app : KDiff3App) : KDiff3App :=
  if 0 ≤ width then app
  else
    let range := max 0 (app.m_neededLines + 1 - app.m_DTWHeight)
    let app := { emit (Event.setVScrollRange range) app with
                 vScrollMax := range, vScrollValue := clampScroll range app.vScrollValue }
    if app.hasDiffTextWindow1 then
      let v := w.convertDiff3LineIdxToLine app.m_firstD3LIdx
      let app := { emit (Event.setVScrollValue v) app with
                   vScrollValue := clampScroll app.vScrollMax v }
      emit Event.setHScrollBarRange app
    else app

/-- Lines 1384-1388 of `slotFinishRecalcWordWrap`: `slotFinishMainInit` is called once
after a `mainInit`. -/
def finishMainInitCall (app : KDiff3App) : KDiff3App :=
  if app.m_bFinishMainInit then
    emit Event.slotFinishMainInit { app with m_bFinishMainInit := false }
  else app

/-- `KDiff3App::slotFinishRecalcWordWrap(visibleTextWidthForPrinting)`. -/
def slotFinishRecalcWordWrap (w : WrapEnv) (width : Int) (st : Options × KDiff3App) :
    Options × KDiff3App :=
  let opts := st.1
  let app := finishBackground st.2
  if opts.wordWrapOn && w.wasCancelled then
    if w.cancelReasonUserAbort then
      ({ opts with wordWrapOn := false },
        emit Event.sigRecalcWordWrap (emit (Event.setWordWrap false) app))
    else (opts, emit Event.sigRecalcWordWrap app)
  else
    let app := { app with m_bRecalcWordWrapPosted := false }
    (opts, finishMainInitCall (finishScroll w width (finishWrap w width opts app)))

/-- Lines 1293-1300 of `recalcWordWrap`: the background work is started; if there is none,
the finishing slot is called at once. -/
def recalcWordWrapStart (w : WrapEnv) (width : Int) (opts : Options) (app : KDiff3App) :
    Options × KDiff3App :=
  let app := { emit Event.startRunnables app with mRunnablesStarted := w.startRunnables }
  if !app.mRunnablesStarted then slotFinishRecalcWordWrap w width (opts, app) else (opts, app)

/-- `KDiff3App::recalcWordWrap(visibleTextWidthForPrinting)`.  The `SafeInt<LineType>`
conversion is not inside a `try` here, so its failure leaves the function. -/
def recalcWordWrap (eng : Engine) (w : WrapEnv) (width : Int) (st : Options × KDiff3App) :
    Except Exn (Options × KDiff3App) :=
  let opts := st.1
  let app := { st.2 with m_bRecalcWordWrapPosted := true }
  if app.m_firstD3LIdx < 0 ∧ app.hasDiffTextWindow1 = false then
    Except.ok (opts, { app with m_firstD3LIdx := 0 })
  else
    let app := if app.m_firstD3LIdx < 0 then
      { app with m_firstD3LIdx := w.convertLineToDiff3LineIdx w.firstLine } else app
    if !app.m_diff3LineList.isEmpty then
      let r : Except Exn KDiff3App :=
        if opts.wordWrapOn then
          Except.ok (windowsRecalcWordWrap true 0 width (emit (Event.listRecalcWordWrap true) app))
        else
          match safeLineType eng.lineTypeMax app.m_diff3LineList.length with
          | some n => Except.ok (windowsRecalcWordWrap false 0 0 { app with m_neededLines := n })
          | none => Except.error (Exn.other "SafeInt")
      match r with
      | Except.error x => Except.error x
      | Except.ok app =>
        Except.ok (recalcWordWrapStart w width opts app)
    else Except.ok (slotFinishRecalcWordWrap w width (opts, app))

/-! ## The horizontal scroll bar -/

/-- A `qint32` result: the value reduced to the range of a 32-bit two's complement
integer. -/
def wrapInt32 (x : Int) : Int := (x + 2147483648) % 4294967296 - 2147483648

/-- Does the value fit `qint32`? -/
def isInt32 (x : Int) : Prop := -2147483648 ≤ x ∧ x ≤ 2147483647

instance (x : Int) : Decidable (isInt32 x) := inferInstanceAs (Decidable (_ ∧ _))

/-- What `setHScrollBarRange` asks of one of the four windows (the three diff text windows
and the merge result window): whether the pointer is set, `isVisible()`,
`getMaxTextWidth()` and `getVisibleTextAreaWidth()`. -/
structure ScrollWindow where
  present : Bool
  isVisible : Bool
  getMaxTextWidth : Int
  getVisibleTextAreaWidth : Int
  deriving DecidableEq, Repr

/-- The locals `w1`, `w2`, `w3`, `wm`: the maximum text width of a window that exists and
is visible, else 0. -/
def ScrollWindow.w (win : ScrollWindow) : Int :=
  if win.present && win.isVisible then win.getMaxTextWidth else 0

/-- The locals `v1`, `v2`, `v3`, `vm`: the visible text area width of a window that exists
and is visible, else 0. -/
def ScrollWindow.v (win : ScrollWindow) : Int :=
  if win.present && win.isVisible then win.getVisibleTextAreaWidth else 0

/-- What `setHScrollBarRange` sets on `m_pHScrollBar`. -/
structure HScrollBar where
  rangeMin : Int
  rangeMax : Int
  singleStep : Int
  pageStep : Int
  deriving DecidableEq, Repr

/-- One of the three steps `if((pageStep == 0 || pageStep > v) && v > 0) pageStep = v;`. -/
def pageStepWith (pageStep v : Int) : Int :=
  if (pageStep = 0 ∨ pageStep > v) ∧ v > 0 then v else pageStep

/-- One of the four steps `if(w > v && w - v > rangeMax && v > 0) rangeMax = w - v;`. -/
def rangeMaxWith (rangeMax w v : Int) : Int :=
  if w > v ∧ wrapInt32 (w - v) > rangeMax ∧ v > 0 then wrapInt32 (w - v) else rangeMax

/-- `KDiff3App::setHScrollBarRange`; `advance` is `fontMetrics().horizontalAdvance(u'0')`. -/
def setHScrollBarRange (win1 win2 win3 winM : ScrollWindow) (advance : Int) : HScrollBar :=
  let pageStep := win1.v
  let pageStep := pageStepWith pageStep win2.v
  let pageStep := pageStepWith pageStep win3.v
  let pageStep := pageStepWith pageStep winM.v
  let rangeMax := 0
  let rangeMax := rangeMaxWith rangeMax win1.w win1.v
  let rangeMax := rangeMaxWith rangeMax win2.w win2.v
  let rangeMax := rangeMaxWith rangeMax win3.w win3.v
  let rangeMax := rangeMaxWith rangeMax winM.w winM.v
  { rangeMin := 0, rangeMax := rangeMax, singleStep := wrapInt32 (advance * 10),
    pageStep := pageStep }

/-- The overhang `w - v` of a window that exists, is visible and has a visible width above
zero; 0 for any other window. -/
def ScrollWindow.overhang (win : ScrollWindow) : Int :=
  if win.present = true ∧ win.isVisible = true ∧ win.getVisibleTextAreaWidth > 0 then
    win.getMaxTextWidth - win.getVisibleTextAreaWidth
  else 0

/-- The widths a window reports fit `qint32`. -/
def ScrollWindow.fits (win : ScrollWindow) : Prop :=
  isInt32 win.getMaxTextWidth ∧ isInt32 win.getVisibleTextAreaWidth

instance (win : ScrollWindow) : Decidable win.fits := inferInstanceAs (Decidable (_ ∧ _))

/-! ## `EncodedDataStream` -/

/-- `QByteArray::startsWith`: `p` is a leading part of `s`. -/
def startsWith (s p : String) : Bool := p.toList.isPrefixOf s.toList

/-- The members of `EncodedDataStream`.  Of the decoder and the encoder only `isValid()`
is kept. -/
structure EncodedDataStream where
  mDecoderValid : Bool
  mEncoderValid : Bool
  mEncoding : String
  mGenerateBOM : Bool
  mError : Bool
  deriving DecidableEq, Repr

/-- The three `assert`s of `EncodedDataStream::setEncoding`, in the order of the code. -/
inductive EncodingAssert where
  | encodingNotEmpty
  | codecsValid
  | bomEncoding
  deriving DecidableEq, Repr

/-- `EncodedDataStream::setGenerateByteOrderMark`. -/
def EncodedDataStream.setGenerateByteOrderMark (generate : Bool) (s : EncodedDataStream) :
    EncodedDataStream :=
  { s with mGenerateBOM := generate }

/-- `EncodedDataStream::hasBOM`. -/
def EncodedDataStream.hasBOM (s : EncodedDataStream) : Bool := s.mGenerateBOM

/-- `EncodedDataStream::setEncoding`, with the assertions checked: the result is the new
state, or the assertion that fails.  `codecKnown` says for which encoding names Qt builds a
valid `QStringDecoder`/`QStringEncoder`. -/
def EncodedDataStream.setEncoding (codecKnown : String → Bool) (inEncoding : String)
    (s : EncodedDataStream) : Except EncodingAssert EncodedDataStream :=
  if inEncoding = "" then Except.error EncodingAssert.encodingNotEmpty
  else
    let s :=
      if inEncoding = "UTF-8-BOM" then { s with mGenerateBOM := true, mEncoding := "UTF-8" }
      else
        { s with mGenerateBOM := startsWith inEncoding "UTF-16" || startsWith inEncoding "UTF-32"
                 mEncoding := inEncoding }
    let s := { s with mDecoderValid := codecKnown s.mEncoding
                      mEncoderValid := codecKnown s.mEncoding }
    if !(s.mDecoderValid && s.mEncoderValid) then Except.error EncodingAssert.codecsValid
    else if !(!s.mGenerateBOM ||
        ((startsWith inEncoding "UTF-16" || startsWith inEncoding "UTF-32") ||
          inEncoding = "UTF-8-BOM")) then
      Except.error EncodingAssert.bomEncoding
    else Except.ok s

/-- The name `setEncoding` stores in `mEncoding` and builds the codecs for. -/
def storedEncoding (inEncoding : String) : String :=
  if inEncoding = "UTF-8-BOM" then "UTF-8" else inEncoding

/-! ## `STRING` of the shell extension -/

/-- A `TCHAR`, by its code; 0 is the terminator. -/
abbrev TCHAR := Nat

/-- The class `STRING`: its only member `_str`, the characters of the buffer up to and
including the terminating 0 (a buffer may hold more behind it). -/
structure STRING where
  _str : List TCHAR
  deriving DecidableEq, Repr

/-- The C string a buffer holds: the characters in front of the first 0. -/
def cString (buf : List TCHAR) : List TCHAR := buf.takeWhile (· ≠ 0)

/-- `STRING::length`: `_tcslen(_str)`. -/
def STRING.length (s : STRING) : Nat := (cString s._str).length

/-- `STRING::c_str`, as the characters it points to. -/
def STRING.c_str (s : STRING) : List TCHAR := cString s._str

/-- `STRING::resize`.  A shorter length writes the terminator at `newLength`; a longer
length fills a new buffer `p` that the function never stores in `_str`, so the string
stays as it is. -/
def STRING.resize (newLength : Nat) (s : STRING) : STRING :=
  let oldLength := s.length
  if newLength < oldLength then { _str := s._str.set newLength 0 }
  else if newLength > oldLength then s
  else s

/-! ## The window caption -/

/-- `QString::lastIndexOf(c)`: the position of the last `c`, or nothing (-1 in the code). -/
def lastIndexOf (c : Char) : List Char → Option Nat
  | [] => none
  | x :: xs =>
    match lastIndexOf c xs with
    | some p => some (p + 1)
    | none => if x = c then some 0 else none

/-- The step `if((p = f.lastIndexOf(u'/')) >= 0 || (p = f.lastIndexOf(u'\\')) >= 0)
f = f.mid(p + 1);` of `createCaption`. -/
def stripDirectory (f : String) : String :=
  match lastIndexOf '/' f.toList with
  | some p => String.mk (f.toList.drop (p + 1))
  | none =>
    match lastIndexOf '\\' f.toList with
    | some p => String.mk (f.toList.drop (p + 1))
    | none => f

/-- Step 1 of `createCaption`: one name, if the names that are there agree. -/
def captionOfEqualNames (f1 f2 f3 : String) : String :=
  if f1 ≠ "" then
    if (f2 = "" ∧ f3 = "") ∨ (f2 = "" ∧ f1 = f3) ∨ (f3 = "" ∧ f1 = f2) ∨ (f1 = f2 ∧ f1 = f3)
    then f1 else ""
  else if f2 ≠ "" then
    if f3 = "" ∨ f2 = f3 then f2 else ""
  else if f3 ≠ "" then f3
  else ""

/-- Step 2 of `createCaption`: all names, with " <-> " between them. -/
def captionOfAllNames (f1 f2 f3 : String) : String :=
  let caption := if f1 = "" then "" else f1
  let caption := caption ++ (if caption = "" ∨ f2 = "" then "" else " <-> ") ++
    (if f2 = "" then "" else f2)
  caption ++ (if caption = "" ∨ f3 = "" then "" else " <-> ") ++ (if f3 = "" then "" else f3)

/-- `KDiff3App::createCaption`, as the title it passes to `setWindowTitle`. -/
def createCaption (app : KDiff3App) : String :=
  let f1 := stripDirectory app.m_sd1.aliasName
  let f2 := stripDirectory app.m_sd2.aliasName
  let f3 := stripDirectory app.m_sd3.aliasName
  let caption := captionOfEqualNames f1 f2 f3
  let caption :=
    if caption = "" ∧ (f1 ≠ "" ∨ f2 ≠ "" ∨ f3 ≠ "") then captionOfAllNames f1 f2 f3
    else caption
  if caption = "" then "KDiff3" else caption ++ " - KDiff3"

/-! ## `MergeFileInfos` and `MfiCompare` -/

/-- What `MergeFileInfos` asks of a `FileAccess` (the class is declared in another header). -/
structure FileAccess where
  isDir : Bool
  isSymLink : Bool
  deriving DecidableEq, Repr

/-- The class `MergeFileInfos`: the three file entries (`none` for a null pointer) and the
flags.  The tree links, the directory info, the ages and the operation are left out. -/
structure MergeFileInfos where
  m_pFileInfoA : Option FileAccess
  m_pFileInfoB : Option FileAccess
  m_pFileInfoC : Option FileAccess
  m_bOperationComplete : Bool
  m_bSimOpComplete : Bool
  m_bEqualAB : Bool
  m_bEqualAC : Bool
  m_bEqualBC : Bool
  m_bConflictingAges : Bool
  deriving DecidableEq, Repr

/-- `MergeFileInfos::isDirA`. -/
def MergeFileInfos.isDirA (m : MergeFileInfos) : Bool :=
  match m.m_pFileInfoA with
  | some f => f.isDir
  | none => false

/-- `MergeFileInfos::isDirB`. -/
def MergeFileInfos.isDirB (m : MergeFileInfos) : Bool :=
  match m.m_pFileInfoB with
  | some f => f.isDir
  | none => false

/-- `MergeFileInfos::isDirC`. -/
def MergeFileInfos.isDirC (m : MergeFileInfos) : Bool :=
  match m.m_pFileInfoC with
  | some f => f.isDir
  | none => false

/-- `MergeFileInfos::hasDir`. -/
def MergeFileInfos.hasDir (m : MergeFileInfos) : Bool := m.isDirA || m.isDirB || m.isDirC

/-- `MergeFileInfos::startSimOp`. -/
def MergeFileInfos.startSimOp (m : MergeFileInfos) : MergeFileInfos :=
  { m with m_bSimOpComplete := false }

/-- `MergeFileInfos::isSimOpRunning`: `return !m_bOperationComplete;`, as the code has
it. -/
def MergeFileInfos.isSimOpRunning (m : MergeFileInfos) : Bool := !m.m_bOperationComplete

/-- `MergeFileInfos::endSimOp`. -/
def MergeFileInfos.endSimOp (m : MergeFileInfos) : MergeFileInfos :=
  { m with m_bSimOpComplete := true }

/-- `MergeFileInfos::startOperation`. -/
def MergeFileInfos.startOperation (m : MergeFileInfos) : MergeFileInfos :=
  { m with m_bOperationComplete := false }

/-- `MergeFileInfos::isOperationRunning`. -/
def MergeFileInfos.isOperationRunning (m : MergeFileInfos) : Bool := !m.m_bOperationComplete

/-- `MergeFileInfos::endOperation`. -/
def MergeFileInfos.endOperation (m : MergeFileInfos) : MergeFileInfos :=
  { m with m_bOperationComplete := true }

/-- `Qt::SortOrder`. -/
inductive SortOrder where
  | AscendingOrder
  | DescendingOrder
  deriving DecidableEq, Repr

/-- The class `MfiCompare`. -/
structure MfiCompare where
  mOrder : SortOrder
  deriving DecidableEq, Repr

/-- `MfiCompare::operator()`.  `fileName` is `MergeFileInfos::fileName` (declared in the
header, defined elsewhere) and `compare a b` is `a.compare(b, Qt::CaseInsensitive)`. -/
def MfiCompare.call (fileName : MergeFileInfos → String) (compare : String → String → Int)
    (c : MfiCompare) (pMFI1 pMFI2 : MergeFileInfos) : Bool :=
  let bDir1 := pMFI1.isDirA || pMFI1.isDirB || pMFI1.isDirC
  let bDir2 := pMFI2.isDirA || pMFI2.isDirB || pMFI2.isDirC
  if bDir1 = bDir2 then
    if c.mOrder = SortOrder.AscendingOrder then
      decide (compare (fileName pMFI1) (fileName pMFI2) < 0)
    else
      decide (compare (fileName pMFI1) (fileName pMFI2) > 0)
  else bDir1

/-- The three-way comparison `compare` is that of a total preorder on names: `a` is below
`b` exactly when `b` is above `a`, and "not above" is transitive. -/
structure TotalPreorderCompare (compare : String → String → Int) : Prop where
  opposite : ∀ a b, compare a b < 0 ↔ 0 < compare b a
  transitive : ∀ a b c, compare a b ≤ 0 → compare b c ≤ 0 → compare a c ≤ 0

/-! ## Predicates on the log -/

/-- The log of `b` is the log of `a` followed by events that all satisfy `P`. -/
def LogGrows (P : Event → Prop) (a b : KDiff3App) : Prop :=
  ∃ evs, b.log = a.log ++ evs ∧ ∀ e ∈ evs, P e

/-- Every run of the stage adds only events that satisfy `P` to the log. -/
def Stage.Emits (P : Event → Prop) (st : Stage) : Prop :=
  ∀ app, LogGrows P app (st app).1

/-- The events of the whitespace and vector stage that follows the `try` block. -/
def Event.isWhiteStage : Event → Bool
  | Event.calcWhiteDiff3Lines => true
  | Event.calcDiff3LineVector => true
  | _ => false

/-- The events of the pairwise differ and of the weave passes. -/
def Event.isWeaveStage : Event → Bool
  | Event.runDiff _ _ => true
  | Event.calcDiff3LineListUsingAB => true
  | Event.calcDiff3LineListUsingAC => true
  | Event.calcDiff3LineListUsingBC => true
  | Event.correctManualDiffAlignment => true
  | Event.calcDiff3LineListTrim => true
  | _ => false

/-- The events of the fine differ: its calls, and the text-equality results it sets. -/
def Event.isFineStage : Event → Bool
  | Event.fineDiff _ _ => true
  | Event.setTextEqualAB _ => true
  | Event.setTextEqualAC _ => true
  | Event.setTextEqualBC _ => true
  | _ => false

/-- The events that lines 93-166 of `mainInit` can log. -/
def Event.fromLoad : Event → Bool
  | Event.mergeResultReset => true
  | Event.setMaxNofSteps _ => true
  | Event.readAndPreprocess _ _ => true
  | Event.step => true
  | Event.statusReset => true
  | _ => false

/-- The events that the `try` block of `mainInit`, or the `else` of its guard, can log. -/
def Event.fromDiff : Event → Bool
  | Event.readAndPreprocess _ _ => true
  | Event.step => true
  | Event.progressClear => true
  | Event.setBinaryEqualAB _ => true
  | Event.setBinaryEqualAC _ => true
  | Event.setBinaryEqualBC _ => true
  | Event.debugLineCheck _ _ => true
  | e => e.isWeaveStage || e.isFineStage

/-- The events that the `catch` clauses of `mainInit` can log. -/
def Event.fromCatch : Event → Bool
  | Event.mergeResultReset => true
  | Event.sourceReset _ => true
  | Event.progressClear => true
  | _ => false

/-- The events that lines 359-415 of `mainInit` can log. -/
def Event.fromFinish : Event → Bool
  | Event.mergeResultInit _ => true
  | Event.createCaption => true
  | Event.sigRecalcWordWrap => true
  | _ => false

/-- Hoare triple of a stage: from a state that satisfies `P` the stage ends without an
exception in a state that satisfies `Q`. -/
def Stage.Triple (P : KDiff3App → Prop) (st : Stage) (Q : KDiff3App → Prop) : Prop :=
  ∀ app, P app → Q (st app).1 ∧ (st app).2 = none

/-- A property of the sources and the Diff3Line list, as a property of the state. -/
def OnWeave (J : SourceData → SourceData → SourceData → Diff3LineList → Prop)
    (app : KDiff3App) : Prop :=
  J app.m_sd1 app.m_sd2 app.m_sd3 app.m_diff3LineList

/-- The number of `ProgressProxy::step()` calls in a log. -/
def stepCount (log : List Event) : Nat := log.count Event.step

/-- The maxima that a log declares with `ProgressProxy::setMaxNofSteps`. -/
def declaredSteps (log : List Event) : List Nat :=
  log.filterMap (fun e => match e with
    | Event.setMaxNofSteps n => some n
    | _ => none)

/-- An event that the `try` block of `mainInit` can log when the ignore-mask of the run is
`f`: a fine-diff call carries `f`. -/
def Event.FromDiffWith (f : IgnoreFlags) (e : Event) : Prop :=
  e.fromDiff = true ∧ ∀ sel m, e = Event.fineDiff sel m → m = f

/-- An event that is not a fine-diff call with a mask other than `f`. -/
def Event.FineWith (f : IgnoreFlags) (e : Event) : Prop :=
  ∀ sel m, e = Event.fineDiff sel m → m = f

/-- A call of the fine differ. -/
def Event.isFineCall : Event → Bool
  | Event.fineDiff _ _ => true
  | _ => false

/-- The stage keeps `I`, however it ends. -/
def Stage.Frames (I : KDiff3App → Prop) (st : Stage) : Prop :=
  ∀ app, I app → I (st app).1

/-- An `insertEntry` call on the manual-hint list. -/
def Event.isInsertEntry : Event → Bool
  | Event.insertEntry _ _ _ => true
  | _ => false

/-- Partial correctness of a stage: from a state that satisfies `P`, if the stage ends
without an exception, its final state satisfies `Q`. -/
def Stage.Post (P : KDiff3App → Prop) (st : Stage) (Q : KDiff3App → Prop) : Prop :=
  ∀ app, P app → (st app).2 = none → Q (st app).1

/-- The sources of the state are the three given ones, and its log is `base` followed by
events of which those selected by `p` are `tr`, in this order. -/
def Traced (p : Event → Bool) (base : List Event)
    (S : SourceData × SourceData × SourceData) (tr : List Event) (a : KDiff3App) : Prop :=
  (a.m_sd1 = S.1 ∧ a.m_sd2 = S.2.1 ∧ a.m_sd3 = S.2.2) ∧
    ∃ evs, a.log = base ++ evs ∧ evs.filter p = tr

/-- The weave calls of lines 243-263: the BC diff, and with `m_bDiff3AlignBC` pass 5, the
correction and the trim. -/
def weaveCallsBC (opts : Options) : List Event :=
  Event.runDiff e_SrcSelector.B e_SrcSelector.C ::
    (if opts.bDiff3AlignBC then
      [Event.calcDiff3LineListUsingBC, Event.correctManualDiffAlignment,
        Event.calcDiff3LineListTrim]
    else [])

/-- The weave calls of a three-way run on three text sources, in the order of the code. -/
def weaveCalls (opts : Options) : List Event :=
  [Event.runDiff e_SrcSelector.A e_SrcSelector.B, Event.calcDiff3LineListUsingAB,
    Event.runDiff e_SrcSelector.A e_SrcSelector.C, Event.calcDiff3LineListUsingAC,
    Event.correctManualDiffAlignment, Event.calcDiff3LineListTrim] ++ weaveCallsBC opts

/-- The log of the state is `base` followed by events that hold `k` calls of `step()` and
no call of `setMaxNofSteps`. -/
def Stepped (base : List Event) (k : Nat) (a : KDiff3App) : Prop :=
  ∃ evs, a.log = base ++ evs ∧ stepCount evs = k ∧ declaredSteps evs = []

/-- An event other than `step()` and `setMaxNofSteps`. -/
def Event.isNoProgress : Event → Bool
  | Event.step => false
  | Event.setMaxNofSteps _ => false
  | _ => true

/-- A stage that, when it ends without an exception, has called `step()` exactly `n` times
and `setMaxNofSteps` never. -/
def Stage.Steps (n : Nat) (st : Stage) : Prop :=
  ∀ base k, Stage.Post (Stepped base k) st (Stepped base (k + n))

/-- A call that reads and preprocesses a source. -/
def Event.isReadCall : Event → Bool
  | Event.readAndPreprocess _ _ => true
  | _ => false

/-! ## The engine stages, modelled from the specification

The pairwise line differ, the weave passes, the fine differ and the word-wrap map are
implemented in files outside the excerpt.  The definitions of this section follow the
specification of the engine (sections 3 and 4); each one says what it stands for. -/

/-! ### Line equality under the ignore-mask -/

/-- Modelled from the spec: `ignoreComments` of the fine differ (the code of the line
comparison is missing) - characters flagged as in-comment are elided. -/
def dropComments : List Char → List Bool → List Char
  | [], _ => []
  | c :: cs, [] => c :: cs
  | c :: cs, f :: fs => if f then dropComments cs fs else c :: dropComments cs fs

/-- Modelled from the spec: `ignoreWhitespace` of the fine differ (the code of the line
comparison is missing) - runs of whitespace collapse to a single space, leading and
trailing whitespace is ignored.  `pending` says that a run of whitespace was seen after
the last character that was kept. -/
def collapseWhite : Bool → List Char → List Char
  | _, [] => []
  | pending, c :: cs =>
    if c.isWhitespace then collapseWhite true cs
    else if pending then ' ' :: c :: collapseWhite false cs
    else c :: collapseWhite false cs

/-- Modelled from the spec: the canonical form of a line, the form used for equality under
the current ignore-mask (`LineData`, section 3; the code that builds it is missing).
Leading whitespace is dropped by skipping it before the first kept character. -/
def canonical (mask : IgnoreFlags) (l : LineData) : List Char :=
  let cs := if mask.ignoreComments then dropComments l.text l.inComment else l.text
  let cs := if mask.ignoreWhiteSpace then collapseWhite false (cs.dropWhile Char.isWhitespace)
            else cs
  if mask.ignoreCase then cs.map Char.toLower else cs

/-- Modelled from the spec: the content hash over the canonical form (`LineData`; the hash
function of the code is missing, any function of the canonical form serves). -/
def contentHash (cs : List Char) : Nat :=
  cs.foldl (fun h c => (h * 31 + c.toNat) % 4294967296) 7

/-- Modelled from the spec: the equivalence `eq(lineData, lineData)` induced by the
ignore-mask (section 4.1; the comparison code is missing) - the canonical-form hash
decides, the full comparison of the canonical forms breaks hash collisions. -/
def lineEqual (mask : IgnoreFlags) (l1 l2 : LineData) : Bool :=
  contentHash (canonical mask l1) == contentHash (canonical mask l2) &&
    canonical mask l1 == canonical mask l2

/-! ### Pairwise differ -/

/-- One step through two inputs: a line kept (present in both inputs and matching), a line
of the first input only, a line of the second input only, and a line of each input that
do not match but stand side by side.  Edit scripts are made of the first three. -/
inductive EditOp where
  | keep
  | del
  | ins
  | change
  deriving DecidableEq, Repr

/-- Position of the first element of the list that matches `x`. -/
def firstMatch {α : Type} (eq : α → α → Bool) (x : α) : List α → Option Nat
  | [] => none
  | y :: ys => if eq x y then some 0 else (firstMatch eq x ys).map (· + 1)

/-- Length of a longest common subsequence: the first line is either left unmatched, or
matched with its first partner in the other input. -/
def lcsLength {α : Type} (eq : α → α → Bool) : List α → List α → Nat
  | [], _ => 0
  | x :: xs, ys =>
    match firstMatch eq x ys with
    | some j => max (1 + lcsLength eq xs (ys.drop (j + 1))) (lcsLength eq xs ys)
    | none => lcsLength eq xs ys

/-- Modelled from the spec: the shortest-edit-script core of the pairwise differ (section
4.1; `Diff`'s `runDiff` core is missing).  The script keeps a longest common subsequence:
a line is kept when matching it with its first partner loses nothing. -/
def editScript {α : Type} (eq : α → α → Bool) : List α → List α → List EditOp
  | [], ys => List.replicate ys.length EditOp.ins
  | x :: xs, ys =>
    match firstMatch eq x ys with
    | some j =>
      if lcsLength eq xs ys ≤ 1 + lcsLength eq xs (ys.drop (j + 1)) then
        List.replicate j EditOp.ins ++ EditOp.keep :: editScript eq xs (ys.drop (j + 1))
      else EditOp.del :: editScript eq xs ys
    | none => EditOp.del :: editScript eq xs ys

/-- Modelled from the spec: an edit script as `DiffEdit`s (section 4.1).  A run of matching
lines collapses into one `nofEquals` count, the unmatched lines that follow it are counted
in `diff1` and `diff2`; `cur` is the entry being filled.  The last entry is always emitted
(the terminator), and it alone may have `diff1 = diff2 = 0`. -/
def collectEdits (cur : Diff) : List EditOp → DiffList
  | [] => [cur]
  | EditOp.keep :: ops =>
    if cur.diff1 = 0 ∧ cur.diff2 = 0 then
      collectEdits { cur with nofEquals := cur.nofEquals + 1 } ops
    else cur :: collectEdits ⟨1, 0, 0⟩ ops
  | EditOp.del :: ops => collectEdits { cur with diff1 := cur.diff1 + 1 } ops
  | EditOp.ins :: ops => collectEdits { cur with diff2 := cur.diff2 + 1 } ops
  | EditOp.change :: ops =>
    collectEdits { cur with diff1 := cur.diff1 + 1, diff2 := cur.diff2 + 1 } ops

/-- Modelled from the spec: the differ on one sub-range (section 4.1).  An empty input on
either side gives the single entry `(0, n, m)`. -/
def diffRange {α : Type} (eq : α → α → Bool) (l1 l2 : List α) : DiffList :=
  collectEdits ⟨0, 0, 0⟩ (editScript eq l1 l2)

/-- Modelled from the spec: hint groups (section 3) - maximal contiguous runs of hints that
refer to distinct selectors.  `cur` is the group being collected, in reverse. -/
def hintGroupsFrom (cur : ManualDiffHelpList) : ManualDiffHelpList → List ManualDiffHelpList
  | [] => if cur.isEmpty then [] else [cur.reverse]
  | h :: hs =>
    if cur.any (fun g => g.sel == h.sel) then cur.reverse :: hintGroupsFrom [h] hs
    else hintGroupsFrom (h :: cur) hs

/-- Modelled from the spec: the hint groups of a hint list. -/
def hintGroups (hints : ManualDiffHelpList) : List ManualDiffHelpList :=
  hintGroupsFrom [] hints

/-- Modelled from the spec: the anchored ranges `((a0,a1),(b0,b1))` that the hints give
for the pair of sources `s1`, `s2` (section 4.1): one per hint group that holds a hint for
each of the two, from the first hinted line up to and excluding the line after the last. -/
def anchoredRanges (hints : ManualDiffHelpList) (s1 s2 : e_SrcSelector) :
    List ((Nat × Nat) × (Nat × Nat)) :=
  (hintGroups hints).filterMap (fun g =>
    match g.find? (fun h => h.sel == s1), g.find? (fun h => h.sel == s2) with
    | some h1, some h2 => some ((h1.firstLine, h1.lastLine + 1), (h2.firstLine, h2.lastLine + 1))
    | _, _ => none)

/-- Modelled from the spec: the differ run independently on each sub-range, the results
concatenated with a `diff1 = diff2 = 0` separator between ranges (section 4.1).  `l1`, `l2`
are what is left of the inputs, `p1`, `p2` the number of lines already consumed.  Each
anchored range is cut out of what is left (a boundary that lies before the consumed part
or behind the end is moved to it), the stretch before it is a sub-range of its own, and so
is what remains after the last anchor. -/
def runDiffFrom {α : Type} (eq : α → α → Bool) :
    List α → List α → Nat → Nat → List ((Nat × Nat) × (Nat × Nat)) → DiffList
  | l1, l2, _, _, [] => diffRange eq l1 l2
  | l1, l2, p1, p2, ((a0, a1), (b0, b1)) :: rest =>
    let g1 := a0 - p1
    let g2 := b0 - p2
    let k1 := a1 - max a0 p1
    let k2 := b1 - max b0 p2
    diffRange eq (l1.take g1) (l2.take g2) ++ ⟨0, 0, 0⟩ ::
      (diffRange eq ((l1.drop g1).take k1) ((l2.drop g2).take k2) ++ ⟨0, 0, 0⟩ ::
        runDiffFrom eq ((l1.drop g1).drop k1) ((l2.drop g2).drop k2)
          (p1 + min g1 l1.length + min k1 (l1.drop g1).length)
          (p2 + min g2 l2.length + min k2 (l2.drop g2).length) rest)

/-- Modelled from the spec: the pairwise line differ `ManualDiffHelpList::runDiff` as
`mainInit` calls it (section 4.1; its code is missing): the two line arrays, the
equivalence induced by the ignore-mask, and the anchored ranges of the manual hints. -/
def runDiff (mask : IgnoreFlags) (hints : ManualDiffHelpList) (l1 l2 : List LineData)
    (s1 s2 : e_SrcSelector) : DiffList :=
  runDiffFrom (lineEqual mask) l1 l2 0 0 (anchoredRanges hints s1 s2)

/-- The lines of the first input that a diff list accounts for. -/
def DiffList.sum1 (l : DiffList) : Nat := (l.map (fun d => d.nofEquals + d.diff1)).sum

/-- The lines of the second input that a diff list accounts for. -/
def DiffList.sum2 (l : DiffList) : Nat := (l.map (fun d => d.nofEquals + d.diff2)).sum

/-! ### Three-way weaver -/

/-- An aligned triple that carries the given indices and nothing else. -/
def Diff3Line.ofLines (a b c : Option Nat) : Diff3Line :=
  ⟨a, b, c, false, false, false, [], [], [], false⟩

/-- The index a triple carries for a source. -/
def Diff3Line.getLine (sel : e_SrcSelector) (r : Diff3Line) : Option Nat :=
  match sel with
  | e_SrcSelector.A => r.lineA
  | e_SrcSelector.B => r.lineB
  | e_SrcSelector.C => r.lineC
  | _ => none

/-- Replace the index a triple carries for a source. -/
def Diff3Line.setLine (sel : e_SrcSelector) (v : Option Nat) (r : Diff3Line) : Diff3Line :=
  match sel with
  | e_SrcSelector.A => { r with lineA := v }
  | e_SrcSelector.B => { r with lineB := v }
  | e_SrcSelector.C => { r with lineC := v }
  | _ => r

/-- Drop the equality flags that involve a source. -/
def Diff3Line.clearFlags (sel : e_SrcSelector) (r : Diff3Line) : Diff3Line :=
  match sel with
  | e_SrcSelector.A => { r with bAEqB := false, bAEqC := false }
  | e_SrcSelector.B => { r with bAEqB := false, bBEqC := false }
  | e_SrcSelector.C => { r with bAEqC := false, bBEqC := false }
  | _ => r

/-- Is one of the equality flags that involve a source set? -/
def Diff3Line.hasFlag (sel : e_SrcSelector) (r : Diff3Line) : Bool :=
  match sel with
  | e_SrcSelector.A => r.bAEqB || r.bAEqC
  | e_SrcSelector.B => r.bAEqB || r.bBEqC
  | e_SrcSelector.C => r.bAEqC || r.bBEqC
  | _ => false

/-- A triple with all three indices absent. -/
def Diff3Line.isEmptyLine (r : Diff3Line) : Bool :=
  r.lineA.isNone && r.lineB.isNone && r.lineC.isNone

/-- The non-absent indices of one source, in list order. -/
def linesOf (sel : e_SrcSelector) (rows : Diff3LineList) : List Nat :=
  rows.filterMap (Diff3Line.getLine sel)

/-- A `DiffEdit` line by line: the matching lines, then the unmatched lines of the first
and of the second input. -/
def expandDiff (d : Diff) : List EditOp :=
  List.replicate d.nofEquals EditOp.keep ++ List.replicate d.diff1 EditOp.del ++
    List.replicate d.diff2 EditOp.ins

/-- A `DiffEdit` sequence line by line. -/
def expandDiffList : DiffList → List EditOp
  | [] => []
  | d :: ds => expandDiff d ++ expandDiffList ds

/-- A `DiffEdit` triple by triple, as pass 1 lays it out: the matching lines, then the
unmatched lines side by side as far as both inputs have some, then the rest of the longer
side alone. -/
def expandPaired (d : Diff) : List EditOp :=
  List.replicate d.nofEquals EditOp.keep ++
    List.replicate (min d.diff1 d.diff2) EditOp.change ++
    List.replicate (d.diff1 - min d.diff1 d.diff2) EditOp.del ++
    List.replicate (d.diff2 - min d.diff1 d.diff2) EditOp.ins

/-- A `DiffEdit` sequence triple by triple. -/
def expandPairedList : DiffList → List EditOp
  | [] => []
  | d :: ds => expandPaired d ++ expandPairedList ds

/-- Modelled from the spec: pass 1 of the weaver, "seed from AB" (section 4.2; the code of
`calcDiff3LineListUsingAB` is missing).  A matching line gives a triple with both indices
and `equalAB`; the lines of a `diff1`/`diff2` block give triples without `equalAB`, with
the A index or the B index only once one side of the block is used up (scenario 1 of
section 8 has one triple for a changed line); C is absent.  `a`, `b` are the next line of
A and of B. -/
def seedOps : Nat → Nat → List EditOp → Diff3LineList
  | _, _, [] => []
  | a, b, EditOp.keep :: ops =>
    { Diff3Line.ofLines (some a) (some b) none with bAEqB := true } :: seedOps (a + 1) (b + 1) ops
  | a, b, EditOp.change :: ops =>
    Diff3Line.ofLines (some a) (some b) none :: seedOps (a + 1) (b + 1) ops
  | a, b, EditOp.del :: ops => Diff3Line.ofLines (some a) none none :: seedOps (a + 1) b ops
  | a, b, EditOp.ins :: ops => Diff3Line.ofLines none (some b) none :: seedOps a (b + 1) ops

/-- Modelled from the spec: `Diff3LineList::calcDiff3LineListUsingAB` (section 4.2, pass 1);
the triples are added to the list, which `mainInit` has emptied. -/
def calcDiff3LineListUsingAB (diffAB : DiffList) (rows : Diff3LineList) : Diff3LineList :=
  rows ++ seedOps 0 0 (expandPairedList diffAB)

/-- Modelled from the spec: what the AC diff says about each line of A, in order of the A
lines - the C-only lines that come in the gap before it, and the C line it equals, if
any.  `c` is the next line of C, `pending` the C-only lines met since the last A line. -/
def planLines : Nat → List Nat → List EditOp → List (List Nat × Option Nat)
  | _, _, [] => []
  | c, pending, EditOp.keep :: ops => (pending, some c) :: planLines (c + 1) [] ops
  | c, pending, EditOp.del :: ops => (pending, none) :: planLines c [] ops
  | c, pending, EditOp.ins :: ops => planLines (c + 1) (pending ++ [c]) ops
  | c, pending, EditOp.change :: ops => (pending, none) :: planLines (c + 1) [c] ops

/-- Modelled from the spec: the C-only lines that the AC diff has behind the last line of
A. -/
def planTrailing : Nat → List Nat → List EditOp → List Nat
  | _, pending, [] => pending
  | c, _, EditOp.keep :: ops => planTrailing (c + 1) [] ops
  | c, _, EditOp.del :: ops => planTrailing c [] ops
  | c, pending, EditOp.ins :: ops => planTrailing (c + 1) (pending ++ [c]) ops
  | c, _, EditOp.change :: ops => planTrailing (c + 1) [c] ops

/-- Modelled from the spec: the fold-in at one triple (section 4.2, pass 2).  On the triple
carrying A-line `i` the C partner of `i` is set and `equalAC` marked; the C-only lines of
the gap before `i` become new triples in front of it. -/
def foldRow (plan : List (List Nat × Option Nat)) (r : Diff3Line) : Diff3LineList :=
  match r.lineA with
  | none => [r]
  | some i =>
    match plan[i]? with
    | none => [r]
    | some (gap, partner) =>
      gap.map (fun j => Diff3Line.ofLines none none (some j)) ++
        [match partner with
         | some j => { r with lineC := some j, bAEqC := true }
         | none => r]

/-- The fold-in over the list. -/
def foldRows (plan : List (List Nat × Option Nat)) : Diff3LineList → Diff3LineList
  | [] => []
  | r :: rows => foldRow plan r ++ foldRows plan rows

/-- Modelled from the spec: `Diff3LineList::calcDiff3LineListUsingAC` (section 4.2, pass 2;
its code is missing): the AC list is walked along the triples of pass 1, aligned on the A
indices; the C-only lines behind the last A line come last. -/
def calcDiff3LineListUsingAC (diffAC : DiffList) (rows : Diff3LineList) : Diff3LineList :=
  foldRows (planLines 0 [] (expandDiffList diffAC)) rows ++
    (planTrailing 0 [] (expandDiffList diffAC)).map
      (fun j => Diff3Line.ofLines none none (some j))

/-- Position of the triple that carries a given line of a source. -/
def rowOf (sel : e_SrcSelector) (line : Nat) : Diff3LineList → Option Nat
  | [] => none
  | r :: rows =>
    if r.getLine sel = some line then some 0 else (rowOf sel line rows).map (· + 1)

/-- Modelled from the spec: a shift of one source's column (section 4.2, pass 3) - from
triple `p` on, the indices of source `sel` move `k` triples down; the `k` triples at `p`
lose the index, `k` empty triples are added at the end to take the last indices, and no
index is discarded.  The equality flags of a moved index are dropped. -/
def shiftColumn (sel : e_SrcSelector) (p k : Nat) (rows : Diff3LineList) : Diff3LineList :=
  if k = 0 then rows
  else
    rows.take p ++
      List.zipWith (fun r v => (r.setLine sel v).clearFlags sel)
        (rows.drop p ++ List.replicate k (Diff3Line.ofLines none none none))
        (List.replicate k none ++ (rows.drop p).map (Diff3Line.getLine sel))

/-- Modelled from the spec: the triples that currently carry the first line of each hint
of a group. -/
def hintRows (g : ManualDiffHelpList) (rows : Diff3LineList) : List (e_SrcSelector × Nat) :=
  g.filterMap (fun h => (rowOf h.sel h.firstLine rows).map (fun p => (h.sel, p)))

/-- Modelled from the spec: the correction for one hint group (section 4.2, pass 3) - the
hinted first lines are located, and the columns of those that sit higher are shifted down
so that all land on the triple of the lowest one. -/
def alignGroup (g : ManualDiffHelpList) (rows : Diff3LineList) : Diff3LineList :=
  let pos := hintRows g rows
  let target := (pos.map (fun sp => sp.2)).foldl max 0
  pos.foldl (fun rs sp => shiftColumn sp.1 sp.2 (target - sp.2) rs) rows

/-- Modelled from the spec: `Diff3LineList::correctManualDiffAlignment` (section 4.2, pass
3; its code is missing): the correction, one hint group after the other. -/
def correctManualDiffAlignment (hints : ManualDiffHelpList) (rows : Diff3LineList) :
    Diff3LineList :=
  (hintGroups hints).foldl (fun rs g => alignGroup g rs) rows

/-- Equality of line `i` of one array and line `j` of another, both present. -/
def pairEqual (eq : LineData → LineData → Bool) (l1 : List LineData) (i : Option Nat)
    (l2 : List LineData) (j : Option Nat) : Bool :=
  match i, j with
  | some i, some j =>
    match l1[i]?, l2[j]? with
    | some x, some y => eq x y
    | _, _ => false
  | _, _ => false

/-- Modelled from the spec: "re-evaluating the three `eq` relations" at a triple (section
4.2, pass 4). -/
def reEvaluate (eq : LineData → LineData → Bool) (lA lB lC : List LineData) (r : Diff3Line) :
    Diff3Line :=
  { r with
    bAEqB := pairEqual eq lA r.lineA lB r.lineB
    bAEqC := pairEqual eq lA r.lineA lC r.lineC
    bBEqC := pairEqual eq lB r.lineB lC r.lineC }

/-- The rule of an upward-move pass: may the index of source `sel` leave its triple
(`movable`), which destinations are tried first (`prefer`) and which after them
(`accept`), and how the flags of a triple are set after an index came or went
(`settle`). -/
structure MoveRule where
  movable : e_SrcSelector → Nat → Diff3Line → Bool
  prefer : e_SrcSelector → Nat → Diff3Line → Bool
  accept : e_SrcSelector → Nat → Diff3Line → Bool
  settle : e_SrcSelector → Diff3Line → Diff3Line

/-- Modelled from the spec: the destination of an upward move (section 4.2, pass 4 and
tie-breaks).  `above` holds the earlier triples, the nearest first.  The index can go to
the triples directly above that are empty in its source; among those that satisfy `ok` the
earliest one takes it. -/
def place (ok : Diff3Line → Bool) (arrive : Diff3Line → Diff3Line) (sel : e_SrcSelector) :
    Diff3LineList → Option Diff3LineList
  | [] => none
  | d :: above =>
    if (d.getLine sel).isSome then none
    else
      match place ok arrive sel above with
      | some above1 => some (d :: above1)
      | none => if ok d then some (arrive d :: above) else none

/-- Modelled from the spec: the attempt to move the index of source `sel` of the current
triple upward (section 4.2, pass 4): a destination that creates a new equality flag is
preferred, the earliest one first. -/
def tryMove (rule : MoveRule) (sel : e_SrcSelector) (st : Diff3LineList × Diff3Line) :
    Diff3LineList × Diff3Line :=
  match st.2.getLine sel with
  | none => st
  | some x =>
    if rule.movable sel x st.2 then
      let arrive := fun d : Diff3Line => rule.settle sel (d.setLine sel (some x))
      match place (rule.prefer sel x) arrive sel st.1 with
      | some above1 => (above1, rule.settle sel (st.2.setLine sel none))
      | none =>
        match place (rule.accept sel x) arrive sel st.1 with
        | some above1 => (above1, rule.settle sel (st.2.setLine sel none))
        | none => st
    else st

/-- Modelled from the spec: one scan of an upward-move pass (section 4.2, pass 4): for each
triple in turn, each of its present indices is tried.  `above` holds the triples already
passed, the nearest first. -/
def scanMoves (rule : MoveRule) : Diff3LineList → Diff3LineList → Diff3LineList
  | above, [] => above.reverse
  | above, r :: rest =>
    let st := tryMove rule e_SrcSelector.C
      (tryMove rule e_SrcSelector.B (tryMove rule e_SrcSelector.A (above, r)))
    scanMoves rule (st.2 :: st.1) rest

/-- Modelled from the spec: "collapse redundant empty alignments" (section 2) - triples
with no index are removed. -/
def removeEmptyLines (rows : Diff3LineList) : Diff3LineList :=
  rows.filter (fun r => !r.isEmptyLine)

/-- Is the line covered by a manual hint for its source? -/
def isHinted (hints : ManualDiffHelpList) (sel : e_SrcSelector) (x : Nat) : Bool :=
  hints.any (fun h => h.sel == sel && decide (h.firstLine ≤ x) && decide (x ≤ h.lastLine))

/-- The line array of a source. -/
def linesFor (lA lB lC : List LineData) : e_SrcSelector → List LineData
  | e_SrcSelector.A => lA
  | e_SrcSelector.B => lB
  | e_SrcSelector.C => lC
  | _ => []

/-- Would line `x` of source `sel` equal a line the triple carries for another source? -/
def createsFlag (eq : LineData → LineData → Bool) (lA lB lC : List LineData)
    (sel : e_SrcSelector) (x : Nat) (d : Diff3Line) : Bool :=
  [e_SrcSelector.A, e_SrcSelector.B, e_SrcSelector.C].any (fun other =>
    other != sel &&
      pairEqual eq (linesFor lA lB lC sel) (some x) (linesFor lA lB lC other) (d.getLine other))

/-- Modelled from the spec: the rule of the trim pass (section 4.2, pass 4 and
tie-breaks).  An index moves only if no equality flag of its triple involves it (the move
would violate that flag) and no manual hint holds it in place; a destination that creates
a new equality flag is preferred; the flags are re-evaluated at the old and at the new
position. -/
def trimRule (eq : LineData → LineData → Bool) (lA lB lC : List LineData)
    (hints : ManualDiffHelpList) : MoveRule where
  movable := fun sel x r => !r.hasFlag sel && !isHinted hints sel x
  prefer := fun sel x d => createsFlag eq lA lB lC sel x d
  accept := fun _ _ _ => true
  settle := fun _ r => reEvaluate eq lA lB lC r

/-- Modelled from the spec: the trim scans repeated "until a full scan produces no
movement" (section 4.2, pass 4); empty triples are removed after each scan. -/
def trimLoop (rule : MoveRule) : Nat → Diff3LineList → Diff3LineList
  | 0, rows => rows
  | fuel + 1, rows =>
    let rows1 := removeEmptyLines (scanMoves rule [] rows)
    if rows1 = rows then rows else trimLoop rule fuel rows1

/-- The sum, over the present indices, of the position of their triple.  Every upward move
lowers it. -/
def heightSum : Nat → Diff3LineList → Nat
  | _, [] => 0
  | p, r :: rows =>
    p * ((if r.lineA.isSome then 1 else 0) + (if r.lineB.isSome then 1 else 0) +
      (if r.lineC.isSome then 1 else 0)) + heightSum (p + 1) rows

/-- Modelled from the spec: `Diff3LineList::calcDiff3LineListTrim` (section 4.2, pass 4;
its code is missing).  The number of scans is bounded by the number of moves and removals
that are possible at all. -/
def calcDiff3LineListTrim (eq : LineData → LineData → Bool) (lA lB lC : List LineData)
    (hints : ManualDiffHelpList) (rows : Diff3LineList) : Diff3LineList :=
  let rows0 := removeEmptyLines rows
  trimLoop (trimRule eq lA lB lC hints) (heightSum 0 rows0 + rows0.length + 1) rows0

/-- Modelled from the spec: the pairs "B-line i equals C-line j" of the BC diff. -/
def equalPairs : Nat → Nat → List EditOp → List (Nat × Nat)
  | _, _, [] => []
  | b, c, EditOp.keep :: ops => (b, c) :: equalPairs (b + 1) (c + 1) ops
  | b, c, EditOp.del :: ops => equalPairs (b + 1) c ops
  | b, c, EditOp.ins :: ops => equalPairs b (c + 1) ops
  | b, c, EditOp.change :: ops => equalPairs (b + 1) (c + 1) ops

/-- Does the triple carry the partner that the BC diff gives line `x` of source `sel`? -/
def carriesPartner (pairs : List (Nat × Nat)) (sel : e_SrcSelector) (x : Nat)
    (d : Diff3Line) : Bool :=
  match sel with
  | e_SrcSelector.B =>
    match d.lineC with
    | some j => pairs.contains (x, j)
    | none => false
  | e_SrcSelector.C =>
    match d.lineB with
    | some i => pairs.contains (i, x)
    | none => false
  | _ => false

/-- Modelled from the spec: the rule of the BC overlay (section 4.2, pass 5): a B or C
index whose triple holds no equality for it may move up to the triple of its BC
partner. -/
def overlayRule (pairs : List (Nat × Nat)) : MoveRule where
  movable := fun sel _ r => !r.hasFlag sel
  prefer := fun sel x d => carriesPartner pairs sel x d
  accept := fun _ _ _ => false
  settle := fun sel r => r.clearFlags sel

/-- Modelled from the spec: `equalBC` is marked on the triples that carry both lines of a
pair of the BC diff. -/
def markEqualBC (pairs : List (Nat × Nat)) (r : Diff3Line) : Diff3Line :=
  match r.lineB, r.lineC with
  | some i, some j => if pairs.contains (i, j) then { r with bBEqC := true } else r
  | _, _ => r

/-- Modelled from the spec: `Diff3LineList::calcDiff3LineListUsingBC` (section 4.2, pass 5;
its code is missing): the fold-in analogous to pass 2, with the BC diff as an overlay on
the existing triples. -/
def calcDiff3LineListUsingBC (diffBC : DiffList) (rows : Diff3LineList) : Diff3LineList :=
  let pairs := equalPairs 0 0 (expandDiffList diffBC)
  (scanMoves (overlayRule pairs) [] rows).map (markEqualBC pairs)

/-! ### Fine differ -/

/-- The fine diff of two present lines: nothing when they are equal under the mask, the
character-level edit regions otherwise. -/
def fineSegments (mask : IgnoreFlags) (x y : LineData) : DiffList :=
  if lineEqual mask x y then [] else diffRange (fun c d => c == d) x.text y.text

/-- Modelled from the spec: the fine differ at one triple for one pair of sources (section
4.3 and "fine-diff dependency" of 4.2): the equality flag of the pair is computed from the
line data under the ignore-mask, and is false when a line is absent. -/
def fineDiffLine (sel : e_SrcSelector) (l1 l2 : List LineData) (mask : IgnoreFlags)
    (r : Diff3Line) : Diff3Line :=
  match sel with
  | e_SrcSelector.A =>
    { r with
      bAEqB := pairEqual (lineEqual mask) l1 r.lineA l2 r.lineB
      fineAB := match r.lineA.bind (l1[·]?), r.lineB.bind (l2[·]?) with
        | some x, some y => fineSegments mask x y
        | _, _ => [] }
  | e_SrcSelector.B =>
    { r with
      bBEqC := pairEqual (lineEqual mask) l1 r.lineB l2 r.lineC
      fineBC := match r.lineB.bind (l1[·]?), r.lineC.bind (l2[·]?) with
        | some x, some y => fineSegments mask x y
        | _, _ => [] }
  | e_SrcSelector.C =>
    { r with
      bAEqC := pairEqual (lineEqual mask) l1 r.lineC l2 r.lineA
      fineCA := match r.lineC.bind (l1[·]?), r.lineA.bind (l2[·]?) with
        | some x, some y => fineSegments mask x y
        | _, _ => [] }
  | _ => r

/-- The equality flag of the pair that a fine-diff selector stands for. -/
def pairFlag (sel : e_SrcSelector) (r : Diff3Line) : Bool :=
  match sel with
  | e_SrcSelector.A => r.bAEqB
  | e_SrcSelector.B => r.bBEqC
  | e_SrcSelector.C => r.bAEqC
  | _ => true

/-- Modelled from the spec: `Diff3LineList::fineDiff` (section 4.3; its code is missing).
The selector names the pair (A: A and B, B: B and C, C: C and A).  Returns the list and
"all pairs equal". -/
def fineDiff (sel : e_SrcSelector) (l1 l2 : List LineData) (mask : IgnoreFlags)
    (rows : Diff3LineList) : Diff3LineList × Bool :=
  let rows1 := rows.map (fineDiffLine sel l1 l2 mask)
  (rows1, rows1.all (pairFlag sel))

/-- Is the line of a source at a triple absent or made of whitespace only? -/
def isWhiteAt (ls : List LineData) (i : Option Nat) : Bool :=
  match i with
  | none => true
  | some i =>
    match ls[i]? with
    | some l => l.text.all Char.isWhitespace
    | none => true

/-- Modelled from the spec: `Diff3LineList::calcWhiteDiff3Lines` (the whitespace-only flag
of section 3; its code is missing, and the comment handling is left out): the flag is set
when all lines the triple carries are pure whitespace. -/
def calcWhiteDiff3Lines (lA lB lC : List LineData) (_ignoreComments : Bool)
    (rows : Diff3LineList) : Diff3LineList :=
  rows.map (fun r =>
    { r with bWhiteLine := isWhiteAt lA r.lineA && isWhiteAt lB r.lineB && isWhiteAt lC r.lineC })

/-- The engine of the specification: the stages as modelled above, none of which raises,
on top of the collaborators of `io` (file reading, binary comparison, source reset, hint
insertion, line index range).  `mask` is the ignore-mask of the pairwise line differ. -/
def specEngine (mask : IgnoreFlags) (io : Engine) : Engine :=
  { io with
    runDiff := fun hints l1 l2 s1 s2 => Except.ok (runDiff mask hints l1 l2 s1 s2)
    calcDiff3LineListUsingAB := fun d rows => Except.ok (calcDiff3LineListUsingAB d rows)
    calcDiff3LineListUsingAC := fun d rows => Except.ok (calcDiff3LineListUsingAC d rows)
    calcDiff3LineListUsingBC := fun d rows => Except.ok (calcDiff3LineListUsingBC d rows)
    correctManualDiffAlignment := fun hints rows =>
      Except.ok (correctManualDiffAlignment hints rows)
    calcDiff3LineListTrim := fun lA lB lC hints rows =>
      Except.ok (calcDiff3LineListTrim (lineEqual mask) lA lB lC hints rows)
    fineDiff := fun sel l1 l2 flags rows => Except.ok (fineDiff sel l1 l2 flags rows)
    calcWhiteDiff3Lines := calcWhiteDiff3Lines }

/-! ### Word-wrap remapper -/

/-- Position of the last whitespace character of a list, if there is one. -/
def lastWhite : List Char → Option Nat
  | [] => none
  | c :: cs =>
    match lastWhite cs with
    | some p => some (p + 1)
    | none => if c.isWhitespace then some 0 else none

/-- Modelled from the spec: where a line that is too wide is broken (section 4.5) - after
the last whitespace within the first `w` columns, and at `w` if there is none. -/
def breakPoint (w : Nat) (cs : List Char) : Nat :=
  match lastWhite (cs.take w) with
  | some p => p + 1
  | none => w

/-- Modelled from the spec: the number of display rows one line takes at width `w`
(section 4.5; `DiffTextWindow`'s wrapping code is missing).  One column per character;
`fuel` bounds the number of breaks, the length of the line is enough. -/
def wrapCount (w : Nat) : Nat → List Char → Nat
  | 0, _ => 1
  | fuel + 1, cs =>
    if cs.length ≤ w then 1 else 1 + wrapCount w fuel (cs.drop (breakPoint w cs))

/-- The display rows the line of one source takes at a triple; none when it is absent. -/
def wrapCountAt (w : Nat) (ls : List LineData) (i : Option Nat) : Nat :=
  match i with
  | none => 0
  | some i =>
    match ls[i]? with
    | some l => wrapCount w l.text.length l.text
    | none => 0

/-- Modelled from the spec: the sub-row count of a Diff3Line (section 4.5) - the maximum
over its present lines, and one row when `w` is zero or wrapping is disabled. -/
def subRowCount (wordWrap : Bool) (w : Nat) (lA lB lC : List LineData) (r : Diff3Line) : Nat :=
  if !wordWrap || w = 0 then 1
  else max 1 (max (wrapCountAt w lA r.lineA) (max (wrapCountAt w lB r.lineB)
    (wrapCountAt w lC r.lineC)))

/-- Modelled from the spec: the sub-row counts of the Diff3Line sequence, from which the
display map is built. -/
def displayCounts (wordWrap : Bool) (w : Nat) (lA lB lC : List LineData)
    (rows : Diff3LineList) : List Nat :=
  rows.map (subRowCount wordWrap w lA lB lC)

/-- Modelled from the spec: the display map (section 4.5), forward direction - the display
row of sub-row `sub` of Diff3Line `idx`. -/
def displayRow (counts : List Nat) (idx sub : Nat) : Nat := (counts.take idx).sum + sub

/-- Modelled from the spec: the display map (section 4.5), inverse direction - the
Diff3Line index and the sub-row of a display row. -/
def locateRow : List Nat → Nat → Nat × Nat
  | [], r => (0, r)
  | c :: cs, r => if r < c then (0, r) else ((locateRow cs (r - c)).1 + 1, (locateRow cs (r - c)).2)

/-- Modelled from the spec: `DiffTextWindow::convertLineToDiff3LineIdx` (its code is
missing) - the Diff3Line index of a display row. -/
def convertLineToDiff3LineIdx (counts : List Nat) (line : Nat) : Nat := (locateRow counts line).1

/-- Modelled from the spec: `DiffTextWindow::convertDiff3LineIdxToLine` (its code is
missing) - the display row at which a Diff3Line starts. -/
def convertDiff3LineIdxToLine (counts : List Nat) (idx : Nat) : Nat := displayRow counts idx 0

/-- The lines of the first input that a sequence of steps goes through. -/
def count1 : List EditOp → Nat
  | [] => 0
  | EditOp.ins :: ops => count1 ops
  | _ :: ops => count1 ops + 1

/-- The lines of the second input that a sequence of steps goes through. -/
def count2 : List EditOp → Nat
  | [] => 0
  | EditOp.del :: ops => count2 ops
  | _ :: ops => count2 ops + 1

/-- The C lines that the plan of the AC diff attaches to line `i` of A. -/
def planAt (plan : List (List Nat × Option Nat)) (i : Nat) : List Nat :=
  match plan[i]? with
  | none => []
  | some p => p.1 ++ p.2.toList

/-- Two Diff3Line lists carry the same lines of every source, in the same order. -/
def SameLines (a b : Diff3LineList) : Prop := ∀ s : e_SrcSelector, linesOf s a = linesOf s b

/-- The rule changes flags only: settling a triple keeps its line indices. -/
def MoveRule.KeepsLines (rule : MoveRule) : Prop :=
  ∀ (t s : e_SrcSelector) (r : Diff3Line), (rule.settle t r).getLine s = r.getLine s

/-- Closure of a property of the Diff3Line list under the stages that run after the AC
fold-in: manual alignment correction, trim, BC overlay and fine diff. -/
structure WeaveClosed (mask : IgnoreFlags)
    (J : SourceData → SourceData → SourceData → Diff3LineList → Prop) : Prop where
  correct : ∀ s1 s2 s3 l hints, J s1 s2 s3 l → J s1 s2 s3 (correctManualDiffAlignment hints l)
  trim : ∀ s1 s2 s3 l hints, J s1 s2 s3 l →
    J s1 s2 s3 (calcDiff3LineListTrim (lineEqual mask) s1.lines s2.lines s3.lines hints l)
  usingBC : ∀ s1 s2 s3 l d, J s1 s2 s3 l → J s1 s2 s3 (calcDiff3LineListUsingBC d l)
  fine : ∀ s1 s2 s3 l sel l1 l2 m, J s1 s2 s3 l → J s1 s2 s3 (fineDiff sel l1 l2 m l).1

/-- The lines of the three sources are all there, in order: the non-absent indices of each
source are `0, 1, ..., lineCount - 1`. -/
def Woven (s1 s2 s3 : SourceData) (l : Diff3LineList) : Prop :=
  linesOf e_SrcSelector.A l = List.range s1.lineCount ∧
  linesOf e_SrcSelector.B l = List.range s2.lineCount ∧
  linesOf e_SrcSelector.C l = List.range s3.lineCount

/-- The state after pass 1: the lines of A and B are there in order, C is absent. -/
def Seeded (s1 s2 : SourceData) (l : Diff3LineList) : Prop :=
  linesOf e_SrcSelector.A l = List.range s1.lineCount ∧
  linesOf e_SrcSelector.B l = List.range s2.lineCount ∧
  ∀ r ∈ l, r.lineC = none

/-- All three sources are text. -/
def AllText (s1 s2 s3 : SourceData) : Prop :=
  s1.text = true ∧ s2.text = true ∧ s3.text = true

/-- An equality flag is set only where both lines are present. -/
def FlagsPresent (r : Diff3Line) : Prop :=
  (r.bAEqB = true → r.lineA.isSome = true ∧ r.lineB.isSome = true) ∧
  (r.bAEqC = true → r.lineA.isSome = true ∧ r.lineC.isSome = true) ∧
  (r.bBEqC = true → r.lineB.isSome = true ∧ r.lineC.isSome = true)

/-- The rule keeps a property of triples, whichever index comes or goes. -/
def MoveRule.Keeps (rule : MoveRule) (P : Diff3Line → Prop) : Prop :=
  ∀ (sel : e_SrcSelector) (v : Option Nat) (d : Diff3Line),
    P d → P (rule.settle sel (d.setLine sel v))

/-- All three sources hold data. -/
def AllData (s1 s2 s3 : SourceData) : Prop :=
  s1.data = true ∧ s2.data = true ∧ s3.data = true

/-- The three equality flags of a triple are the line comparisons under the ignore-mask
`f`, as the fine differ sets them. -/
def FlagsExact (f : IgnoreFlags) (s1 s2 s3 : SourceData) (r : Diff3Line) : Prop :=
  r.bAEqB = pairEqual (lineEqual f) s1.lines r.lineA s2.lines r.lineB ∧
  r.bBEqC = pairEqual (lineEqual f) s2.lines r.lineB s3.lines r.lineC ∧
  r.bAEqC = pairEqual (lineEqual f) s3.lines r.lineC s1.lines r.lineA

/-- A triple of the two-way list: no C index, and flags only where both lines are. -/
def TwoWayRow (r : Diff3Line) : Prop := r.lineC = none ∧ FlagsPresent r

/-! ## Concrete inputs

Small sources, collaborators and application states on which the definitions are
evaluated. -/

/-- A line without comments, one display column per character. -/
def mkLine (s : String) : LineData := ⟨s.toList, [], s.length⟩

/-- A loaded text source with the given lines. -/
def textSource (name : String) (ls : List String) : SourceData :=
  { empty := false, data := true, text := true, lines := ls.map mkLine,
    sizeBytes := (ls.map (fun s => s.length + 1)).sum, errors := [], aliasName := name }

/-- A source that was never set. -/
def noSource : SourceData :=
  { empty := true, data := false, text := true, lines := [], sizeBytes := 0, errors := [],
    aliasName := "" }

/-- A loaded source with binary content. -/
def binarySource (name : String) (size : Nat) : SourceData :=
  { empty := false, data := true, text := false, lines := [], sizeBytes := size, errors := [],
    aliasName := name }

/-- Collaborators that keep the sources as they are: reading returns the source already
held, two sources are binary equal when their lines and sizes agree, and `LineType` is a
32-bit signed integer.  The stage fields do nothing. -/
def plainIO : Engine where
  readAndPreprocess := fun _ _ sd => sd
  isBinaryEqualWith := fun s1 s2 => s1.lines == s2.lines && s1.sizeBytes == s2.sizeBytes
  runDiff := fun _ _ _ _ _ => Except.ok []
  calcDiff3LineListUsingAB := fun _ rows => Except.ok rows
  calcDiff3LineListUsingAC := fun _ rows => Except.ok rows
  calcDiff3LineListUsingBC := fun _ rows => Except.ok rows
  correctManualDiffAlignment := fun _ rows => Except.ok rows
  calcDiff3LineListTrim := fun _ _ _ _ rows => Except.ok rows
  fineDiff := fun _ _ _ _ rows => Except.ok (rows, true)
  calcWhiteDiff3Lines := fun _ _ _ _ rows => rows
  sourceReset := fun _ => noSource
  insertEntry := fun sel a b l => l ++ [⟨sel, a, b⟩]
  lineTypeMax := 2147483647

/-- The options with every switch off. -/
def plainOptions : Options := ⟨false, false, false, false⟩

/-- An application state that holds the three sources and nothing else. -/
def freshApp (sd1 sd2 sd3 : SourceData) : KDiff3App :=
  { m_sd1 := sd1, m_sd2 := sd2, m_sd3 := sd3
    m_diffList12 := [], m_diffList23 := [], m_diffList13 := []
    m_diff3LineList := [], mDiff3LineVector := [], m_manualDiffHelpList := []
    mErrors := [], m_neededLines := 0, status := TotalDiffStatus.reset
    m_outputFilename := "", m_bTripleDiff := false, m_bOutputModified := false
    m_bFinishMainInit := false, m_bLoadFiles := false, m_bRecalcWordWrapPosted := false
    m_firstD3LIdx := 0, mRunnablesStarted := false
    hasDiffTextWindow1 := true, hasDiffTextWindow2 := true, hasDiffTextWindow3 := true
    m_DTWHeight := 0, vScrollMax := 0, vScrollValue := 0, log := [] }

/-- Two one-line text sources with the same line, no third source. -/
def twoWayApp : KDiff3App :=
  freshApp (textSource "a.txt" ["x"]) (textSource "b.txt" ["x"]) noSource

/-- The engine of the specification on the plain collaborators. -/
def demoEngine : Engine := specEngine IgnoreFlags.none plainIO

/-- The same engine at a moment when the pairwise differ runs out of memory. -/
def demoEngineOom : Engine :=
  { demoEngine with runDiff := fun _ _ _ _ _ => Except.error Exn.badAlloc }

/-- The state after a first, successful rebuild of `twoWayApp`. -/
def rebuiltApp : KDiff3App := mainInit demoEngine plainOptions initWithoutReload twoWayApp

/-- The same engine with a line index type that holds no value above zero. -/
def demoEngineTiny : Engine := { demoEngine with lineTypeMax := 0 }

/-- Collaborators that report a failure for source A on reading; everything else is as in
`plainIO`. -/
def failingReadIO : Engine :=
  { plainIO with
    readAndPreprocess := fun sel _ sd =>
      if sel = e_SrcSelector.A then { sd with errors := ["Preprocessing failed."] } else sd }

/-- Two binary sources of equal content, no third source. -/
def binaryApp : KDiff3App :=
  freshApp (binarySource "a.bin" 4) (binarySource "b.bin" 4) noSource

/-- The flags `loadFiles | autoSolve` ("Init with reload"). -/
def initWithReload : InitFlags := ⟨true, false, true, false⟩

/-- Collaborators of the word-wrap slots that start no background work and report no
cancellation; the conversions are the identity. -/
def plainWrapEnv : WrapEnv :=
  { firstLine := 0, convertLineToDiff3LineIdx := fun l => l, convertDiff3LineIdxToLine := fun i => i,
    startRunnables := false, wasCancelled := false, cancelReasonUserAbort := false,
    sumOfLines := 0 }

/-- The rebuilt two-way state after `postRecalcWordWrap`, but with no first diff text
window and a stale row count. -/
def noWindowApp : KDiff3App :=
  { rebuiltApp with hasDiffTextWindow1 := false, m_firstD3LIdx := -1, m_neededLines := 7 }

/-- The row count in the state a word-wrap slot returns. -/
def neededLinesOf (r : Except Exn (Options × KDiff3App)) : Option Int :=
  match r with
  | Except.ok st => some st.2.m_neededLines
  | Except.error _ => none

/-- One Diff3Line that carries line 0 of A only. -/
def wideRows : Diff3LineList := [Diff3Line.ofLines (some 0) none none]

/-- A source A whose only line is nine columns wide. -/
def wideLines : List LineData := [mkLine "aaaa bbbb"]

/-- The sub-row counts of `wideRows` at width 4 with word wrap on. -/
def wideCounts : List Nat := displayCounts true 4 wideLines [] [] wideRows

/-- The collaborators of the word-wrap slots for a display map with the given sub-row
counts (the conversions of the specification), with `firstLine` the first visible row. -/
def specWrapEnv (counts : List Nat) (firstLine : Nat) : WrapEnv :=
  { firstLine := firstLine
    convertLineToDiff3LineIdx := fun l => (convertLineToDiff3LineIdx counts l.toNat : Int)
    convertDiff3LineIdxToLine := fun i => (convertDiff3LineIdxToLine counts i.toNat : Int)
    startRunnables := false, wasCancelled := false, cancelReasonUserAbort := false
    sumOfLines := (counts.sum : Int) }

/-- A state that shows `wideRows`, scrolled to display row 1, with a recalculation
posted. -/
def wideApp : KDiff3App :=
  { freshApp (textSource "a.txt" ["aaaa bbbb"]) (textSource "b.txt" []) noSource with
    m_diff3LineList := wideRows, mDiff3LineVector := wideRows, m_neededLines := 3
    m_firstD3LIdx := -1, m_bRecalcWordWrapPosted := true, m_DTWHeight := 1
    vScrollMax := 3, vScrollValue := 1 }

/-- The scroll position in the state a word-wrap slot returns. -/
def vScrollValueOf (r : Except Exn (Options × KDiff3App)) : Option Int :=
  match r with
  | Except.ok st => some st.2.vScrollValue
  | Except.error _ => none

/-- Three three-line text sources that differ in their middle line. -/
def threeWayApp : KDiff3App :=
  freshApp (textSource "a.txt" ["1", "a", "2"]) (textSource "b.txt" ["1", "b", "2"])
    (textSource "c.txt" ["1", "c", "2"])

/-- The options with only the BC alignment switched on. -/
def alignBCOptions : Options := { plainOptions with bDiff3AlignBC := true }

/-- The three-way triple `(0, 0, 0)` with all lines equal. -/
def equalRow : Diff3Line :=
  { Diff3Line.ofLines (some 0) (some 0) (some 0) with
    bAEqB := true, bAEqC := true, bBEqC := true }

/-- A state with a posted recalculation whose background work is under way. -/
def wrappingApp : KDiff3App :=
  { rebuiltApp with m_bRecalcWordWrapPosted := true, mRunnablesStarted := true,
                    m_neededLines := 5, vScrollMax := 9, vScrollValue := 3, log := [] }

/-- Collaborators of the word-wrap slots at a moment when the progress dialog reports that
the user has cancelled. -/
def abortedWrapEnv : WrapEnv :=
  { plainWrapEnv with wasCancelled := true, cancelReasonUserAbort := true, sumOfLines := 77 }

/-- A text window that shows 80 of its 200 columns. -/
def wideWindow : ScrollWindow := ⟨true, true, 200, 80⟩

/-- A text window that shows all of its 30 columns in a visible width of 60. -/
def narrowWindow : ScrollWindow := ⟨true, true, 30, 60⟩

/-- A window that exists but is hidden. -/
def hiddenWindow : ScrollWindow := ⟨true, false, 500, 40⟩

/-- A window that was never created. -/
def missingWindow : ScrollWindow := ⟨false, false, 0, 0⟩

/-- A stream as it is constructed: UTF-8, no byte order mark. -/
def freshStream : EncodedDataStream := ⟨true, true, "UTF-8", false, false⟩

/-- The encoding names of a Qt build that knows UTF-8, UTF-16 and Latin-1. -/
def fewCodecs (name : String) : Bool :=
  name = "UTF-8" || name = "UTF-16" || name = "ISO-8859-1"

/-- The string "kdiff3" in a buffer of seven characters. -/
def sampleString : STRING := ⟨[107, 100, 105, 102, 102, 51, 0]⟩

/-- Sources named `/x/a.txt` and `/y/a.txt`, and no third source. -/
def sameNameApp : KDiff3App :=
  freshApp (textSource "/x/a.txt" []) (textSource "/y/a.txt" []) noSource

/-- The selection of line 0 alone. -/
def firstLineSelected : SelectionRange := (some 0, some 0)

/-- No selection. -/
def nothingSelected : SelectionRange := (none, none)

/-- An entry for a plain file in A and B on which no operation, real or simulated, is
running. -/
def idleInfo : MergeFileInfos :=
  { m_pFileInfoA := some ⟨false, false⟩, m_pFileInfoB := some ⟨false, false⟩
    m_pFileInfoC := none, m_bOperationComplete := true, m_bSimOpComplete := true
    m_bEqualAB := false, m_bEqualAC := false, m_bEqualBC := false
    m_bConflictingAges := false }

/-- A name without regard to case: the code points of its lower-case letters. -/
def foldCase (s : String) : List Nat := s.toList.map (fun c => c.toLower.toNat)

/-- A case-insensitive three-way comparison of names: the lexicographic order of the
case-folded names. -/
def caseInsensitiveCompare (a b : String) : Int :=
  if foldCase a < foldCase b then -1 else if foldCase b < foldCase a then 1 else 0

/-- The name of an entry, for entries that are told apart by their flags only. -/
def flagName (m : MergeFileInfos) : String :=
  if m.hasDir then (if m.m_bEqualAB then "Src" else "doc") else
    (if m.m_bEqualAB then "README" else "main.cpp")

/-- An entry for a directory `doc` that exists in A. -/
def dirInfo : MergeFileInfos :=
  { idleInfo with m_pFileInfoA := some ⟨true, false⟩ }

/-- A state in front of the first load: no source is set, but a manual hint, a stale row and
a stale line count are there. -/
def firstRunApp : KDiff3App :=
  { freshApp noSource noSource noSource with
    m_manualDiffHelpList := [⟨e_SrcSelector.A, 0, 0⟩]
    m_diff3LineList := [⟨some 0, some 0, none, true, false, false, [], [], [], false⟩]
    mDiff3LineVector := [⟨some 0, some 0, none, true, false, false, [], [], [], false⟩]
    m_neededLines := 7 }

/-- Two sources with different names below different directories, no third source. -/
def twoNamesApp : KDiff3App :=
  freshApp (textSource "/x/a.txt" []) noSource (textSource "/y/b.txt" [])

/-! ## Properties of the driver -/

theorem emit_log (e : Event) (app : KDiff3App) : (emit e app).log = app.log ++ [e] := rfl

/-- After `mainInitLoad` the Diff3Line list is empty. -/
theorem mainInitLoad_list (eng : Engine) (inFlags : InitFlags) (app : KDiff3App) :
    (mainInitLoad eng inFlags app).m_diff3LineList = [] := by
  unfold mainInitLoad
  by_cases h : effLoadFiles inFlags app <;> simp [h, resetDiffData, emit, progressStep]

/-- After `mainInitLoad` the Diff3Line vector is empty. -/
theorem mainInitLoad_vector (eng : Engine) (inFlags : InitFlags) (app : KDiff3App) :
    (mainInitLoad eng inFlags app).mDiff3LineVector = [] := by
  unfold mainInitLoad
  by_cases h : effLoadFiles inFlags app <;> simp [h, resetDiffData, emit, progressStep]

/-- `mainInitLoad` does not look at the Diff3Line list or vector it finds. -/
theorem mainInitLoad_forgets (eng : Engine) (inFlags : InitFlags) (app : KDiff3App)
    (l v : Diff3LineList) :
    mainInitLoad eng inFlags { app with m_diff3LineList := l, mDiff3LineVector := v } =
      mainInitLoad eng inFlags app := by
  unfold mainInitLoad effLoadFiles isFirstRun
  by_cases h1 : ((app.m_sd1.empty && !app.m_sd1.data) && (app.m_sd2.empty && !app.m_sd2.data)
      && (app.m_sd3.empty && !app.m_sd3.data)) = true
  · simp [h1, emit]
  · by_cases h2 : inFlags.loadFiles = true
    · simp [h1, h2, resetDiffData, emit, progressStep]
    · simp [h1, h2, emit]

theorem LogGrows.refl (P : Event → Prop) (a : KDiff3App) : LogGrows P a a :=
  ⟨[], by simp, by simp⟩

theorem LogGrows.of_log_eq {P : Event → Prop} {a b : KDiff3App} (h : b.log = a.log) :
    LogGrows P a b :=
  ⟨[], by simp [h], by simp⟩

theorem LogGrows.trans {P : Event → Prop} {a b c : KDiff3App}
    (h1 : LogGrows P a b) (h2 : LogGrows P b c) : LogGrows P a c := by
  obtain ⟨e1, h1, p1⟩ := h1
  obtain ⟨e2, h2, p2⟩ := h2
  refine ⟨e1 ++ e2, by rw [h2, h1, List.append_assoc], ?_⟩
  intro e he
  rcases List.mem_append.1 he with h | h
  · exact p1 e h
  · exact p2 e h

theorem LogGrows.emit {P : Event → Prop} (e : Event) (a : KDiff3App) (h : P e) :
    LogGrows P a (emit e a) :=
  ⟨[e], rfl, by simpa using h⟩

theorem LogGrows.step {P : Event → Prop} {a b : KDiff3App} (e : Event) (h : P e)
    (hb : b.log = a.log ++ [e]) : LogGrows P a b :=
  ⟨[e], hb, by simpa using h⟩

theorem Stage.total_emits {P : Event → Prop} (f : KDiff3App → KDiff3App)
    (h : ∀ app, LogGrows P app (f app)) : Stage.Emits P (Stage.total f) :=
  fun app => h app

theorem Stage.call_emits {P : Event → Prop} {α : Type} (e : Event)
    (r : KDiff3App → Except Exn α) (store : α → KDiff3App → KDiff3App) (he : P e)
    (hs : ∀ a app, LogGrows P app (store a app)) : Stage.Emits P (Stage.call e r store) := by
  intro app
  unfold Stage.call
  cases r app with
  | error x => exact LogGrows.emit e app he
  | ok a => exact (LogGrows.emit e app he).trans (hs a _)

theorem runStages_emits {P : Event → Prop} (l : List Stage)
    (h : ∀ st ∈ l, Stage.Emits P st) : Stage.Emits P (runStages l) := by
  induction l with
  | nil => intro app; exact LogGrows.refl P app
  | cons st rest ih =>
    intro app
    have h1 := h st (by simp) app
    have h2 := ih (fun s hs => h s (by simp [hs]))
    unfold runStages
    rcases hst : st app with ⟨app1, _ | x⟩
    · rw [hst] at h1
      exact h1.trans (h2 app1)
    · rw [hst] at h1
      exact h1

theorem Stage.when_emits {P : Event → Prop} (c : KDiff3App → Bool) (body : List Stage)
    (h : ∀ st ∈ body, Stage.Emits P st) : Stage.Emits P (Stage.when c body) := by
  intro app
  unfold Stage.when
  by_cases hc : c app = true
  · simpa [hc] using runStages_emits body h app
  · simpa [hc] using LogGrows.refl P app

theorem Stage.ite_emits {P : Event → Prop} (c : KDiff3App → Bool) (t e : List Stage)
    (ht : ∀ st ∈ t, Stage.Emits P st) (he : ∀ st ∈ e, Stage.Emits P st) :
    Stage.Emits P (Stage.ite c t e) := by
  intro app
  unfold Stage.ite
  by_cases hc : c app = true
  · simpa [hc] using runStages_emits t ht app
  · simpa [hc] using runStages_emits e he app

theorem diffTwoWay_emits {P : Event → Prop} (hP : ∀ e, e.fromDiff = true → P e)
    (eng : Engine) (f : IgnoreFlags) :
    ∀ st ∈ diffTwoWay eng f, Stage.Emits P st := by
  simp only [diffTwoWay, stRunDiff12, stUsingAB, stFineDiffAB, stStep, progressStep,
    List.forall_mem_cons, List.not_mem_nil, false_implies, implies_true, and_true]
  repeat' first
    | apply And.intro
    | exact Stage.call_emits _ _ _ (hP _ rfl) (fun _ _ => LogGrows.of_log_eq rfl)
    | exact Stage.call_emits _ _ _ (hP _ rfl) (fun _ _ => LogGrows.emit _ _ (hP _ rfl))
    | exact Stage.total_emits _ (fun _ => LogGrows.emit _ _ (hP _ rfl))
    | exact Stage.total_emits _ (fun _ => LogGrows.step _ (hP _ rfl) rfl)
    | exact Stage.total_emits _ (fun _ => LogGrows.of_log_eq rfl)
    | (apply Stage.when_emits
       simp only [List.forall_mem_cons, List.not_mem_nil, false_implies, implies_true,
         and_true])
    | (apply Stage.ite_emits <;>
       simp only [List.forall_mem_cons, List.not_mem_nil, false_implies, implies_true,
         and_true])

theorem diffThreeWay_emits {P : Event → Prop} (hP : ∀ e, e.fromDiff = true → P e)
    (eng : Engine) (opts : Options) (f : IgnoreFlags) (b1 b2 : Bool) :
    ∀ st ∈ diffThreeWay eng opts f b1 b2, Stage.Emits P st := by
  simp only [diffThreeWay, threeWayLoad, threeWayAB, threeWayAC, threeWayBC, threeWayFine,
    threeWayFineAgain, threeWayEnd, List.cons_append, List.nil_append,
    stRunDiff12, stRunDiff13, stRunDiff23, stUsingAB, stUsingAC,
    stUsingBC, stCorrectManualDiffAlignment, stTrim, stFineDiffAB, stFineDiffBC, stFineDiffAC,
    stDebugLineCheck, stStep, progressStep,
    List.forall_mem_cons, List.not_mem_nil, false_implies, implies_true, and_true]
  repeat' first
    | apply And.intro
    | exact Stage.call_emits _ _ _ (hP _ rfl) (fun _ _ => LogGrows.of_log_eq rfl)
    | exact Stage.call_emits _ _ _ (hP _ rfl) (fun _ _ => LogGrows.emit _ _ (hP _ rfl))
    | exact Stage.total_emits _ (fun _ => LogGrows.emit _ _ (hP _ rfl))
    | exact Stage.total_emits _ (fun _ => LogGrows.step _ (hP _ rfl) rfl)
    | exact Stage.total_emits _ (fun _ => LogGrows.of_log_eq rfl)
    | (apply Stage.when_emits
       simp only [List.forall_mem_cons, List.not_mem_nil, false_implies, implies_true,
         and_true])

theorem mainInitTry_emits {P : Event → Prop} (hP : ∀ e, e.fromDiff = true → P e)
    (eng : Engine) (opts : Options) (inFlags : InitFlags) (b1 b2 : Bool) :
    Stage.Emits P (mainInitTry eng opts inFlags b1 b2) := by
  intro app
  unfold mainInitTry
  split
  · exact Stage.ite_emits _ _ _ (diffTwoWay_emits hP eng _)
      (diffThreeWay_emits hP eng opts _ _ _) app
  · exact LogGrows.emit _ _ (hP _ rfl)

theorem mainInitLoad_emits {P : Event → Prop} (hP : ∀ e, e.fromLoad = true → P e)
    (eng : Engine) (inFlags : InitFlags) (app : KDiff3App) :
    LogGrows P app (mainInitLoad eng inFlags app) := by
  unfold mainInitLoad
  by_cases h : effLoadFiles inFlags app = true
  · refine ⟨[Event.mergeResultReset, Event.setMaxNofSteps (if app.m_sd3.empty then 4 else 9),
      Event.readAndPreprocess e_SrcSelector.A inFlags.useCurrentEncoding, Event.step,
      Event.readAndPreprocess e_SrcSelector.B inFlags.useCurrentEncoding, Event.step,
      Event.statusReset], ?_, ?_⟩
    · simp [h, resetDiffData, emit, progressStep]
    · intro e he
      simp only [List.mem_cons, List.mem_singleton, List.not_mem_nil, or_false] at he
      rcases he with rfl | rfl | rfl | rfl | rfl | rfl | rfl <;> exact hP _ rfl
  · refine ⟨[Event.setMaxNofSteps (if app.m_sd3.empty then 2 else 6), Event.statusReset], ?_, ?_⟩
    · simp [h, emit]
    · intro e he
      simp only [List.mem_cons, List.mem_singleton, List.not_mem_nil, or_false] at he
      rcases he with rfl | rfl <;> exact hP _ rfl

theorem mainInitCatch_emits {P : Event → Prop} (hP : ∀ e, e.fromCatch = true → P e)
    (eng : Engine) (r : Run) : LogGrows P r.1 (mainInitCatch eng r) := by
  unfold mainInitCatch
  rcases r with ⟨app, _ | _ | w⟩
  · exact LogGrows.refl _ _
  · refine ⟨[Event.mergeResultReset, Event.sourceReset e_SrcSelector.A,
      Event.sourceReset e_SrcSelector.B, Event.sourceReset e_SrcSelector.C,
      Event.progressClear], ?_, ?_⟩
    · simp [resetDiffData, emit]
    · intro e he
      simp only [List.mem_cons, List.mem_singleton, List.not_mem_nil, or_false] at he
      rcases he with rfl | rfl | rfl | rfl | rfl <;> exact hP _ rfl
  · exact LogGrows.step Event.progressClear (hP _ rfl) rfl

theorem mainInitWhite_emits {P : Event → Prop} (hP : ∀ e, e.isWhiteStage = true → P e)
    (eng : Engine) (opts : Options) (b : Bool) (app : KDiff3App) :
    LogGrows P app (mainInitWhite eng opts b app) := by
  unfold mainInitWhite
  split
  · exact (LogGrows.step (b := { emit Event.calcWhiteDiff3Lines app with
        m_diff3LineList := eng.calcWhiteDiff3Lines app.m_sd1.lines app.m_sd2.lines
          app.m_sd3.lines opts.ignoreComments app.m_diff3LineList })
        Event.calcWhiteDiff3Lines (hP _ rfl) rfl).trans
      (LogGrows.step Event.calcDiff3LineVector (hP _ rfl) rfl)
  · exact LogGrows.refl _ _

theorem mainInitNeededLines_log (eng : Engine) (app : KDiff3App) :
    (mainInitNeededLines eng app).log = app.log := by
  unfold mainInitNeededLines
  split <;> rfl

theorem mainInitFinish_emits {P : Event → Prop} (hP : ∀ e, e.fromFinish = true → P e)
    (inFlags : InitFlags) (b : Bool) (app : KDiff3App) :
    LogGrows P app (mainInitFinish inFlags b app) := by
  unfold mainInitFinish postRecalcWordWrap
  have h1 : P (Event.mergeResultInit inFlags.autoSolve) := hP _ rfl
  have h2 : P Event.createCaption := hP _ rfl
  have h3 : P Event.sigRecalcWordWrap := hP _ rfl
  by_cases g1 : inFlags.initGUI = true <;> by_cases g2 : app.mErrors.isEmpty = true <;>
    by_cases g3 : app.m_bRecalcWordWrapPosted = true <;> simp only [g1, g2, g3, emit] <;>
    first
    | exact LogGrows.step _ h1 rfl
    | exact (LogGrows.step _ h1 rfl).trans (LogGrows.step (a := emit _ app) _ h2 rfl)
    | exact (LogGrows.step _ h1 rfl).trans (LogGrows.step (a := emit _ app) _ h3 rfl)
    | exact (LogGrows.step _ h1 rfl).trans ((LogGrows.step (a := emit _ app) _ h2 rfl).trans
        (LogGrows.step (a := emit _ (emit _ app)) _ h3 rfl))

/-- The log of a `mainInit` run: what lines 93-166 log, then the `try` block and its
handlers, then the whitespace stage, then lines 359-415. -/
theorem mainInit_emits {P : Event → Prop}
    (hP : ∀ e, (e.fromLoad || e.fromDiff || e.fromCatch || e.isWhiteStage || e.fromFinish) = true
      → P e)
    (eng : Engine) (opts : Options) (inFlags : InitFlags) (app : KDiff3App) :
    LogGrows P app (mainInit eng opts inFlags app) := by
  have l1 := mainInitLoad_emits (P := P) (fun e h => hP e (by simp [h])) eng inFlags app
  have l2 := mainInitTry_emits (P := P) (fun e h => hP e (by simp [h])) eng opts inFlags
    (isFirstRun app) (effLoadFiles inFlags app) (mainInitLoad eng inFlags app)
  have l3 := mainInitCatch_emits (P := P) (fun e h => hP e (by simp [h])) eng
    (mainInitRun eng opts inFlags app)
  have l4 := mainInitWhite_emits (P := P) (fun e h => hP e (by simp [h])) eng opts
    (isFirstRun app) (mainInitCatch eng (mainInitRun eng opts inFlags app))
  have l5 : LogGrows P (mainInitDiffed eng opts inFlags app)
      (mainInitNeededLines eng (mainInitDiffed eng opts inFlags app)) :=
    LogGrows.of_log_eq (mainInitNeededLines_log eng _)
  have l6 := mainInitFinish_emits (P := P) (fun e h => hP e (by simp [h])) inFlags
    (effLoadFiles inFlags app) (mainInitNeededLines eng (mainInitDiffed eng opts inFlags app))
  exact (l1.trans (l2.trans (l3.trans (l4.trans l5)))).trans l6

theorem mainInitLoad_no_weave (eng : Engine) (inFlags : InitFlags) (app : KDiff3App) :
    LogGrows (fun e => e.isWeaveStage = false) app (mainInitLoad eng inFlags app) :=
  mainInitLoad_emits (fun e h => by cases e <;> first | rfl | cases h) eng inFlags app

theorem mainInit_forgets (eng : Engine) (opts : Options) (inFlags : InitFlags)
    (app : KDiff3App) (l v : Diff3LineList) :
    mainInit eng opts inFlags { app with m_diff3LineList := l, mDiff3LineVector := v } =
      mainInit eng opts inFlags app := by
  have h := mainInitLoad_forgets eng inFlags app l v
  simp only [mainInit, mainInitDiffed, mainInitRun, h]
  rfl

theorem mainInitCatch_bad_alloc (eng : Engine) (app : KDiff3App) :
    let r := mainInitCatch eng (app, some Exn.badAlloc)
    r.m_diffList12 = [] ∧ r.m_diffList23 = [] ∧ r.m_diffList13 = [] ∧
    r.m_diff3LineList = [] ∧ r.mDiff3LineVector = [] ∧ r.m_manualDiffHelpList = [] ∧
    r.m_sd1 = eng.sourceReset app.m_sd1 ∧ r.m_sd2 = eng.sourceReset app.m_sd2 ∧
    r.m_sd3 = eng.sourceReset app.m_sd3 ∧
    r.mErrors = app.mErrors ++ [msgNotEnoughMemory] ∧ r.m_neededLines = app.m_neededLines := by
  simp [mainInitCatch, resetDiffData, emit]

theorem mainInitNeededLines_nil (eng : Engine) (app : KDiff3App)
    (h : app.m_diff3LineList = []) :
    mainInitNeededLines eng app = { app with m_neededLines := 0 } := by
  simp [mainInitNeededLines, safeLineType, h]

theorem mainInitFinish_fields (inFlags : InitFlags) (b : Bool) (app : KDiff3App) :
    let r := mainInitFinish inFlags b app
    r.m_diffList12 = app.m_diffList12 ∧ r.m_diffList23 = app.m_diffList23 ∧
    r.m_diffList13 = app.m_diffList13 ∧ r.m_diff3LineList = app.m_diff3LineList ∧
    r.mDiff3LineVector = app.mDiff3LineVector ∧
    r.m_manualDiffHelpList = app.m_manualDiffHelpList ∧
    r.m_sd1 = app.m_sd1 ∧ r.m_sd2 = app.m_sd2 ∧ r.m_sd3 = app.m_sd3 ∧
    r.mErrors = app.mErrors ∧ r.m_neededLines = app.m_neededLines ∧
    r.status = app.status := by
  unfold mainInitFinish postRecalcWordWrap
  by_cases h1 : inFlags.initGUI = true <;> by_cases h2 : app.mErrors.isEmpty = true <;>
    by_cases h3 : app.m_bRecalcWordWrapPosted = true <;> simp [h1, h2, h3, emit]

/-- After a `std::bad_alloc` in the `try` block: the state in which `mainInit` returns. -/
theorem mainInit_after_bad_alloc (eng : Engine) (opts : Options) (inFlags : InitFlags)
    (app : KDiff3App) (h : (mainInitRun eng opts inFlags app).2 = some Exn.badAlloc) :
    let r := mainInit eng opts inFlags app
    r.m_diffList12 = [] ∧ r.m_diffList23 = [] ∧ r.m_diffList13 = [] ∧
    r.m_diff3LineList = [] ∧ r.mDiff3LineVector = [] ∧ r.m_manualDiffHelpList = [] ∧
    r.m_sd1 = eng.sourceReset (mainInitRun eng opts inFlags app).1.m_sd1 ∧
    r.m_sd2 = eng.sourceReset (mainInitRun eng opts inFlags app).1.m_sd2 ∧
    r.m_sd3 = eng.sourceReset (mainInitRun eng opts inFlags app).1.m_sd3 ∧
    r.mErrors = (mainInitRun eng opts inFlags app).1.mErrors ++ [msgNotEnoughMemory] ∧
    LogGrows (fun e => e.isWhiteStage = false) app r := by
  intro r
  have hrun : mainInitRun eng opts inFlags app =
      ((mainInitRun eng opts inFlags app).1, some Exn.badAlloc) := by
    rw [← h]
  have hc := mainInitCatch_bad_alloc eng (mainInitRun eng opts inFlags app).1
  rw [← hrun] at hc
  obtain ⟨c1, c2, c3, c4, c5, c6, c7, c8, c9, c10, -⟩ := hc
  have hw : mainInitDiffed eng opts inFlags app =
      mainInitCatch eng (mainInitRun eng opts inFlags app) := by
    simp [mainInitDiffed, mainInitWhite, c10]
  have hn := mainInitNeededLines_nil eng (mainInitDiffed eng opts inFlags app)
    (by rw [hw]; exact c4)
  have hf := mainInitFinish_fields inFlags (effLoadFiles inFlags app)
    (mainInitNeededLines eng (mainInitDiffed eng opts inFlags app))
  obtain ⟨f1, f2, f3, f4, f5, f6, f7, f8, f9, f10, -, -⟩ := hf
  have hlog : LogGrows (fun e => e.isWhiteStage = false) app r := by
    have l1 := mainInitLoad_emits (P := fun e => e.isWhiteStage = false)
      (fun e h => by cases e <;> first | rfl | cases h) eng inFlags app
    have l2 := mainInitTry_emits (P := fun e => e.isWhiteStage = false)
      (fun e h => by cases e <;> first | rfl | cases h)
      eng opts inFlags (isFirstRun app) (effLoadFiles inFlags app)
      (mainInitLoad eng inFlags app)
    have l3 := mainInitCatch_emits (P := fun e => e.isWhiteStage = false)
      (fun e h => by cases e <;> first | rfl | cases h) eng
      (mainInitRun eng opts inFlags app)
    have l4 : LogGrows (fun e => e.isWhiteStage = false)
        (mainInitCatch eng (mainInitRun eng opts inFlags app))
        (mainInitNeededLines eng (mainInitDiffed eng opts inFlags app)) := by
      rw [hn, hw]
      exact LogGrows.of_log_eq rfl
    have l5 := mainInitFinish_emits (P := fun e => e.isWhiteStage = false)
      (fun e h => by cases e <;> first | rfl | cases h) inFlags
      (effLoadFiles inFlags app) (mainInitNeededLines eng (mainInitDiffed eng opts inFlags app))
    exact (l1.trans (l2.trans (l3.trans l4))).trans l5
  refine ⟨?_, ?_, ?_, ?_, ?_, ?_, ?_, ?_, ?_, ?_, hlog⟩
  · show (mainInitFinish _ _ _).m_diffList12 = _
    rw [f1, hn, hw]; exact c1
  · show (mainInitFinish _ _ _).m_diffList23 = _
    rw [f2, hn, hw]; exact c2
  · show (mainInitFinish _ _ _).m_diffList13 = _
    rw [f3, hn, hw]; exact c3
  · show (mainInitFinish _ _ _).m_diff3LineList = _
    rw [f4, hn, hw]; exact c4
  · show (mainInitFinish _ _ _).mDiff3LineVector = _
    rw [f5, hn, hw]; exact c5
  · show (mainInitFinish _ _ _).m_manualDiffHelpList = _
    rw [f6, hn, hw]; exact c6
  · show (mainInitFinish _ _ _).m_sd1 = _
    rw [f7, hn, hw]; exact c7
  · show (mainInitFinish _ _ _).m_sd2 = _
    rw [f8, hn, hw]; exact c8
  · show (mainInitFinish _ _ _).m_sd3 = _
    rw [f9, hn, hw]; exact c9
  · show (mainInitFinish _ _ _).mErrors = _
    rw [f10, hn, hw]; exact c10

/-- The run of the two-way `try` block when A or B is not text. -/
theorem mainInitTry_binary (eng : Engine) (opts : Options) (inFlags : InitFlags) (b : Bool)
    (app : KDiff3App) (he : app.mErrors = []) (h3 : app.m_sd3.empty = true)
    (ht : (app.m_sd1.text && app.m_sd2.text) = false) :
    mainInitTry eng opts inFlags false b app =
      (progressStep (progressStep
        (setBinaryEqualAB (eng.isBinaryEqualWith app.m_sd1 app.m_sd2) app)), none) := by
  simp [mainInitTry, he, Stage.ite, h3, diffTwoWay, runStages, Stage.total, setBinaryEqualAB,
    emit, progressStep, ht, stStep]

theorem mainInitLoad_first_run (eng : Engine) (inFlags : InitFlags) (app : KDiff3App)
    (h : isFirstRun app = true) :
    mainInitLoad eng inFlags app =
      { emit Event.statusReset (emit (Event.setMaxNofSteps (if app.m_sd3.empty then 2 else 6))
          { app with mErrors := [], m_diff3LineList := [], mDiff3LineVector := [] }) with
        status := TotalDiffStatus.reset } := by
  simp [mainInitLoad, effLoadFiles, h, emit]

theorem mainInitLoad_status (eng : Engine) (inFlags : InitFlags) (app : KDiff3App) :
    (mainInitLoad eng inFlags app).status = TotalDiffStatus.reset := by
  unfold mainInitLoad
  rfl

theorem mainInitNeededLines_fields (eng : Engine) (app : KDiff3App) :
    (mainInitNeededLines eng app).m_diff3LineList = app.m_diff3LineList ∧
    (mainInitNeededLines eng app).status = app.status ∧
    (mainInitNeededLines eng app).log = app.log := by
  unfold mainInitNeededLines
  split <;> exact ⟨rfl, rfl, rfl⟩

theorem mainInitWhite_not_text (eng : Engine) (opts : Options) (b : Bool) (a : KDiff3App)
    (ht : (a.m_sd1.text && a.m_sd2.text) = false) : mainInitWhite eng opts b a = a := by
  unfold mainInitWhite
  rw [if_neg]
  intro hc
  simp only [Bool.and_eq_true] at hc
  rw [hc.1.2, hc.2] at ht
  cases ht

/-- What follows lines 93-166 of `mainInit` in two-way mode when A or B is not text; `L`
is the state those lines leave. -/
theorem mainInit_tail_binary (eng : Engine) (opts : Options) (inFlags : InitFlags)
    (b1 b2 : Bool) (L : KDiff3App) (hL : L.m_diff3LineList = [])
    (hs : L.status = TotalDiffStatus.reset) (h3 : L.m_sd3.empty = true)
    (ht : (L.m_sd1.text && L.m_sd2.text) = false) :
    (mainInitFinish inFlags b2 (mainInitNeededLines eng (mainInitWhite eng opts b1
      (mainInitCatch eng (mainInitTry eng opts inFlags b1 b2 L))))).m_diff3LineList = [] ∧
    (mainInitFinish inFlags b2 (mainInitNeededLines eng (mainInitWhite eng opts b1
      (mainInitCatch eng (mainInitTry eng opts inFlags b1 b2 L))))).status.bTextAEqB = false ∧
    LogGrows (fun e => e.isWeaveStage = false ∧ e.isFineStage = false) L
      (mainInitFinish inFlags b2 (mainInitNeededLines eng (mainInitWhite eng opts b1
        (mainInitCatch eng (mainInitTry eng opts inFlags b1 b2 L))))) ∧
    (L.mErrors = [] → b1 = false →
      (mainInitFinish inFlags b2 (mainInitNeededLines eng (mainInitWhite eng opts b1
        (mainInitCatch eng (mainInitTry eng opts inFlags b1 b2 L))))).status.bBinaryAEqB =
          eng.isBinaryEqualWith L.m_sd1 L.m_sd2 ∧
      Event.setBinaryEqualAB (eng.isBinaryEqualWith L.m_sd1 L.m_sd2) ∈
        (mainInitFinish inFlags b2 (mainInitNeededLines eng (mainInitWhite eng opts b1
          (mainInitCatch eng (mainInitTry eng opts inFlags b1 b2 L))))).log) := by
  have hP2 : ∀ e : Event, e.fromFinish = true →
      e.isWeaveStage = false ∧ e.isFineStage = false :=
    fun e h => by cases e <;> first | exact ⟨rfl, rfl⟩ | cases h
  by_cases hg : L.mErrors = [] ∧ b1 = false
  · obtain ⟨he, hf⟩ := hg
    subst hf
    rw [mainInitTry_binary eng opts inFlags b2 L he h3 ht]
    generalize hX : progressStep (progressStep
      (setBinaryEqualAB (eng.isBinaryEqualWith L.m_sd1 L.m_sd2) L)) = X
    have x1 : X.m_diff3LineList = [] := by rw [← hX]; exact hL
    have x2 : X.status.bTextAEqB = false := by
      rw [← hX]
      show L.status.bTextAEqB = false
      rw [hs]; rfl
    have x3 : X.status.bBinaryAEqB = eng.isBinaryEqualWith L.m_sd1 L.m_sd2 := by rw [← hX]; rfl
    have x4 : X.log = L.log ++ [Event.setBinaryEqualAB (eng.isBinaryEqualWith L.m_sd1 L.m_sd2),
        Event.step, Event.step] := by
      rw [← hX]
      simp only [progressStep, setBinaryEqualAB, emit, List.append_assoc, List.cons_append,
        List.nil_append]
    have x5 : (X.m_sd1.text && X.m_sd2.text) = false := by rw [← hX]; exact ht
    have hc : mainInitCatch eng (X, none) = X := rfl
    rw [hc, mainInitWhite_not_text eng opts false X x5]
    obtain ⟨-, -, -, f4, -, -, -, -, -, -, -, f12⟩ :=
      mainInitFinish_fields inFlags b2 (mainInitNeededLines eng X)
    obtain ⟨n1, n2, n3⟩ := mainInitNeededLines_fields eng X
    have hfin := mainInitFinish_emits hP2 inFlags b2 (mainInitNeededLines eng X)
    have hmid : LogGrows (fun e => e.isWeaveStage = false ∧ e.isFineStage = false) L
        (mainInitNeededLines eng X) := by
      refine ⟨_, n3.trans x4, ?_⟩
      intro e he
      simp only [List.mem_cons, List.mem_singleton, List.not_mem_nil, or_false] at he
      rcases he with rfl | rfl | rfl <;> exact ⟨rfl, rfl⟩
    refine ⟨by rw [f4, n1, x1], by rw [f12, n2, x2], hmid.trans hfin, fun _ _ => ⟨?_, ?_⟩⟩
    · rw [f12, n2, x3]
    · obtain ⟨evs, hl, -⟩ := hfin
      rw [hl, n3, x4]
      simp
  · have hrun : mainInitTry eng opts inFlags b1 b2 L = (emit Event.progressClear L, none) := by
      unfold mainInitTry
      rw [if_neg]
      intro hc
      apply hg
      simp only [Bool.and_eq_true, List.isEmpty_iff, Bool.not_eq_true'] at hc
      exact hc
    rw [hrun]
    have hc : mainInitCatch eng (emit Event.progressClear L, none) =
      emit Event.progressClear L := rfl
    rw [hc, mainInitWhite_not_text eng opts b1 (emit Event.progressClear L) ht]
    obtain ⟨-, -, -, f4, -, -, -, -, -, -, -, f12⟩ :=
      mainInitFinish_fields inFlags b2 (mainInitNeededLines eng (emit Event.progressClear L))
    obtain ⟨n1, n2, n3⟩ := mainInitNeededLines_fields eng (emit Event.progressClear L)
    have hfin := mainInitFinish_emits hP2 inFlags b2
      (mainInitNeededLines eng (emit Event.progressClear L))
    have hmid : LogGrows (fun e => e.isWeaveStage = false ∧ e.isFineStage = false) L
        (mainInitNeededLines eng (emit Event.progressClear L)) := by
      refine ⟨[Event.progressClear], n3, ?_⟩
      intro e he
      simp only [List.mem_singleton] at he
      subst he
      exact ⟨rfl, rfl⟩
    refine ⟨by rw [f4, n1]; exact hL, ?_, hmid.trans hfin, fun he hf => absurd ⟨he, hf⟩ hg⟩
    rw [f12, n2]
    show L.status.bTextAEqB = false
    rw [hs]; rfl

theorem windowsRecalcWordWrap_fields (wrap : Bool) (lines width : Int) (app : KDiff3App) :
    (windowsRecalcWordWrap wrap lines width app).m_neededLines = app.m_neededLines ∧
    (windowsRecalcWordWrap wrap lines width app).m_diff3LineList = app.m_diff3LineList ∧
    (windowsRecalcWordWrap wrap lines width app).mRunnablesStarted = app.mRunnablesStarted := by
  unfold windowsRecalcWordWrap
  by_cases h1 : app.hasDiffTextWindow1 = true <;> by_cases h2 : app.hasDiffTextWindow2 = true <;>
    by_cases h3 : app.hasDiffTextWindow3 = true <;> simp [h1, h2, h3, emit]

theorem finishBackground_fields (app : KDiff3App) :
    (finishBackground app).m_neededLines = app.m_neededLines ∧
    (finishBackground app).m_diff3LineList = app.m_diff3LineList := by
  unfold finishBackground
  split <;> exact ⟨rfl, rfl⟩

theorem finishWrap_off (w : WrapEnv) (width : Int) (opts : Options) (app : KDiff3App)
    (hw : opts.wordWrapOn = false) :
    (finishWrap w width opts app).m_neededLines = app.m_neededLines ∧
    (finishWrap w width opts app).m_diff3LineList = app.m_diff3LineList := by
  unfold finishWrap
  rw [hw]
  split
  · exact ⟨(windowsRecalcWordWrap_fields false 1 0 app).1,
      (windowsRecalcWordWrap_fields false 1 0 app).2.1⟩
  · exact ⟨rfl, rfl⟩

theorem finishScroll_fields (w : WrapEnv) (width : Int) (app : KDiff3App) :
    (finishScroll w width app).m_neededLines = app.m_neededLines ∧
    (finishScroll w width app).m_diff3LineList = app.m_diff3LineList := by
  unfold finishScroll
  split
  · exact ⟨rfl, rfl⟩
  · simp only
    split <;> exact ⟨rfl, rfl⟩

theorem finishMainInitCall_fields (app : KDiff3App) :
    (finishMainInitCall app).m_neededLines = app.m_neededLines ∧
    (finishMainInitCall app).m_diff3LineList = app.m_diff3LineList := by
  unfold finishMainInitCall
  split <;> exact ⟨rfl, rfl⟩

/-- With word wrap off, `slotFinishRecalcWordWrap` leaves `m_neededLines`, the option and
the Diff3Line list as they are. -/
theorem slotFinishRecalcWordWrap_off (w : WrapEnv) (width : Int) (st : Options × KDiff3App)
    (hw : st.1.wordWrapOn = false) :
    (slotFinishRecalcWordWrap w width st).2.m_neededLines = st.2.m_neededLines ∧
    (slotFinishRecalcWordWrap w width st).1 = st.1 ∧
    (slotFinishRecalcWordWrap w width st).2.m_diff3LineList = st.2.m_diff3LineList := by
  unfold slotFinishRecalcWordWrap
  simp only [hw, Bool.false_and, Bool.false_eq_true, if_false]
  refine ⟨?_, trivial, ?_⟩
  · rw [(finishMainInitCall_fields _).1, (finishScroll_fields _ _ _).1,
      (finishWrap_off _ _ _ _ hw).1]
    exact (finishBackground_fields st.2).1
  · rw [(finishMainInitCall_fields _).2, (finishScroll_fields _ _ _).2,
      (finishWrap_off _ _ _ _ hw).2]
    exact (finishBackground_fields st.2).2

/-- With word wrap off, starting the background work leaves `m_neededLines` and the
option as they are. -/
theorem recalcWordWrapStart_off (w : WrapEnv) (width : Int) (opts : Options)
    (app : KDiff3App) (hw : opts.wordWrapOn = false) :
    (recalcWordWrapStart w width opts app).2.m_neededLines = app.m_neededLines ∧
    (recalcWordWrapStart w width opts app).1 = opts := by
  unfold recalcWordWrapStart
  simp only
  split
  · rw [(slotFinishRecalcWordWrap_off w width _ hw).1,
      (slotFinishRecalcWordWrap_off w width _ hw).2.1]
    exact ⟨rfl, rfl⟩
  · exact ⟨rfl, rfl⟩

theorem locateRow_spec (counts : List Nat) (r : Nat) (h : r < counts.sum) :
    (counts.take (locateRow counts r).1).sum + (locateRow counts r).2 = r ∧
    (locateRow counts r).1 < counts.length := by
  induction counts generalizing r with
  | nil => simp at h
  | cons c cs ih =>
    unfold locateRow
    by_cases hc : r < c
    · simp [hc]
    · simp only [hc, if_false, List.take_succ_cons, List.sum_cons, List.length_cons]
      have h2 : r - c < cs.sum := by
        simp only [List.sum_cons] at h
        omega
      obtain ⟨i1, i2⟩ := ih (r - c) h2
      constructor
      · omega
      · omega

theorem locateRow_ones (counts : List Nat) (r : Nat) (h1 : ∀ c ∈ counts, c = 1)
    (h : r < counts.sum) : (locateRow counts r).2 = 0 := by
  induction counts generalizing r with
  | nil => simp at h
  | cons c cs ih =>
    have hc1 : c = 1 := h1 c (by simp)
    subst hc1
    unfold locateRow
    by_cases hc : r < 1
    · simp only [hc, if_true]
      omega
    · simp only [hc, if_false]
      apply ih
      · intro c hc'
        exact h1 c (by simp [hc'])
      · simp only [List.sum_cons] at h
        omega

theorem displayCounts_ones (wordWrap : Bool) (w : Nat) (lA lB lC : List LineData)
    (rows : Diff3LineList) (h : wordWrap = false ∨ w = 0) :
    ∀ c ∈ displayCounts wordWrap w lA lB lC rows, c = 1 := by
  intro c hc
  simp only [displayCounts, List.mem_map] at hc
  obtain ⟨r, -, rfl⟩ := hc
  unfold subRowCount
  rcases h with h | h <;> simp [h]

theorem count1_append (a b : List EditOp) : count1 (a ++ b) = count1 a + count1 b := by
  induction a with
  | nil => simp [count1]
  | cons x xs ih => cases x <;> simp [count1, ih] <;> omega

theorem count2_append (a b : List EditOp) : count2 (a ++ b) = count2 a + count2 b := by
  induction a with
  | nil => simp [count2]
  | cons x xs ih => cases x <;> simp [count2, ih] <;> omega

theorem count1_replicate_keep (n : Nat) : count1 (List.replicate n EditOp.keep) = n := by
  induction n with
  | zero => rfl
  | succ n ih => simp [List.replicate_succ, count1, ih]

theorem count2_replicate_keep (n : Nat) : count2 (List.replicate n EditOp.keep) = n := by
  induction n with
  | zero => rfl
  | succ n ih => simp [List.replicate_succ, count2, ih]

theorem count1_replicate_change (n : Nat) : count1 (List.replicate n EditOp.change) = n := by
  induction n with
  | zero => rfl
  | succ n ih => simp [List.replicate_succ, count1, ih]

theorem count2_replicate_change (n : Nat) : count2 (List.replicate n EditOp.change) = n := by
  induction n with
  | zero => rfl
  | succ n ih => simp [List.replicate_succ, count2, ih]

theorem count1_replicate_del (n : Nat) : count1 (List.replicate n EditOp.del) = n := by
  induction n with
  | zero => rfl
  | succ n ih => simp [List.replicate_succ, count1, ih]

theorem count2_replicate_del (n : Nat) : count2 (List.replicate n EditOp.del) = 0 := by
  induction n with
  | zero => rfl
  | succ n ih => simp [List.replicate_succ, count2, ih]

theorem count1_replicate_ins (n : Nat) : count1 (List.replicate n EditOp.ins) = 0 := by
  induction n with
  | zero => rfl
  | succ n ih => simp [List.replicate_succ, count1, ih]

theorem count2_replicate_ins (n : Nat) : count2 (List.replicate n EditOp.ins) = n := by
  induction n with
  | zero => rfl
  | succ n ih => simp [List.replicate_succ, count2, ih]

theorem firstMatch_lt {α : Type} (eq : α → α → Bool) (x : α) (ys : List α) (j : Nat)
    (h : firstMatch eq x ys = some j) : j < ys.length := by
  induction ys generalizing j with
  | nil => simp [firstMatch] at h
  | cons y ys ih =>
    unfold firstMatch at h
    by_cases he : eq x y = true
    · simp [he] at h
      subst h
      simp
    · simp only [he, if_false, Bool.false_eq_true, Option.map_eq_some'] at h
      obtain ⟨k, hk, rfl⟩ := h
      have := ih k hk
      simp
      omega

theorem editScript_count {α : Type} (eq : α → α → Bool) (l1 l2 : List α) :
    count1 (editScript eq l1 l2) = l1.length ∧ count2 (editScript eq l1 l2) = l2.length := by
  induction l1 generalizing l2 with
  | nil => simp [editScript, count1_replicate_ins, count2_replicate_ins]
  | cons x xs ih =>
    unfold editScript
    cases hm : firstMatch eq x l2 with
    | none =>
      simp only [count1, count2, List.length_cons]
      exact ⟨by rw [(ih l2).1], (ih l2).2⟩
    | some j =>
      have hj := firstMatch_lt eq x l2 j hm
      simp only
      split
      · rw [count1_append, count2_append, count1_replicate_ins, count2_replicate_ins]
        simp only [count1, count2, List.length_cons]
        rw [(ih _).1, (ih _).2, List.length_drop]
        omega
      · simp only [count1, count2, List.length_cons]
        exact ⟨by rw [(ih l2).1], (ih l2).2⟩

theorem sum1_cons (d : Diff) (l : DiffList) :
    DiffList.sum1 (d :: l) = d.nofEquals + d.diff1 + DiffList.sum1 l := by
  simp [DiffList.sum1]

theorem sum2_cons (d : Diff) (l : DiffList) :
    DiffList.sum2 (d :: l) = d.nofEquals + d.diff2 + DiffList.sum2 l := by
  simp [DiffList.sum2]

theorem sum1_append (a b : DiffList) :
    DiffList.sum1 (a ++ b) = DiffList.sum1 a + DiffList.sum1 b := by
  simp [DiffList.sum1]

theorem sum2_append (a b : DiffList) :
    DiffList.sum2 (a ++ b) = DiffList.sum2 a + DiffList.sum2 b := by
  simp [DiffList.sum2]

theorem collectEdits_sum (cur : Diff) (ops : List EditOp) :
    DiffList.sum1 (collectEdits cur ops) = cur.nofEquals + cur.diff1 + count1 ops ∧
    DiffList.sum2 (collectEdits cur ops) = cur.nofEquals + cur.diff2 + count2 ops := by
  induction ops generalizing cur with
  | nil => simp [collectEdits, DiffList.sum1, DiffList.sum2, count1, count2]
  | cons op ops ih =>
    cases op with
    | keep =>
      unfold collectEdits
      split
      · rename_i h
        have h1 := (ih { cur with nofEquals := cur.nofEquals + 1 }).1
        have h2 := (ih { cur with nofEquals := cur.nofEquals + 1 }).2
        simp only [count1, count2] at *
        constructor <;> omega
      · have h1 := (ih ⟨1, 0, 0⟩).1
        have h2 := (ih ⟨1, 0, 0⟩).2
        rw [sum1_cons, sum2_cons]
        simp only [count1, count2] at *
        constructor <;> omega
    | del =>
      unfold collectEdits
      have h1 := (ih { cur with diff1 := cur.diff1 + 1 }).1
      have h2 := (ih { cur with diff1 := cur.diff1 + 1 }).2
      simp only [count1, count2] at *
      constructor <;> omega
    | ins =>
      unfold collectEdits
      have h1 := (ih { cur with diff2 := cur.diff2 + 1 }).1
      have h2 := (ih { cur with diff2 := cur.diff2 + 1 }).2
      simp only [count1, count2] at *
      constructor <;> omega
    | change =>
      unfold collectEdits
      have h1 := (ih { cur with diff1 := cur.diff1 + 1, diff2 := cur.diff2 + 1 }).1
      have h2 := (ih { cur with diff1 := cur.diff1 + 1, diff2 := cur.diff2 + 1 }).2
      simp only [count1, count2] at *
      constructor <;> omega

theorem diffRange_sum {α : Type} (eq : α → α → Bool) (l1 l2 : List α) :
    DiffList.sum1 (diffRange eq l1 l2) = l1.length ∧
    DiffList.sum2 (diffRange eq l1 l2) = l2.length := by
  unfold diffRange
  rw [(collectEdits_sum _ _).1, (collectEdits_sum _ _).2, (editScript_count eq l1 l2).1,
    (editScript_count eq l1 l2).2]
  simp

theorem runDiffFrom_sum {α : Type} (eq : α → α → Bool) (l1 l2 : List α) (p1 p2 : Nat)
    (anchors : List ((Nat × Nat) × (Nat × Nat))) :
    DiffList.sum1 (runDiffFrom eq l1 l2 p1 p2 anchors) = l1.length ∧
    DiffList.sum2 (runDiffFrom eq l1 l2 p1 p2 anchors) = l2.length := by
  induction anchors generalizing l1 l2 p1 p2 with
  | nil => exact diffRange_sum eq l1 l2
  | cons a rest ih =>
    obtain ⟨⟨a0, a1⟩, ⟨b0, b1⟩⟩ := a
    unfold runDiffFrom
    simp only [sum1_append, sum2_append, sum1_cons, sum2_cons]
    rw [(diffRange_sum eq _ _).1, (diffRange_sum eq _ _).2, (diffRange_sum eq _ _).1,
      (diffRange_sum eq _ _).2, (ih _ _ _ _).1, (ih _ _ _ _).2]
    simp only [List.length_take, List.length_drop]
    omega

/-- The pairwise differ of the specification covers both inputs. -/
theorem runDiff_sum (mask : IgnoreFlags) (hints : ManualDiffHelpList) (l1 l2 : List LineData)
    (s1 s2 : e_SrcSelector) :
    DiffList.sum1 (runDiff mask hints l1 l2 s1 s2) = l1.length ∧
    DiffList.sum2 (runDiff mask hints l1 l2 s1 s2) = l2.length :=
  runDiffFrom_sum _ l1 l2 0 0 _

theorem linesOf_nil (s : e_SrcSelector) : linesOf s [] = [] := rfl

theorem linesOf_cons (s : e_SrcSelector) (r : Diff3Line) (rows : Diff3LineList) :
    linesOf s (r :: rows) = (r.getLine s).toList ++ linesOf s rows := by
  unfold linesOf
  cases h : r.getLine s <;> simp [List.filterMap_cons, h]

theorem linesOf_append (s : e_SrcSelector) (a b : Diff3LineList) :
    linesOf s (a ++ b) = linesOf s a ++ linesOf s b := by
  simp [linesOf, List.filterMap_append]

theorem linesOf_reverse (s : e_SrcSelector) (a : Diff3LineList) :
    linesOf s a.reverse = (linesOf s a).reverse := by
  simp [linesOf, List.filterMap_reverse]

/-- Pass 1 lays out the lines of A and of B in order, and no line of C. -/
theorem seedOps_lines (a b : Nat) (ops : List EditOp) :
    linesOf e_SrcSelector.A (seedOps a b ops) = List.range' a (count1 ops) ∧
    linesOf e_SrcSelector.B (seedOps a b ops) = List.range' b (count2 ops) ∧
    ∀ r ∈ seedOps a b ops, r.lineC = none := by
  induction ops generalizing a b with
  | nil => simp [seedOps, linesOf, count1, count2]
  | cons op ops ih =>
    cases op <;>
      simp only [seedOps, linesOf_cons, count1, count2, Diff3Line.getLine, Diff3Line.ofLines,
        Option.toList, List.mem_cons, forall_eq_or_imp, List.nil_append, List.singleton_append,
        (ih _ _).1, (ih _ _).2.1, List.range'_succ, true_and] <;>
      exact (ih _ _).2.2

theorem count_expandPaired (d : Diff) :
    count1 (expandPaired d) = d.nofEquals + d.diff1 ∧
    count2 (expandPaired d) = d.nofEquals + d.diff2 := by
  unfold expandPaired
  simp only [count1_append, count2_append, count1_replicate_keep, count2_replicate_keep,
    count1_replicate_change, count2_replicate_change, count1_replicate_del,
    count2_replicate_del, count1_replicate_ins, count2_replicate_ins]
  constructor <;> omega

theorem count_expandPairedList (l : DiffList) :
    count1 (expandPairedList l) = l.sum1 ∧ count2 (expandPairedList l) = l.sum2 := by
  induction l with
  | nil => exact ⟨rfl, rfl⟩
  | cons d ds ih =>
    simp only [expandPairedList, count1_append, count2_append, sum1_cons, sum2_cons,
      (count_expandPaired d).1, (count_expandPaired d).2, ih.1, ih.2]
    exact ⟨trivial, trivial⟩

theorem count_expandDiff (d : Diff) :
    count1 (expandDiff d) = d.nofEquals + d.diff1 ∧
    count2 (expandDiff d) = d.nofEquals + d.diff2 := by
  unfold expandDiff
  simp only [count1_append, count2_append, count1_replicate_keep, count2_replicate_keep,
    count1_replicate_del, count2_replicate_del, count1_replicate_ins, count2_replicate_ins]
  constructor <;> omega

theorem count_expandDiffList (l : DiffList) :
    count1 (expandDiffList l) = l.sum1 ∧ count2 (expandDiffList l) = l.sum2 := by
  induction l with
  | nil => exact ⟨rfl, rfl⟩
  | cons d ds ih =>
    simp only [expandDiffList, count1_append, count2_append, sum1_cons, sum2_cons,
      (count_expandDiff d).1, (count_expandDiff d).2, ih.1, ih.2]
    exact ⟨trivial, trivial⟩

/-- Pass 1 on a diff list that covers A and B. -/
theorem calcDiff3LineListUsingAB_lines (d : DiffList) :
    linesOf e_SrcSelector.A (calcDiff3LineListUsingAB d []) = List.range d.sum1 ∧
    linesOf e_SrcSelector.B (calcDiff3LineListUsingAB d []) = List.range d.sum2 ∧
    ∀ r ∈ calcDiff3LineListUsingAB d [], r.lineC = none := by
  unfold calcDiff3LineListUsingAB
  simp only [List.nil_append]
  obtain ⟨h1, h2, h3⟩ := seedOps_lines 0 0 (expandPairedList d)
  rw [(count_expandPairedList d).1] at h1
  rw [(count_expandPairedList d).2] at h2
  exact ⟨by rw [h1, List.range_eq_range'], by rw [h2, List.range_eq_range'], h3⟩

theorem linesOf_cOnly (gap : List Nat) (s : e_SrcSelector) :
    linesOf s (gap.map (fun j => Diff3Line.ofLines none none (some j))) =
      if s = e_SrcSelector.C then gap else [] := by
  induction gap with
  | nil => cases s <;> rfl
  | cons g gs ih =>
    simp only [List.map_cons, linesOf_cons, ih]
    cases s <;> simp [Diff3Line.getLine, Diff3Line.ofLines]

theorem foldRow_lines (plan : List (List Nat × Option Nat)) (r : Diff3Line) :
    linesOf e_SrcSelector.A (foldRow plan r) = r.lineA.toList ∧
    linesOf e_SrcSelector.B (foldRow plan r) = r.lineB.toList ∧
    (r.lineC = none → linesOf e_SrcSelector.C (foldRow plan r) =
      match r.lineA with
      | none => []
      | some i => planAt plan i) := by
  unfold foldRow
  cases hA : r.lineA with
  | none =>
    simp only [linesOf_cons, linesOf_nil, Diff3Line.getLine, hA, List.append_nil]
    exact ⟨trivial, trivial, fun h => by simp [h]⟩
  | some i =>
    simp only [planAt]
    cases hp : plan[i]? with
    | none =>
      simp only [linesOf_cons, linesOf_nil, Diff3Line.getLine, hA, List.append_nil]
      exact ⟨trivial, trivial, fun h => by simp [h]⟩
    | some p =>
      obtain ⟨gap, partner⟩ := p
      have hgap := linesOf_cOnly gap
      simp only [linesOf_append, hgap, linesOf_cons, linesOf_nil, List.append_nil]
      cases partner with
      | none =>
        simp only [Diff3Line.getLine, hA]
        exact ⟨by simp, by simp, fun h => by simp [h]⟩
      | some j =>
        simp only [Diff3Line.getLine, hA]
        exact ⟨by simp, by simp, fun _ => by simp⟩

theorem foldRows_lines (plan : List (List Nat × Option Nat)) (rows : Diff3LineList) :
    linesOf e_SrcSelector.A (foldRows plan rows) = linesOf e_SrcSelector.A rows ∧
    linesOf e_SrcSelector.B (foldRows plan rows) = linesOf e_SrcSelector.B rows ∧
    ((∀ r ∈ rows, r.lineC = none) → linesOf e_SrcSelector.C (foldRows plan rows) =
      ((linesOf e_SrcSelector.A rows).map (planAt plan)).flatten) := by
  induction rows with
  | nil => simp [foldRows, linesOf]
  | cons r rows ih =>
    obtain ⟨h1, h2, h3⟩ := foldRow_lines plan r
    simp only [foldRows, linesOf_append, h1, h2, ih.1, ih.2.1, linesOf_cons, Diff3Line.getLine]
    refine ⟨trivial, trivial, fun hc => ?_⟩
    rw [h3 (hc r (by simp)), ih.2.2 (fun r' hr' => hc r' (by simp [hr']))]
    cases r.lineA <;> simp

theorem planLines_spec (c : Nat) (pending : List Nat) (ops : List EditOp) :
    ((planLines c pending ops).map (fun p => p.1 ++ p.2.toList)).flatten ++
        planTrailing c pending ops = pending ++ List.range' c (count2 ops) ∧
    (planLines c pending ops).length = count1 ops := by
  induction ops generalizing c pending with
  | nil => simp [planLines, planTrailing, count1, count2]
  | cons op ops ih =>
    cases op with
    | keep =>
      have h1 := (ih (c + 1) []).1
      have h2 := (ih (c + 1) []).2
      simp only [List.nil_append] at h1
      simp only [planLines, planTrailing, count1, count2, List.map_cons, List.flatten_cons,
        List.length_cons, List.append_assoc, h1, h2, List.range'_succ]
      exact ⟨rfl, trivial⟩
    | del =>
      have h1 := (ih c []).1
      have h2 := (ih c []).2
      simp only [List.nil_append] at h1
      simp only [planLines, planTrailing, count1, count2, List.map_cons, List.flatten_cons,
        List.length_cons, List.append_assoc, h1, h2]
      exact ⟨rfl, trivial⟩
    | ins =>
      have h1 := (ih (c + 1) (pending ++ [c])).1
      have h2 := (ih (c + 1) (pending ++ [c])).2
      simp only [planLines, planTrailing, count1, count2, h1, h2, List.range'_succ,
        List.append_assoc, List.singleton_append]
      exact ⟨trivial, trivial⟩
    | change =>
      have h1 := (ih (c + 1) [c]).1
      have h2 := (ih (c + 1) [c]).2
      simp only [planLines, planTrailing, count1, count2, List.map_cons, List.flatten_cons,
        List.length_cons, List.append_assoc, h1, h2, List.range'_succ]
      exact ⟨rfl, trivial⟩

theorem planAt_range (plan : List (List Nat × Option Nat)) :
    (List.range plan.length).map (planAt plan) = plan.map (fun p => p.1 ++ p.2.toList) := by
  apply List.ext_getElem
  · simp
  · intro i h1 h2
    simp only [List.length_map, List.length_range] at h1
    simp [planAt, List.getElem?_eq_getElem h1]

/-- Pass 2 on triples that carry the lines of A in order and no line of C: the lines of A
and B stay, the lines of C come in order. -/
theorem calcDiff3LineListUsingAC_lines (d : DiffList) (rows : Diff3LineList)
    (hA : linesOf e_SrcSelector.A rows = List.range d.sum1)
    (hC : ∀ r ∈ rows, r.lineC = none) :
    linesOf e_SrcSelector.A (calcDiff3LineListUsingAC d rows) = linesOf e_SrcSelector.A rows ∧
    linesOf e_SrcSelector.B (calcDiff3LineListUsingAC d rows) = linesOf e_SrcSelector.B rows ∧
    linesOf e_SrcSelector.C (calcDiff3LineListUsingAC d rows) = List.range d.sum2 := by
  unfold calcDiff3LineListUsingAC
  obtain ⟨f1, f2, f3⟩ := foldRows_lines (planLines 0 [] (expandDiffList d)) rows
  obtain ⟨p1, p2⟩ := planLines_spec 0 [] (expandDiffList d)
  rw [(count_expandDiffList d).2] at p1
  rw [(count_expandDiffList d).1] at p2
  have hc := linesOf_cOnly (planTrailing 0 [] (expandDiffList d))
  simp only [linesOf_append, f1, f2, hc, reduceCtorEq, if_false, if_true, List.append_nil]
  refine ⟨trivial, trivial, ?_⟩
  rw [f3 hC, hA, ← p2, planAt_range, p1, List.nil_append, List.range_eq_range']

theorem SameLines.same (a : Diff3LineList) : SameLines a a := fun _ => rfl

theorem SameLines.chain {a b c : Diff3LineList} (h1 : SameLines a b) (h2 : SameLines b c) :
    SameLines a c := fun s => (h1 s).trans (h2 s)

theorem SameLines.flip {a b : Diff3LineList} (h : SameLines a b) : SameLines b a :=
  fun s => (h s).symm

theorem getLine_setLine (s t : e_SrcSelector) (v : Option Nat) (r : Diff3Line) :
    (r.setLine t v).getLine s =
      if s = t ∧ (t = e_SrcSelector.A ∨ t = e_SrcSelector.B ∨ t = e_SrcSelector.C) then v
      else r.getLine s := by
  cases s <;> cases t <;> simp [Diff3Line.getLine, Diff3Line.setLine]

theorem getLine_clearFlags (s t : e_SrcSelector) (r : Diff3Line) :
    (r.clearFlags t).getLine s = r.getLine s := by
  cases s <;> cases t <;> rfl

theorem getLine_invalid (s : e_SrcSelector) (r : Diff3Line)
    (h : ¬ (s = e_SrcSelector.A ∨ s = e_SrcSelector.B ∨ s = e_SrcSelector.C)) :
    r.getLine s = none := by
  cases s <;> simp_all [Diff3Line.getLine]

theorem linesOf_replicate_empty (s : e_SrcSelector) (k : Nat) :
    linesOf s (List.replicate k (Diff3Line.ofLines none none none)) = [] := by
  induction k with
  | zero => rfl
  | succ k ih =>
    rw [List.replicate_succ, linesOf_cons, ih]
    cases s <;> rfl

theorem linesOf_zipWith_set (s t : e_SrcSelector) (rows : Diff3LineList)
    (vs : List (Option Nat)) (h : rows.length = vs.length) :
    linesOf s (List.zipWith (fun r v => (r.setLine t v).clearFlags t) rows vs) =
      if s = t ∧ (t = e_SrcSelector.A ∨ t = e_SrcSelector.B ∨ t = e_SrcSelector.C) then
        vs.filterMap id
      else linesOf s rows := by
  induction rows generalizing vs with
  | nil =>
    cases vs with
    | nil => simp [linesOf]
    | cons v vs => simp at h
  | cons r rows ih =>
    cases vs with
    | nil => simp at h
    | cons v vs =>
      simp only [List.length_cons, Nat.add_right_cancel_iff] at h
      simp only [List.zipWith_cons_cons, linesOf_cons, ih vs h, getLine_clearFlags,
        getLine_setLine]
      split
      · cases v <;> simp [List.filterMap_cons]
      · rfl

/-- A column shift keeps the lines of every source. -/
theorem shiftColumn_lines (t : e_SrcSelector) (p k : Nat) (rows : Diff3LineList) :
    SameLines (shiftColumn t p k rows) rows := by
  intro s
  unfold shiftColumn
  split
  · rfl
  · rw [linesOf_append, linesOf_zipWith_set s t _ _ (by simp; omega)]
    split
    · rename_i hst
      obtain ⟨rfl, -⟩ := hst
      have h1 : (List.replicate k none ++ (rows.drop p).map (Diff3Line.getLine s)).filterMap id
          = linesOf s (rows.drop p) := by
        rw [List.filterMap_append]
        have : (List.replicate k (none : Option Nat)).filterMap id = [] := by
          induction k with
          | zero => rfl
          | succ k ih => simp [List.replicate_succ]
        rw [this, List.nil_append, List.filterMap_map]
        rfl
      rw [h1, ← linesOf_append, List.take_append_drop]
    · rw [linesOf_append, linesOf_replicate_empty, List.append_nil, ← linesOf_append,
        List.take_append_drop]

theorem foldl_sameLines {α : Type} (f : Diff3LineList → α → Diff3LineList)
    (h : ∀ rows a, SameLines (f rows a) rows) (l : List α) (rows : Diff3LineList) :
    SameLines (l.foldl f rows) rows := by
  induction l generalizing rows with
  | nil => exact SameLines.same rows
  | cons a l ih => exact (ih (f rows a)).chain (h rows a)

theorem alignGroup_lines (g : ManualDiffHelpList) (rows : Diff3LineList) :
    SameLines (alignGroup g rows) rows := by
  unfold alignGroup
  exact foldl_sameLines _
    (fun rs (sp : e_SrcSelector × Nat) => shiftColumn_lines sp.1 sp.2 _ rs) _ rows

/-- Pass 3 keeps the lines of every source. -/
theorem correctManualDiffAlignment_lines (hints : ManualDiffHelpList) (rows : Diff3LineList) :
    SameLines (correctManualDiffAlignment hints rows) rows := by
  unfold correctManualDiffAlignment
  exact foldl_sameLines _ (fun rs g => alignGroup_lines g rs) _ rows

theorem linesOf_map_keep (f : Diff3Line → Diff3Line)
    (h : ∀ (s : e_SrcSelector) (r : Diff3Line), (f r).getLine s = r.getLine s)
    (rows : Diff3LineList) : SameLines (rows.map f) rows := by
  intro s
  induction rows with
  | nil => rfl
  | cons r rows ih => rw [List.map_cons, linesOf_cons, linesOf_cons, ih, h]

theorem place_lines (ok : Diff3Line → Bool) (arrive : Diff3Line → Diff3Line)
    (sel : e_SrcSelector) (x : Nat)
    (harr : ∀ (d : Diff3Line) (s : e_SrcSelector),
      (arrive d).getLine s = if s = sel then some x else d.getLine s)
    (above above1 : Diff3LineList) (h : place ok arrive sel above = some above1)
    (s : e_SrcSelector) :
    linesOf s above1.reverse = linesOf s above.reverse ++ (if s = sel then [x] else []) := by
  induction above generalizing above1 with
  | nil => simp [place] at h
  | cons d above ih =>
    unfold place at h
    by_cases hd : (d.getLine sel).isSome = true
    · simp [hd] at h
    · simp only [hd, if_false, Bool.false_eq_true] at h
      have hdn : d.getLine sel = none := by
        cases hg : d.getLine sel with
        | none => rfl
        | some y => simp [hg] at hd
      cases hp : place ok arrive sel above with
      | some a1 =>
        simp only [hp, Option.some.injEq] at h
        subst h
        simp only [List.reverse_cons, linesOf_append, ih a1 hp, linesOf_cons, linesOf_nil,
          List.append_nil, List.append_assoc]
        by_cases hs : s = sel
        · subst hs
          simp [hdn]
        · simp [hs]
      | none =>
        simp only [hp] at h
        by_cases hok : ok d = true
        · simp only [hok, if_true, Option.some.injEq] at h
          subst h
          simp only [List.reverse_cons, linesOf_append, linesOf_cons, linesOf_nil,
            List.append_nil, harr]
          by_cases hs : s = sel
          · subst hs
            simp [hdn]
          · simp [hs]
        · simp [hok] at h

theorem tryMove_lines (rule : MoveRule) (hr : rule.KeepsLines) (sel : e_SrcSelector)
    (st : Diff3LineList × Diff3Line) (s : e_SrcSelector) :
    linesOf s ((tryMove rule sel st).1.reverse ++ [(tryMove rule sel st).2]) =
      linesOf s (st.1.reverse ++ [st.2]) := by
  unfold tryMove
  cases hx : st.2.getLine sel with
  | none => rfl
  | some x =>
    have hvalid : sel = e_SrcSelector.A ∨ sel = e_SrcSelector.B ∨ sel = e_SrcSelector.C := by
      cases sel <;> simp_all [Diff3Line.getLine]
    have harr : ∀ (d : Diff3Line) (s : e_SrcSelector),
        (rule.settle sel (d.setLine sel (some x))).getLine s =
          if s = sel then some x else d.getLine s := by
      intro d s
      rw [hr, getLine_setLine]
      by_cases hs : s = sel <;> simp [hs, hvalid]
    have hleave : ∀ s : e_SrcSelector, (rule.settle sel (st.2.setLine sel none)).getLine s =
        if s = sel then none else st.2.getLine s := by
      intro s
      rw [hr, getLine_setLine]
      by_cases hs : s = sel <;> simp [hs, hvalid]
    have key : ∀ (ok : Diff3Line → Bool) (a1 : Diff3LineList),
        place ok (fun d => rule.settle sel (d.setLine sel (some x))) sel st.1 = some a1 →
        linesOf s (a1.reverse ++ [rule.settle sel (st.2.setLine sel none)]) =
          linesOf s (st.1.reverse ++ [st.2]) := by
      intro ok a1 hp
      rw [linesOf_append, place_lines ok _ sel x harr st.1 a1 hp s, linesOf_append, linesOf_cons,
        linesOf_cons, hleave, linesOf_nil]
      by_cases hs : s = sel
      · subst hs
        simp [hx]
      · simp [hs]
    simp only
    split
    · split
      · rename_i a1 hp
        exact key _ a1 hp
      · split
        · rename_i a1 hp
          exact key _ a1 hp
        · rfl
    · rfl

/-- A scan of upward moves keeps the lines of every source. -/
theorem scanMoves_lines (rule : MoveRule) (hr : rule.KeepsLines)
    (above rest : Diff3LineList) (s : e_SrcSelector) :
    linesOf s (scanMoves rule above rest) = linesOf s (above.reverse ++ rest) := by
  induction rest generalizing above with
  | nil => simp [scanMoves]
  | cons r rest ih =>
    unfold scanMoves
    simp only
    have h := (tryMove_lines rule hr e_SrcSelector.C
      (tryMove rule e_SrcSelector.B (tryMove rule e_SrcSelector.A (above, r))) s).trans
      ((tryMove_lines rule hr e_SrcSelector.B (tryMove rule e_SrcSelector.A (above, r)) s).trans
        (tryMove_lines rule hr e_SrcSelector.A (above, r) s))
    rw [ih, List.reverse_cons, linesOf_append, h, ← linesOf_append, List.append_assoc,
      List.singleton_append]

theorem removeEmptyLines_lines (rows : Diff3LineList) :
    SameLines (removeEmptyLines rows) rows := by
  intro s
  unfold removeEmptyLines
  induction rows with
  | nil => rfl
  | cons r rows ih =>
    rw [List.filter_cons]
    by_cases he : r.isEmptyLine = true
    · simp only [he, Bool.not_true, Bool.false_eq_true, if_false, ih, linesOf_cons]
      have : r.getLine s = none := by
        simp only [Diff3Line.isEmptyLine, Bool.and_eq_true, Option.isNone_iff_eq_none] at he
        cases s <;> simp [Diff3Line.getLine, he.1.1, he.1.2, he.2]
      simp [this]
    · simp only [he, Bool.not_false, if_true, linesOf_cons, ih]

theorem trimLoop_lines (rule : MoveRule) (hr : rule.KeepsLines) (fuel : Nat)
    (rows : Diff3LineList) : SameLines (trimLoop rule fuel rows) rows := by
  induction fuel generalizing rows with
  | zero => exact SameLines.same rows
  | succ fuel ih =>
    unfold trimLoop
    simp only
    split
    · exact SameLines.same rows
    · refine (ih _).chain ((removeEmptyLines_lines _).chain ?_)
      intro s
      rw [scanMoves_lines rule hr [] rows s]
      rfl

theorem trimRule_keepsLines (eq : LineData → LineData → Bool) (lA lB lC : List LineData)
    (hints : ManualDiffHelpList) : (trimRule eq lA lB lC hints).KeepsLines := by
  intro t s r
  cases s <;> rfl

theorem overlayRule_keepsLines (pairs : List (Nat × Nat)) : (overlayRule pairs).KeepsLines := by
  intro t s r
  exact getLine_clearFlags s t r

/-- Pass 4 keeps the lines of every source. -/
theorem calcDiff3LineListTrim_lines (eq : LineData → LineData → Bool)
    (lA lB lC : List LineData) (hints : ManualDiffHelpList) (rows : Diff3LineList) :
    SameLines (calcDiff3LineListTrim eq lA lB lC hints rows) rows := by
  unfold calcDiff3LineListTrim
  exact (trimLoop_lines _ (trimRule_keepsLines eq lA lB lC hints) _ _).chain
    (removeEmptyLines_lines rows)

theorem getLine_markEqualBC (pairs : List (Nat × Nat)) (s : e_SrcSelector) (r : Diff3Line) :
    (markEqualBC pairs r).getLine s = r.getLine s := by
  unfold markEqualBC
  split
  · split <;> cases s <;> rfl
  · rfl

/-- Pass 5 keeps the lines of every source. -/
theorem calcDiff3LineListUsingBC_lines (d : DiffList) (rows : Diff3LineList) :
    SameLines (calcDiff3LineListUsingBC d rows) rows := by
  unfold calcDiff3LineListUsingBC
  refine (linesOf_map_keep _ (getLine_markEqualBC _) _).chain ?_
  intro s
  rw [scanMoves_lines _ (overlayRule_keepsLines _) [] rows s]
  rfl

theorem getLine_fineDiffLine (sel : e_SrcSelector) (l1 l2 : List LineData)
    (mask : IgnoreFlags) (s : e_SrcSelector) (r : Diff3Line) :
    (fineDiffLine sel l1 l2 mask r).getLine s = r.getLine s := by
  cases sel <;> cases s <;> rfl

/-- The fine differ keeps the lines of every source. -/
theorem fineDiff_lines (sel : e_SrcSelector) (l1 l2 : List LineData) (mask : IgnoreFlags)
    (rows : Diff3LineList) : SameLines (fineDiff sel l1 l2 mask rows).1 rows :=
  linesOf_map_keep _ (getLine_fineDiffLine sel l1 l2 mask) rows

/-- The whitespace classification keeps the lines of every source. -/
theorem calcWhiteDiff3Lines_lines (lA lB lC : List LineData) (b : Bool)
    (rows : Diff3LineList) : SameLines (calcWhiteDiff3Lines lA lB lC b rows) rows :=
  linesOf_map_keep _ (fun s r => by cases s <;> rfl) rows

theorem Stage.Triple.weaken {P P1 Q Q1 : KDiff3App → Prop} {st : Stage}
    (h : Stage.Triple P st Q) (hp : ∀ a, P1 a → P a) (hq : ∀ a, Q a → Q1 a) :
    Stage.Triple P1 st Q1 :=
  fun app hP => ⟨hq _ (h app (hp app hP)).1, (h app (hp app hP)).2⟩

theorem runStages_triple_nil (P : KDiff3App → Prop) : Stage.Triple P (runStages []) P :=
  fun _ h => ⟨h, rfl⟩

theorem runStages_triple_cons {P Q R : KDiff3App → Prop} {st : Stage} {rest : List Stage}
    (h1 : Stage.Triple P st Q) (h2 : Stage.Triple Q (runStages rest) R) :
    Stage.Triple P (runStages (st :: rest)) R := by
  intro app hP
  obtain ⟨q, e⟩ := h1 app hP
  unfold runStages
  rcases hst : st app with ⟨app1, _ | x⟩
  · rw [hst] at q
    exact h2 app1 q
  · rw [hst] at e
    cases e

theorem runStages_triple_append {P Q R : KDiff3App → Prop} {l1 l2 : List Stage}
    (h1 : Stage.Triple P (runStages l1) Q) (h2 : Stage.Triple Q (runStages l2) R) :
    Stage.Triple P (runStages (l1 ++ l2)) R := by
  induction l1 generalizing P with
  | nil =>
    intro app hP
    exact h2 app (h1 app hP).1
  | cons st rest ih =>
    intro app hP
    have h := h1 app hP
    unfold runStages at h
    rw [List.cons_append]
    unfold runStages
    rcases hst : st app with ⟨app1, _ | x⟩
    · rw [hst] at h
      exact ih (P := fun a => a = app1) (fun a ha => by subst ha; exact h) app1 rfl
    · rw [hst] at h
      cases h.2

theorem runStages_keeps {I : KDiff3App → Prop} (l : List Stage)
    (h : ∀ st ∈ l, Stage.Triple I st I) : Stage.Triple I (runStages l) I := by
  induction l with
  | nil => exact runStages_triple_nil I
  | cons st rest ih =>
    exact runStages_triple_cons (h st (by simp)) (ih (fun s hs => h s (by simp [hs])))

theorem Stage.when_keeps {I : KDiff3App → Prop} (c : KDiff3App → Bool) (body : List Stage)
    (h : ∀ st ∈ body, Stage.Triple I st I) : Stage.Triple I (Stage.when c body) I := by
  intro app hI
  unfold Stage.when
  split
  · exact runStages_keeps body h app hI
  · exact ⟨hI, rfl⟩

theorem Stage.when_triple {P Q : KDiff3App → Prop} (c : KDiff3App → Bool) (body : List Stage)
    (hc : ∀ a, P a → c a = true) (h : Stage.Triple P (runStages body) Q) :
    Stage.Triple P (Stage.when c body) Q := by
  intro app hP
  unfold Stage.when
  rw [if_pos (hc app hP)]
  exact h app hP

theorem Stage.ite_keeps {I : KDiff3App → Prop} (c : KDiff3App → Bool) (t e : List Stage)
    (ht : ∀ st ∈ t, Stage.Triple I st I) (he : ∀ st ∈ e, Stage.Triple I st I) :
    Stage.Triple I (Stage.ite c t e) I := by
  intro app hI
  unfold Stage.ite
  split
  · exact runStages_keeps t ht app hI
  · exact runStages_keeps e he app hI

theorem Stage.total_triple {P Q : KDiff3App → Prop} (f : KDiff3App → KDiff3App)
    (h : ∀ app, P app → Q (f app)) : Stage.Triple P (Stage.total f) Q :=
  fun app hP => ⟨h app hP, rfl⟩

theorem Stage.call_triple {P Q : KDiff3App → Prop} {α : Type} (e : Event)
    (r : KDiff3App → Except Exn α) (store : α → KDiff3App → KDiff3App) (v : KDiff3App → α)
    (hr : ∀ app, r app = Except.ok (v app))
    (h : ∀ app, P app → Q (store (v app) (emit e app))) :
    Stage.Triple P (Stage.call e r store) Q := by
  intro app hP
  unfold Stage.call
  rw [hr app]
  exact ⟨h app hP, rfl⟩

/-- A stage that touches neither the sources nor the Diff3Line list keeps every property of
them. -/
theorem Stage.total_keeps (J : SourceData → SourceData → SourceData → Diff3LineList → Prop)
    (f : KDiff3App → KDiff3App)
    (hf : ∀ app, (f app).m_sd1 = app.m_sd1 ∧ (f app).m_sd2 = app.m_sd2 ∧
      (f app).m_sd3 = app.m_sd3 ∧ (f app).m_diff3LineList = app.m_diff3LineList) :
    Stage.Triple (OnWeave J) (Stage.total f) (OnWeave J) := by
  apply Stage.total_triple
  intro app h
  unfold OnWeave at *
  obtain ⟨h1, h2, h3, h4⟩ := hf app
  rw [h1, h2, h3, h4]
  exact h

theorem Stage.when_cases {P Q : KDiff3App → Prop} (c : KDiff3App → Bool) (body : List Stage)
    (h1 : Stage.Triple (fun a => P a ∧ c a = true) (runStages body) Q)
    (h2 : ∀ a, P a → c a = false → Q a) : Stage.Triple P (Stage.when c body) Q := by
  intro app hP
  unfold Stage.when
  by_cases hc : c app = true
  · rw [if_pos hc]
    exact h1 app ⟨hP, hc⟩
  · rw [if_neg hc]
    exact ⟨h2 app hP (by simpa using hc), rfl⟩

theorem stStep_keeps (J : SourceData → SourceData → SourceData → Diff3LineList → Prop) :
    Stage.Triple (OnWeave J) stStep (OnWeave J) :=
  Stage.total_keeps J _ (fun _ => ⟨rfl, rfl, rfl, rfl⟩)

theorem stDebugLineCheck_keeps
    (J : SourceData → SourceData → SourceData → Diff3LineList → Prop)
    (size : KDiff3App → Nat) (sel : e_SrcSelector) :
    Stage.Triple (OnWeave J) (stDebugLineCheck size sel) (OnWeave J) :=
  Stage.total_keeps J _ (fun _ => ⟨rfl, rfl, rfl, rfl⟩)

theorem spec_stRunDiff23_keeps (mask : IgnoreFlags) (io : Engine)
    (J : SourceData → SourceData → SourceData → Diff3LineList → Prop) :
    Stage.Triple (OnWeave J) (stRunDiff23 (specEngine mask io)) (OnWeave J) :=
  Stage.call_triple _ _ _
    (fun app => runDiff mask app.m_manualDiffHelpList app.m_sd2.lines app.m_sd3.lines
      e_SrcSelector.B e_SrcSelector.C)
    (fun _ => rfl) (fun _ h => h)

theorem spec_stUsingBC_keeps (mask : IgnoreFlags) (io : Engine)
    (J : SourceData → SourceData → SourceData → Diff3LineList → Prop)
    (hJ : WeaveClosed mask J) :
    Stage.Triple (OnWeave J) (stUsingBC (specEngine mask io)) (OnWeave J) :=
  Stage.call_triple _ _ _
    (fun app => calcDiff3LineListUsingBC app.m_diffList23 app.m_diff3LineList)
    (fun _ => rfl) (fun _ h => hJ.usingBC _ _ _ _ _ h)

theorem spec_stCorrect_keeps (mask : IgnoreFlags) (io : Engine)
    (J : SourceData → SourceData → SourceData → Diff3LineList → Prop)
    (hJ : WeaveClosed mask J) :
    Stage.Triple (OnWeave J) (stCorrectManualDiffAlignment (specEngine mask io)) (OnWeave J) :=
  Stage.call_triple _ _ _
    (fun app => correctManualDiffAlignment app.m_manualDiffHelpList app.m_diff3LineList)
    (fun _ => rfl) (fun _ h => hJ.correct _ _ _ _ _ h)

theorem spec_stTrim_keeps (mask : IgnoreFlags) (io : Engine)
    (J : SourceData → SourceData → SourceData → Diff3LineList → Prop)
    (hJ : WeaveClosed mask J) :
    Stage.Triple (OnWeave J) (stTrim (specEngine mask io)) (OnWeave J) :=
  Stage.call_triple _ _ _
    (fun app => calcDiff3LineListTrim (lineEqual mask) app.m_sd1.lines app.m_sd2.lines
      app.m_sd3.lines app.m_manualDiffHelpList app.m_diff3LineList)
    (fun _ => rfl) (fun _ h => hJ.trim _ _ _ _ _ h)

theorem spec_stFineDiffAB_keeps (mask : IgnoreFlags) (io : Engine) (f : IgnoreFlags)
    (J : SourceData → SourceData → SourceData → Diff3LineList → Prop)
    (hJ : WeaveClosed mask J) :
    Stage.Triple (OnWeave J) (stFineDiffAB (specEngine mask io) f) (OnWeave J) :=
  Stage.call_triple _ _ _
    (fun app => fineDiff e_SrcSelector.A app.m_sd1.lines app.m_sd2.lines f app.m_diff3LineList)
    (fun _ => rfl) (fun _ h => hJ.fine _ _ _ _ _ _ _ _ h)

theorem spec_stFineDiffBC_keeps (mask : IgnoreFlags) (io : Engine) (f : IgnoreFlags)
    (J : SourceData → SourceData → SourceData → Diff3LineList → Prop)
    (hJ : WeaveClosed mask J) :
    Stage.Triple (OnWeave J) (stFineDiffBC (specEngine mask io) f) (OnWeave J) :=
  Stage.call_triple _ _ _
    (fun app => fineDiff e_SrcSelector.B app.m_sd2.lines app.m_sd3.lines f app.m_diff3LineList)
    (fun _ => rfl) (fun _ h => hJ.fine _ _ _ _ _ _ _ _ h)

theorem spec_stFineDiffAC_keeps (mask : IgnoreFlags) (io : Engine) (f : IgnoreFlags)
    (J : SourceData → SourceData → SourceData → Diff3LineList → Prop)
    (hJ : WeaveClosed mask J) :
    Stage.Triple (OnWeave J) (stFineDiffAC (specEngine mask io) f) (OnWeave J) :=
  Stage.call_triple _ _ _
    (fun app => fineDiff e_SrcSelector.C app.m_sd3.lines app.m_sd1.lines f app.m_diff3LineList)
    (fun _ => rfl) (fun _ h => hJ.fine _ _ _ _ _ _ _ _ h)

/-- With the engine of the specification, everything from the BC diff to the end of the
three-way branch keeps a property that is closed under the later weave stages. -/
theorem spec_threeWayRest_keeps (mask : IgnoreFlags) (io : Engine) (opts : Options)
    (f : IgnoreFlags) (J : SourceData → SourceData → SourceData → Diff3LineList → Prop)
    (hJ : WeaveClosed mask J) :
    Stage.Triple (OnWeave J)
      (runStages (threeWayBC (specEngine mask io) opts ++
        (threeWayFine (specEngine mask io) opts f ++
          (threeWayFineAgain (specEngine mask io) f ++ threeWayEnd))))
      (OnWeave J) := by
  apply runStages_keeps
  simp only [threeWayBC, threeWayFine, threeWayFineAgain, threeWayEnd, List.cons_append,
    List.nil_append, List.forall_mem_cons, List.not_mem_nil, false_implies, implies_true,
    and_true]
  repeat' first
    | apply And.intro
    | exact stStep_keeps J
    | exact stDebugLineCheck_keeps J _ _
    | exact spec_stRunDiff23_keeps mask io J
    | exact spec_stUsingBC_keeps mask io J hJ
    | exact spec_stCorrect_keeps mask io J hJ
    | exact spec_stTrim_keeps mask io J hJ
    | exact spec_stFineDiffAB_keeps mask io f J hJ
    | exact spec_stFineDiffBC_keeps mask io f J hJ
    | exact spec_stFineDiffAC_keeps mask io f J hJ
    | exact Stage.total_keeps J _ (fun _ => ⟨rfl, rfl, rfl, rfl⟩)
    | (apply Stage.when_keeps
       simp only [List.forall_mem_cons, List.not_mem_nil, false_implies, implies_true,
         and_true])

theorem Woven.of_sameLines {s1 s2 s3 : SourceData} {l l1 : Diff3LineList}
    (h : Woven s1 s2 s3 l) (hs : SameLines l1 l) : Woven s1 s2 s3 l1 :=
  ⟨(hs _).trans h.1, (hs _).trans h.2.1, (hs _).trans h.2.2⟩

theorem woven_closed (mask : IgnoreFlags) :
    WeaveClosed mask (fun s1 s2 s3 l => AllText s1 s2 s3 → Woven s1 s2 s3 l) where
  correct := fun _ _ _ _ hints h ht =>
    (h ht).of_sameLines (correctManualDiffAlignment_lines hints _)
  trim := fun _ _ _ _ hints h ht =>
    (h ht).of_sameLines (calcDiff3LineListTrim_lines _ _ _ _ hints _)
  usingBC := fun _ _ _ _ d h ht => (h ht).of_sameLines (calcDiff3LineListUsingBC_lines d _)
  fine := fun _ _ _ _ sel l1 l2 m h ht => (h ht).of_sameLines (fineDiff_lines sel l1 l2 m _)

theorem spec_threeWayLoad_empty (mask : IgnoreFlags) (io : Engine) (b1 b2 : Bool) :
    Stage.Triple (fun a => a.m_diff3LineList = [])
      (runStages (threeWayLoad (specEngine mask io) b1 b2))
      (fun a => a.m_diff3LineList = []) := by
  apply runStages_keeps
  simp only [threeWayLoad, List.forall_mem_cons, List.not_mem_nil, false_implies,
    implies_true, and_true]
  refine ⟨Stage.when_keeps _ _ ?_, ?_, ?_, ?_⟩
  · simp only [List.forall_mem_cons, List.not_mem_nil, false_implies, implies_true, and_true]
    exact ⟨Stage.total_triple _ (fun _ h => h), Stage.total_triple _ (fun _ h => h)⟩
  · exact Stage.total_triple _ (fun _ h => h)
  · exact Stage.total_triple _ (fun _ h => h)
  · exact Stage.total_triple _ (fun _ h => h)

/-- Lines 219-228 with the engine of the specification: from an empty list, pass 1 lays
out A and B. -/
theorem spec_threeWayAB_seeds (mask : IgnoreFlags) (io : Engine) :
    Stage.Triple (fun a => a.m_diff3LineList = [])
      (runStages (threeWayAB (specEngine mask io)))
      (OnWeave (fun s1 s2 s3 l => AllText s1 s2 s3 → Seeded s1 s2 l)) := by
  unfold threeWayAB
  refine runStages_triple_cons (Q := OnWeave (fun s1 s2 s3 l => AllText s1 s2 s3 → Seeded s1 s2 l))
    ?_ (runStages_triple_cons (stStep_keeps _) (runStages_triple_nil _))
  apply Stage.when_cases
  · intro app h
    refine ⟨?_, rfl⟩
    intro _
    obtain ⟨h1, h2, h3⟩ := calcDiff3LineListUsingAB_lines
      (runDiff mask app.m_manualDiffHelpList app.m_sd1.lines app.m_sd2.lines
        e_SrcSelector.A e_SrcSelector.B)
    rw [(runDiff_sum _ _ _ _ _ _).1] at h1
    rw [(runDiff_sum _ _ _ _ _ _).2] at h2
    show Seeded app.m_sd1 app.m_sd2 (calcDiff3LineListUsingAB _ app.m_diff3LineList)
    rw [h.1]
    exact ⟨h1, h2, h3⟩
  · intro app _ hc ht
    obtain ⟨t1, t2, -⟩ := ht
    rw [t1, t2] at hc
    cases hc

/-- Lines 230-241 with the engine of the specification: pass 2 adds C, passes 3 and 4
keep all lines. -/
theorem spec_threeWayAC_weaves (mask : IgnoreFlags) (io : Engine) :
    Stage.Triple (OnWeave (fun s1 s2 s3 l => AllText s1 s2 s3 → Seeded s1 s2 l))
      (runStages (threeWayAC (specEngine mask io)))
      (OnWeave (fun s1 s2 s3 l => AllText s1 s2 s3 → Woven s1 s2 s3 l)) := by
  unfold threeWayAC
  refine runStages_triple_cons (Q := OnWeave (fun s1 s2 s3 l => AllText s1 s2 s3 → Woven s1 s2 s3 l))
    ?_ (runStages_triple_cons (stStep_keeps _) (runStages_triple_nil _))
  apply Stage.when_cases
  · intro app h
    refine ⟨?_, rfl⟩
    intro ht
    obtain ⟨s1, s2, s3⟩ := h.1 ht
    have hd := runDiff_sum mask app.m_manualDiffHelpList app.m_sd1.lines app.m_sd3.lines
      e_SrcSelector.A e_SrcSelector.C
    obtain ⟨a1, a2, a3⟩ := calcDiff3LineListUsingAC_lines
      (runDiff mask app.m_manualDiffHelpList app.m_sd1.lines app.m_sd3.lines
        e_SrcSelector.A e_SrcSelector.C) app.m_diff3LineList (by rw [hd.1]; exact s1) s3
    have hw : Woven app.m_sd1 app.m_sd2 app.m_sd3 (calcDiff3LineListUsingAC
        (runDiff mask app.m_manualDiffHelpList app.m_sd1.lines app.m_sd3.lines
          e_SrcSelector.A e_SrcSelector.C) app.m_diff3LineList) :=
      ⟨a1.trans s1, a2.trans s2, by rw [a3, hd.2]; rfl⟩
    exact (hw.of_sameLines (correctManualDiffAlignment_lines _ _)).of_sameLines
      (calcDiff3LineListTrim_lines _ _ _ _ _ _)
  · intro app _ hc ht
    obtain ⟨t1, -, t3⟩ := ht
    rw [t1, t3] at hc
    cases hc

/-- The three-way branch with the engine of the specification: it ends without an
exception, and if the three sources are text, all their lines are there in order. -/
theorem spec_diffThreeWay_weaves (mask : IgnoreFlags) (io : Engine) (opts : Options)
    (f : IgnoreFlags) (b1 b2 : Bool) :
    Stage.Triple (fun a => a.m_diff3LineList = [])
      (runStages (diffThreeWay (specEngine mask io) opts f b1 b2))
      (OnWeave (fun s1 s2 s3 l => AllText s1 s2 s3 → Woven s1 s2 s3 l)) := by
  unfold diffThreeWay
  exact runStages_triple_append (spec_threeWayLoad_empty mask io b1 b2)
    (runStages_triple_append (spec_threeWayAB_seeds mask io)
      (runStages_triple_append (spec_threeWayAC_weaves mask io)
        (spec_threeWayRest_keeps mask io opts f _ (woven_closed mask))))

theorem mainInitLoad_sd3 (eng : Engine) (inFlags : InitFlags) (app : KDiff3App) :
    (mainInitLoad eng inFlags app).m_sd3 = app.m_sd3 := by
  unfold mainInitLoad
  by_cases h : effLoadFiles inFlags app = true <;> simp [h, resetDiffData, emit, progressStep]

/-- What follows the `try` block keeps a property of the sources and the Diff3Line list
that the whitespace classification keeps. -/
theorem mainInit_tail_keeps (mask : IgnoreFlags) (io : Engine) (opts : Options)
    (inFlags : InitFlags) (b1 b2 : Bool)
    (J : SourceData → SourceData → SourceData → Diff3LineList → Prop)
    (hJ : ∀ s1 s2 s3 l b, J s1 s2 s3 l →
      J s1 s2 s3 (calcWhiteDiff3Lines s1.lines s2.lines s3.lines b l))
    (X : KDiff3App) (h : OnWeave J X) :
    OnWeave J (mainInitFinish inFlags b2 (mainInitNeededLines (specEngine mask io)
      (mainInitWhite (specEngine mask io) opts b1 X))) := by
  have hw : OnWeave J (mainInitWhite (specEngine mask io) opts b1 X) := by
    unfold mainInitWhite
    split
    · exact hJ _ _ _ _ opts.ignoreComments h
    · exact h
  generalize mainInitWhite (specEngine mask io) opts b1 X = Y at hw
  have hn : OnWeave J (mainInitNeededLines (specEngine mask io) Y) := by
    unfold mainInitNeededLines
    split
    · exact hw
    · exact hw
  generalize mainInitNeededLines (specEngine mask io) Y = Z at hn
  obtain ⟨-, -, -, f4, -, -, f7, f8, f9, -, -, -⟩ := mainInitFinish_fields inFlags b2 Z
  unfold OnWeave
  rw [f4, f7, f8, f9]
  exact hn

/-- The error list of `mainInit`'s result starts with the errors found while loading A and
B when those keep the `try` block from running. -/
theorem mainInit_load_errors (eng : Engine) (opts : Options) (inFlags : InitFlags)
    (app : KDiff3App) (hne : (mainInitLoad eng inFlags app).mErrors ≠ []) :
    (mainInit eng opts inFlags app).mErrors ≠ [] := by
  obtain ⟨-, -, -, -, -, -, -, -, -, f10, -, -⟩ := mainInitFinish_fields inFlags
    (effLoadFiles inFlags app) (mainInitNeededLines eng (mainInitDiffed eng opts inFlags app))
  show (mainInitFinish _ _ _).mErrors ≠ []
  rw [f10]
  have hrun : mainInitRun eng opts inFlags app =
      (emit Event.progressClear (mainInitLoad eng inFlags app), none) := by
    unfold mainInitRun mainInitTry
    rw [if_neg]
    intro hc
    simp only [Bool.and_eq_true, List.isEmpty_iff] at hc
    exact hne hc.1
  have hd : (mainInitDiffed eng opts inFlags app).mErrors =
      (mainInitLoad eng inFlags app).mErrors := by
    unfold mainInitDiffed
    rw [hrun]
    generalize mainInitLoad eng inFlags app = L at hne
    have hc : mainInitCatch eng (emit Event.progressClear L, none) =
      emit Event.progressClear L := rfl
    rw [hc]
    unfold mainInitWhite
    rw [if_neg]
    · rfl
    · intro hc
      simp only [Bool.and_eq_true, List.isEmpty_iff] at hc
      exact hne hc.1.1.2
  unfold mainInitNeededLines
  split
  · show (mainInitDiffed eng opts inFlags app).mErrors ≠ []
    rw [hd]; exact hne
  · show (mainInitDiffed eng opts inFlags app).mErrors ++ [msgTooManyLines] ≠ []
    simp

theorem woven_white (s1 s2 s3 : SourceData) (l : Diff3LineList) (b : Bool)
    (h : AllText s1 s2 s3 → Woven s1 s2 s3 l) :
    AllText s1 s2 s3 → Woven s1 s2 s3 (calcWhiteDiff3Lines s1.lines s2.lines s3.lines b l) :=
  fun ht => (h ht).of_sameLines (calcWhiteDiff3Lines_lines _ _ _ _ _)

theorem pairEqual_present (eq : LineData → LineData → Bool) (l1 l2 : List LineData)
    (i j : Option Nat) (h : pairEqual eq l1 i l2 j = true) :
    i.isSome = true ∧ j.isSome = true := by
  unfold pairEqual at h
  cases i <;> cases j <;> simp_all

theorem flagsPresent_ofLines (a b c : Option Nat) : FlagsPresent (Diff3Line.ofLines a b c) := by
  simp [FlagsPresent, Diff3Line.ofLines]

theorem seedOps_flags (a b : Nat) (ops : List EditOp) :
    ∀ r ∈ seedOps a b ops, FlagsPresent r := by
  induction ops generalizing a b with
  | nil => simp [seedOps]
  | cons op ops ih =>
    cases op <;> simp only [seedOps, List.mem_cons, forall_eq_or_imp] <;>
      refine ⟨?_, ih _ _⟩ <;> simp [FlagsPresent, Diff3Line.ofLines]

theorem calcDiff3LineListUsingAB_flags (d : DiffList) (rows : Diff3LineList)
    (h : ∀ r ∈ rows, FlagsPresent r) :
    ∀ r ∈ calcDiff3LineListUsingAB d rows, FlagsPresent r := by
  intro r hr
  unfold calcDiff3LineListUsingAB at hr
  rcases List.mem_append.1 hr with h1 | h1
  · exact h r h1
  · exact seedOps_flags 0 0 _ r h1

theorem foldRow_flags (plan : List (List Nat × Option Nat)) (r : Diff3Line)
    (h : FlagsPresent r) : ∀ x ∈ foldRow plan r, FlagsPresent x := by
  rcases r with ⟨a, b, c, ab, ac, bc, f1, f2, f3, w⟩
  unfold foldRow
  cases a with
  | none => simpa using h
  | some i =>
    simp only
    cases hp : plan[i]? with
    | none => simpa using h
    | some p =>
      obtain ⟨gap, partner⟩ := p
      intro x hx
      simp only [List.mem_append, List.mem_map, List.mem_singleton] at hx
      rcases hx with ⟨j, -, rfl⟩ | rfl
      · exact flagsPresent_ofLines _ _ _
      · cases partner with
        | none => exact h
        | some j =>
          obtain ⟨h1, -, h3⟩ := h
          exact ⟨h1, fun _ => ⟨rfl, rfl⟩, fun hb => ⟨(h3 hb).1, rfl⟩⟩

theorem foldRows_flags (plan : List (List Nat × Option Nat)) (rows : Diff3LineList)
    (h : ∀ r ∈ rows, FlagsPresent r) : ∀ x ∈ foldRows plan rows, FlagsPresent x := by
  induction rows with
  | nil => simp [foldRows]
  | cons r rows ih =>
    intro x hx
    simp only [foldRows, List.mem_append] at hx
    rcases hx with h1 | h1
    · exact foldRow_flags plan r (h r (by simp)) x h1
    · exact ih (fun r' hr' => h r' (by simp [hr'])) x h1

theorem calcDiff3LineListUsingAC_flags (d : DiffList) (rows : Diff3LineList)
    (h : ∀ r ∈ rows, FlagsPresent r) :
    ∀ r ∈ calcDiff3LineListUsingAC d rows, FlagsPresent r := by
  intro r hr
  unfold calcDiff3LineListUsingAC at hr
  rcases List.mem_append.1 hr with h1 | h1
  · exact foldRows_flags _ rows h r h1
  · simp only [List.mem_map] at h1
    obtain ⟨j, -, rfl⟩ := h1
    exact flagsPresent_ofLines _ _ _

theorem flagsPresent_shift (sel : e_SrcSelector) (v : Option Nat) (r : Diff3Line)
    (h : FlagsPresent r) : FlagsPresent ((r.setLine sel v).clearFlags sel) := by
  obtain ⟨h1, h2, h3⟩ := h
  cases sel <;>
    simp only [FlagsPresent, Diff3Line.setLine, Diff3Line.clearFlags, Bool.false_eq_true,
      false_implies, true_and, and_true] <;>
    first
    | exact ⟨h1, h2, h3⟩
    | exact h1
    | exact h2
    | exact h3

theorem zipWith_flags (sel : e_SrcSelector) (rows : Diff3LineList) (vs : List (Option Nat))
    (h : ∀ r ∈ rows, FlagsPresent r) :
    ∀ r ∈ List.zipWith (fun r v => (r.setLine sel v).clearFlags sel) rows vs,
      FlagsPresent r := by
  induction rows generalizing vs with
  | nil => simp
  | cons r rows ih =>
    cases vs with
    | nil => simp
    | cons v vs =>
      intro x hx
      simp only [List.zipWith_cons_cons, List.mem_cons] at hx
      rcases hx with rfl | hx
      · exact flagsPresent_shift sel v r (h r (by simp))
      · exact ih vs (fun r' hr' => h r' (by simp [hr'])) x hx

theorem shiftColumn_flags (sel : e_SrcSelector) (p k : Nat) (rows : Diff3LineList)
    (h : ∀ r ∈ rows, FlagsPresent r) : ∀ r ∈ shiftColumn sel p k rows, FlagsPresent r := by
  unfold shiftColumn
  split
  · exact h
  · intro r hr
    rcases List.mem_append.1 hr with h1 | h1
    · exact h r (List.mem_of_mem_take h1)
    · refine zipWith_flags sel _ _ ?_ r h1
      intro x hx
      rcases List.mem_append.1 hx with h2 | h2
      · exact h x (List.mem_of_mem_drop h2)
      · rw [List.mem_replicate] at h2
        rw [h2.2]
        exact flagsPresent_ofLines _ _ _

theorem foldl_all {α : Type} (P : Diff3LineList → Prop) (f : Diff3LineList → α → Diff3LineList)
    (h : ∀ rows a, P rows → P (f rows a)) (l : List α) (rows : Diff3LineList) (h0 : P rows) :
    P (l.foldl f rows) := by
  induction l generalizing rows with
  | nil => exact h0
  | cons a l ih => exact ih (f rows a) (h rows a h0)

theorem correctManualDiffAlignment_flags (hints : ManualDiffHelpList) (rows : Diff3LineList)
    (h : ∀ r ∈ rows, FlagsPresent r) :
    ∀ r ∈ correctManualDiffAlignment hints rows, FlagsPresent r := by
  unfold correctManualDiffAlignment
  refine foldl_all (fun l => ∀ r ∈ l, FlagsPresent r) _ ?_ _ rows h
  intro rows1 g h1
  unfold alignGroup
  refine foldl_all (fun l => ∀ r ∈ l, FlagsPresent r) _ ?_ _ rows1 h1
  intro rows2 (sp : e_SrcSelector × Nat) h2
  exact shiftColumn_flags sp.1 sp.2 _ rows2 h2

theorem all_filter (P : Diff3Line → Prop) (f : Diff3Line → Bool) (rows : Diff3LineList)
    (h : ∀ r ∈ rows, P r) : ∀ r ∈ rows.filter f, P r :=
  fun r hr => h r (List.mem_of_mem_filter hr)

theorem place_all (P : Diff3Line → Prop) (ok : Diff3Line → Bool)
    (arrive : Diff3Line → Diff3Line) (sel : e_SrcSelector) (ha : ∀ d, P d → P (arrive d))
    (above above1 : Diff3LineList) (h : place ok arrive sel above = some above1)
    (hP : ∀ d ∈ above, P d) : ∀ d ∈ above1, P d := by
  induction above generalizing above1 with
  | nil => simp [place] at h
  | cons d above ih =>
    unfold place at h
    split at h
    · cases h
    · cases hp : place ok arrive sel above with
      | some a1 =>
        rw [hp] at h
        simp only [Option.some.injEq] at h
        subst h
        intro x hx
        rcases List.mem_cons.1 hx with rfl | hx
        · exact hP _ (by simp)
        · exact ih a1 hp (fun y hy => hP y (by simp [hy])) x hx
      | none =>
        rw [hp] at h
        simp only at h
        split at h
        · simp only [Option.some.injEq] at h
          subst h
          intro x hx
          rcases List.mem_cons.1 hx with rfl | hx
          · exact ha _ (hP _ (by simp))
          · exact hP x (by simp [hx])
        · cases h

theorem tryMove_all (P : Diff3Line → Prop) (rule : MoveRule) (hr : rule.Keeps P)
    (sel : e_SrcSelector) (st : Diff3LineList × Diff3Line)
    (h : (∀ d ∈ st.1, P d) ∧ P st.2) :
    (∀ d ∈ (tryMove rule sel st).1, P d) ∧ P (tryMove rule sel st).2 := by
  unfold tryMove
  cases hg : st.2.getLine sel with
  | none => exact h
  | some x =>
    simp only
    split
    · cases hp : place (rule.prefer sel x)
          (fun d : Diff3Line => rule.settle sel (d.setLine sel (some x))) sel st.1 with
      | some a1 =>
        exact ⟨place_all P _ _ sel (fun d hd => hr sel (some x) d hd) _ _ hp h.1,
          hr sel none _ h.2⟩
      | none =>
        simp only
        cases hq : place (rule.accept sel x)
            (fun d : Diff3Line => rule.settle sel (d.setLine sel (some x))) sel st.1 with
        | some a1 =>
          exact ⟨place_all P _ _ sel (fun d hd => hr sel (some x) d hd) _ _ hq h.1,
            hr sel none _ h.2⟩
        | none => exact h
    · exact h

theorem scanMoves_all (P : Diff3Line → Prop) (rule : MoveRule) (hr : rule.Keeps P)
    (above rows : Diff3LineList) (ha : ∀ d ∈ above, P d) (hw : ∀ d ∈ rows, P d) :
    ∀ d ∈ scanMoves rule above rows, P d := by
  induction rows generalizing above with
  | nil =>
    intro d hd
    simp only [scanMoves, List.mem_reverse] at hd
    exact ha d hd
  | cons r rest ih =>
    unfold scanMoves
    have h3 := tryMove_all P rule hr e_SrcSelector.C _
      (tryMove_all P rule hr e_SrcSelector.B _
        (tryMove_all P rule hr e_SrcSelector.A (above, r) ⟨ha, hw r (by simp)⟩))
    refine ih _ ?_ (fun d hd => hw d (by simp [hd]))
    intro d hd
    rcases List.mem_cons.1 hd with rfl | hd
    · exact h3.2
    · exact h3.1 d hd

theorem trimLoop_all (P : Diff3Line → Prop) (rule : MoveRule) (hr : rule.Keeps P)
    (fuel : Nat) (rows : Diff3LineList) (h : ∀ d ∈ rows, P d) :
    ∀ d ∈ trimLoop rule fuel rows, P d := by
  induction fuel generalizing rows with
  | zero => exact h
  | succ n ih =>
    unfold trimLoop
    simp only
    split
    · exact h
    · exact ih _ (all_filter P _ _ (scanMoves_all P rule hr [] rows (by simp) h))

theorem flagsPresent_reEvaluate (eq : LineData → LineData → Bool) (lA lB lC : List LineData)
    (r : Diff3Line) : FlagsPresent (reEvaluate eq lA lB lC r) :=
  ⟨pairEqual_present eq lA lB _ _, pairEqual_present eq lA lC _ _,
    pairEqual_present eq lB lC _ _⟩

theorem calcDiff3LineListTrim_flags (eq : LineData → LineData → Bool)
    (lA lB lC : List LineData) (hints : ManualDiffHelpList) (rows : Diff3LineList)
    (h : ∀ r ∈ rows, FlagsPresent r) :
    ∀ r ∈ calcDiff3LineListTrim eq lA lB lC hints rows, FlagsPresent r := by
  unfold calcDiff3LineListTrim
  exact trimLoop_all FlagsPresent _ (fun _ _ _ _ => flagsPresent_reEvaluate eq lA lB lC _) _ _
    (all_filter _ _ _ h)

theorem flagsPresent_markEqualBC (pairs : List (Nat × Nat)) (r : Diff3Line)
    (h : FlagsPresent r) : FlagsPresent (markEqualBC pairs r) := by
  rcases r with ⟨a, b, c, ab, ac, bc, f1, f2, f3, w⟩
  unfold markEqualBC
  cases b with
  | none => exact h
  | some i =>
    cases c with
    | none => exact h
    | some j =>
      simp only
      split
      · exact ⟨h.1, h.2.1, fun _ => ⟨rfl, rfl⟩⟩
      · exact h

theorem calcDiff3LineListUsingBC_flags (d : DiffList) (rows : Diff3LineList)
    (h : ∀ r ∈ rows, FlagsPresent r) :
    ∀ r ∈ calcDiff3LineListUsingBC d rows, FlagsPresent r := by
  intro r hr
  unfold calcDiff3LineListUsingBC at hr
  simp only [List.mem_map] at hr
  obtain ⟨x, hx, rfl⟩ := hr
  refine flagsPresent_markEqualBC _ x ?_
  exact scanMoves_all FlagsPresent _ (fun sel v d hd => flagsPresent_shift sel v d hd) [] rows
    (by simp) h x hx

theorem flagsPresent_fineDiffLine (sel : e_SrcSelector) (l1 l2 : List LineData)
    (m : IgnoreFlags) (r : Diff3Line) (h : FlagsPresent r) :
    FlagsPresent (fineDiffLine sel l1 l2 m r) := by
  obtain ⟨h1, h2, h3⟩ := h
  cases sel
  · exact ⟨h1, h2, h3⟩
  · exact ⟨h1, h2, h3⟩
  · exact ⟨pairEqual_present _ l1 l2 _ _, h2, h3⟩
  · exact ⟨h1, h2, pairEqual_present _ l1 l2 _ _⟩
  · exact ⟨h1, fun hb => (pairEqual_present _ l1 l2 _ _ hb).symm, h3⟩

theorem fineDiff_flags (sel : e_SrcSelector) (l1 l2 : List LineData) (m : IgnoreFlags)
    (rows : Diff3LineList) (h : ∀ r ∈ rows, FlagsPresent r) :
    ∀ r ∈ (fineDiff sel l1 l2 m rows).1, FlagsPresent r := by
  intro r hr
  simp only [fineDiff, List.mem_map] at hr
  obtain ⟨x, hx, rfl⟩ := hr
  exact flagsPresent_fineDiffLine sel l1 l2 m x (h x hx)

theorem calcWhiteDiff3Lines_flags (lA lB lC : List LineData) (b : Bool) (rows : Diff3LineList)
    (h : ∀ r ∈ rows, FlagsPresent r) :
    ∀ r ∈ calcWhiteDiff3Lines lA lB lC b rows, FlagsPresent r := by
  intro r hr
  simp only [calcWhiteDiff3Lines, List.mem_map] at hr
  obtain ⟨x, hx, rfl⟩ := hr
  exact h x hx

theorem lineEqual_iff (f : IgnoreFlags) (x y : LineData) :
    lineEqual f x y = true ↔ canonical f x = canonical f y := by
  unfold lineEqual
  simp only [Bool.and_eq_true, beq_iff_eq]
  constructor
  · exact fun h => h.2
  · exact fun h => ⟨by rw [h], h⟩

theorem pairEqual_elim (eq : LineData → LineData → Bool) (l1 l2 : List LineData)
    (i j : Option Nat) (h : pairEqual eq l1 i l2 j = true) :
    ∃ x y, i.bind (l1[·]?) = some x ∧ j.bind (l2[·]?) = some y ∧ eq x y = true := by
  unfold pairEqual at h
  cases i with
  | none => cases h
  | some a =>
    cases j with
    | none => cases h
    | some b =>
      simp only at h
      cases h1 : l1[a]? with
      | none => rw [h1] at h; cases h
      | some x =>
        cases h2 : l2[b]? with
        | none => rw [h1, h2] at h; cases h
        | some y =>
          rw [h1, h2] at h
          exact ⟨x, y, h1, h2, h⟩

theorem pairEqual_intro (eq : LineData → LineData → Bool) (l1 l2 : List LineData)
    (i j : Option Nat) (x y : LineData) (h1 : i.bind (l1[·]?) = some x)
    (h2 : j.bind (l2[·]?) = some y) (h : eq x y = true) :
    pairEqual eq l1 i l2 j = true := by
  unfold pairEqual
  cases i with
  | none => cases h1
  | some a =>
    cases j with
    | none => cases h2
    | some b =>
      simp only [Option.some_bind] at h1 h2
      simp only [h1, h2]
      exact h

theorem pairEqual_trans (f : IgnoreFlags) (lA lB lC : List LineData) (a b c : Option Nat)
    (h1 : pairEqual (lineEqual f) lA a lB b = true)
    (h2 : pairEqual (lineEqual f) lB b lC c = true) :
    pairEqual (lineEqual f) lC c lA a = true := by
  obtain ⟨x, y, hx, hy, e1⟩ := pairEqual_elim _ _ _ _ _ h1
  obtain ⟨y1, z, hy1, hz, e2⟩ := pairEqual_elim _ _ _ _ _ h2
  rw [hy] at hy1
  cases hy1
  refine pairEqual_intro _ _ _ _ _ z x hz hx ?_
  rw [lineEqual_iff] at e1 e2 ⊢
  exact (e1.trans e2).symm

theorem flagsExact_trans (f : IgnoreFlags) (s1 s2 s3 : SourceData) (r : Diff3Line)
    (h : FlagsExact f s1 s2 s3 r) (h1 : r.bAEqB = true) (h2 : r.bBEqC = true) :
    r.bAEqC = true := by
  obtain ⟨e1, e2, e3⟩ := h
  rw [e3]
  rw [e1] at h1
  rw [e2] at h2
  exact pairEqual_trans f _ _ _ _ _ _ h1 h2

theorem spec_stRunDiff12_keeps (mask : IgnoreFlags) (io : Engine)
    (J : SourceData → SourceData → SourceData → Diff3LineList → Prop) :
    Stage.Triple (OnWeave J) (stRunDiff12 (specEngine mask io)) (OnWeave J) :=
  Stage.call_triple _ _ _
    (fun app => runDiff mask app.m_manualDiffHelpList app.m_sd1.lines app.m_sd2.lines
      e_SrcSelector.A e_SrcSelector.B)
    (fun _ => rfl) (fun _ h => h)

theorem spec_stRunDiff13_keeps (mask : IgnoreFlags) (io : Engine)
    (J : SourceData → SourceData → SourceData → Diff3LineList → Prop) :
    Stage.Triple (OnWeave J) (stRunDiff13 (specEngine mask io)) (OnWeave J) :=
  Stage.call_triple _ _ _
    (fun app => runDiff mask app.m_manualDiffHelpList app.m_sd1.lines app.m_sd3.lines
      e_SrcSelector.A e_SrcSelector.C)
    (fun _ => rfl) (fun _ h => h)

theorem spec_stUsingAB_keeps (mask : IgnoreFlags) (io : Engine)
    (J : SourceData → SourceData → SourceData → Diff3LineList → Prop)
    (hAB : ∀ s1 s2 s3 l d, J s1 s2 s3 l → J s1 s2 s3 (calcDiff3LineListUsingAB d l)) :
    Stage.Triple (OnWeave J) (stUsingAB (specEngine mask io)) (OnWeave J) :=
  Stage.call_triple _ _ _
    (fun app => calcDiff3LineListUsingAB app.m_diffList12 app.m_diff3LineList)
    (fun _ => rfl) (fun _ h => hAB _ _ _ _ _ h)

theorem spec_stUsingAC_keeps (mask : IgnoreFlags) (io : Engine)
    (J : SourceData → SourceData → SourceData → Diff3LineList → Prop)
    (hAC : ∀ s1 s2 s3 l d, J s1 s2 s3 l → J s1 s2 s3 (calcDiff3LineListUsingAC d l)) :
    Stage.Triple (OnWeave J) (stUsingAC (specEngine mask io)) (OnWeave J) :=
  Stage.call_triple _ _ _
    (fun app => calcDiff3LineListUsingAC app.m_diffList13 app.m_diff3LineList)
    (fun _ => rfl) (fun _ h => hAC _ _ _ _ _ h)

/-- The two-way branch with the engine of the specification keeps a property of the
Diff3Line list that pass 1 and the fine differ keep. -/
theorem spec_diffTwoWay_keeps (mask : IgnoreFlags) (io : Engine) (f : IgnoreFlags)
    (J : SourceData → SourceData → SourceData → Diff3LineList → Prop)
    (hAB : ∀ s1 s2 s3 l d, J s1 s2 s3 l → J s1 s2 s3 (calcDiff3LineListUsingAB d l))
    (hF : ∀ s1 s2 s3 l sel l1 l2 m, J s1 s2 s3 l → J s1 s2 s3 (fineDiff sel l1 l2 m l).1) :
    Stage.Triple (OnWeave J) (runStages (diffTwoWay (specEngine mask io) f)) (OnWeave J) := by
  apply runStages_keeps
  simp only [diffTwoWay, List.forall_mem_cons, List.not_mem_nil, false_implies, implies_true,
    and_true]
  refine ⟨Stage.total_keeps J _ (fun _ => ⟨rfl, rfl, rfl, rfl⟩), Stage.ite_keeps _ _ _ ?_ ?_⟩
  · simp only [List.forall_mem_cons, List.not_mem_nil, false_implies, implies_true, and_true]
    refine ⟨spec_stRunDiff12_keeps mask io J, stStep_keeps J, spec_stUsingAB_keeps mask io J hAB,
      ?_, Stage.when_keeps _ _ ?_, stStep_keeps J⟩
    · exact Stage.call_triple _ _ _
        (fun app => fineDiff e_SrcSelector.A app.m_sd1.lines app.m_sd2.lines f
          app.m_diff3LineList)
        (fun _ => rfl) (fun _ h => hF _ _ _ _ _ _ _ _ h)
    · simp only [List.forall_mem_cons, List.not_mem_nil, false_implies, implies_true, and_true]
      exact Stage.total_keeps J _ (fun _ => ⟨rfl, rfl, rfl, rfl⟩)
  · simp only [List.forall_mem_cons, List.not_mem_nil, false_implies, implies_true, and_true]
    exact ⟨stStep_keeps J, stStep_keeps J⟩

/-- Lines 202-286 with the engine of the specification keep a property of the Diff3Line
list that does not depend on source C and is closed under the weave stages. -/
theorem spec_threeWayHead_keeps (mask : IgnoreFlags) (io : Engine) (opts : Options)
    (f : IgnoreFlags) (b1 b2 : Bool)
    (J : SourceData → SourceData → SourceData → Diff3LineList → Prop)
    (hJ3 : ∀ s1 s2 s3 s l, J s1 s2 s3 l → J s1 s2 s l)
    (hAB : ∀ s1 s2 s3 l d, J s1 s2 s3 l → J s1 s2 s3 (calcDiff3LineListUsingAB d l))
    (hAC : ∀ s1 s2 s3 l d, J s1 s2 s3 l → J s1 s2 s3 (calcDiff3LineListUsingAC d l))
    (hJ : WeaveClosed mask J) :
    Stage.Triple (OnWeave J)
      (runStages (threeWayLoad (specEngine mask io) b1 b2 ++ (threeWayAB (specEngine mask io) ++
        (threeWayAC (specEngine mask io) ++ (threeWayBC (specEngine mask io) opts ++
          threeWayFine (specEngine mask io) opts f)))))
      (OnWeave J) := by
  apply runStages_keeps
  simp only [threeWayLoad, threeWayAB, threeWayAC, threeWayBC, threeWayFine, List.cons_append,
    List.nil_append, List.forall_mem_cons, List.not_mem_nil, false_implies, implies_true,
    and_true]
  repeat' first
    | apply And.intro
    | exact stStep_keeps J
    | exact stDebugLineCheck_keeps J _ _
    | exact spec_stRunDiff12_keeps mask io J
    | exact spec_stRunDiff13_keeps mask io J
    | exact spec_stRunDiff23_keeps mask io J
    | exact spec_stUsingAB_keeps mask io J hAB
    | exact spec_stUsingAC_keeps mask io J hAC
    | exact spec_stUsingBC_keeps mask io J hJ
    | exact spec_stCorrect_keeps mask io J hJ
    | exact spec_stTrim_keeps mask io J hJ
    | exact spec_stFineDiffAB_keeps mask io f J hJ
    | exact spec_stFineDiffBC_keeps mask io f J hJ
    | exact spec_stFineDiffAC_keeps mask io f J hJ
    | exact Stage.total_keeps J _ (fun _ => ⟨rfl, rfl, rfl, rfl⟩)
    | exact Stage.total_triple _ (fun _ h => hJ3 _ _ _ _ _ h)
    | (apply Stage.when_keeps
       simp only [List.forall_mem_cons, List.not_mem_nil, false_implies, implies_true,
         and_true])

/-- Lines 302-313 touch neither the sources nor the Diff3Line list. -/
theorem threeWayEnd_keeps (J : SourceData → SourceData → SourceData → Diff3LineList → Prop) :
    Stage.Triple (OnWeave J) (runStages threeWayEnd) (OnWeave J) := by
  apply runStages_keeps
  simp only [threeWayEnd, List.forall_mem_cons, List.not_mem_nil, false_implies, implies_true,
    and_true]
  repeat' first
    | apply And.intro
    | exact Stage.total_keeps J _ (fun _ => ⟨rfl, rfl, rfl, rfl⟩)
    | (apply Stage.when_keeps
       simp only [List.forall_mem_cons, List.not_mem_nil, false_implies, implies_true,
         and_true])

/-- The second round of fine diffs with the engine of the specification keeps a property
that is closed under the weave stages. -/
theorem spec_threeWayFineAgain_keeps (mask : IgnoreFlags) (io : Engine) (f : IgnoreFlags)
    (J : SourceData → SourceData → SourceData → Diff3LineList → Prop)
    (hJ : WeaveClosed mask J) :
    Stage.Triple (OnWeave J) (runStages (threeWayFineAgain (specEngine mask io) f))
      (OnWeave J) := by
  apply runStages_keeps
  simp only [threeWayFineAgain, List.forall_mem_cons, List.not_mem_nil, false_implies,
    implies_true, and_true]
  repeat' first
    | apply And.intro
    | exact stStep_keeps J
    | exact spec_stFineDiffAB_keeps mask io f J hJ
    | exact spec_stFineDiffBC_keeps mask io f J hJ
    | exact spec_stFineDiffAC_keeps mask io f J hJ
    | (apply Stage.when_keeps
       simp only [List.forall_mem_cons, List.not_mem_nil, false_implies, implies_true,
         and_true])

theorem diffThreeWay_split (eng : Engine) (opts : Options) (f : IgnoreFlags) (b1 b2 : Bool) :
    diffThreeWay eng opts f b1 b2 =
      (threeWayLoad eng b1 b2 ++ (threeWayAB eng ++ (threeWayAC eng ++ (threeWayBC eng opts ++
        threeWayFine eng opts f)))) ++ (threeWayFineAgain eng f ++ threeWayEnd) := by
  unfold diffThreeWay
  simp only [List.append_assoc]

/-- The three-way branch with the engine of the specification keeps a property of the
Diff3Line list that does not depend on source C and is closed under the weave stages. -/
theorem spec_diffThreeWay_keeps (mask : IgnoreFlags) (io : Engine) (opts : Options)
    (f : IgnoreFlags) (b1 b2 : Bool)
    (J : SourceData → SourceData → SourceData → Diff3LineList → Prop)
    (hJ3 : ∀ s1 s2 s3 s l, J s1 s2 s3 l → J s1 s2 s l)
    (hAB : ∀ s1 s2 s3 l d, J s1 s2 s3 l → J s1 s2 s3 (calcDiff3LineListUsingAB d l))
    (hAC : ∀ s1 s2 s3 l d, J s1 s2 s3 l → J s1 s2 s3 (calcDiff3LineListUsingAC d l))
    (hJ : WeaveClosed mask J) :
    Stage.Triple (OnWeave J) (runStages (diffThreeWay (specEngine mask io) opts f b1 b2))
      (OnWeave J) := by
  rw [diffThreeWay_split]
  exact runStages_triple_append (spec_threeWayHead_keeps mask io opts f b1 b2 J hJ3 hAB hAC hJ)
    (runStages_triple_append (spec_threeWayFineAgain_keeps mask io f J hJ)
      (threeWayEnd_keeps J))

/-- The second round of fine diffs with the engine of the specification (lines 288-301): on
three text sources that hold data, it leaves every equality flag equal to the line
comparison under `f`. -/
theorem spec_threeWayFineAgain_exact (mask : IgnoreFlags) (io : Engine) (f : IgnoreFlags) :
    Stage.Triple (fun _ => True) (runStages (threeWayFineAgain (specEngine mask io) f))
      (OnWeave (fun s1 s2 s3 l => AllText s1 s2 s3 ∧ AllData s1 s2 s3 →
        ∀ r ∈ l, FlagsExact f s1 s2 s3 r)) := by
  unfold threeWayFineAgain
  refine runStages_triple_cons
    (Q := OnWeave (fun s1 s2 s3 l => AllText s1 s2 s3 ∧ AllData s1 s2 s3 → ∀ r ∈ l,
      r.bAEqB = pairEqual (lineEqual f) s1.lines r.lineA s2.lines r.lineB)) ?_
    (runStages_triple_cons (stStep_keeps _) (runStages_triple_cons
      (Q := OnWeave (fun s1 s2 s3 l => AllText s1 s2 s3 ∧ AllData s1 s2 s3 → ∀ r ∈ l,
        r.bAEqB = pairEqual (lineEqual f) s1.lines r.lineA s2.lines r.lineB ∧
        r.bBEqC = pairEqual (lineEqual f) s2.lines r.lineB s3.lines r.lineC)) ?_
      (runStages_triple_cons (stStep_keeps _) (runStages_triple_cons
        (Q := OnWeave (fun s1 s2 s3 l => AllText s1 s2 s3 ∧ AllData s1 s2 s3 →
          ∀ r ∈ l, FlagsExact f s1 s2 s3 r)) ?_
        (runStages_triple_cons (stStep_keeps _) (runStages_triple_nil _))))))
  · apply Stage.when_cases
    · refine runStages_triple_cons (Stage.call_triple _ _ _
        (fun app => fineDiff e_SrcSelector.A app.m_sd1.lines app.m_sd2.lines f
          app.m_diff3LineList) (fun _ => rfl) ?_) (runStages_triple_nil _)
      intro app _ _ r hr
      have hr1 : r ∈ (fineDiff e_SrcSelector.A app.m_sd1.lines app.m_sd2.lines f
        app.m_diff3LineList).1 := hr
      simp only [fineDiff, List.mem_map] at hr1
      obtain ⟨x, -, rfl⟩ := hr1
      rfl
    · intro app _ hc hD
      obtain ⟨⟨t1, t2, -⟩, d1, d2, -⟩ := hD
      rw [t1, t2, d1, d2] at hc
      cases hc
  · apply Stage.when_cases
    · refine runStages_triple_cons (Stage.call_triple _ _ _
        (fun app => fineDiff e_SrcSelector.B app.m_sd2.lines app.m_sd3.lines f
          app.m_diff3LineList) (fun _ => rfl) ?_) (runStages_triple_nil _)
      intro app h hD r hr
      have hr1 : r ∈ (fineDiff e_SrcSelector.B app.m_sd2.lines app.m_sd3.lines f
        app.m_diff3LineList).1 := hr
      simp only [fineDiff, List.mem_map] at hr1
      obtain ⟨x, hx, rfl⟩ := hr1
      exact ⟨h.1 hD x hx, rfl⟩
    · intro app _ hc hD
      obtain ⟨⟨-, t2, t3⟩, -, d2, d3⟩ := hD
      rw [t2, t3, d2, d3] at hc
      cases hc
  · apply Stage.when_cases
    · refine runStages_triple_cons (Stage.call_triple _ _ _
        (fun app => fineDiff e_SrcSelector.C app.m_sd3.lines app.m_sd1.lines f
          app.m_diff3LineList) (fun _ => rfl) ?_) (runStages_triple_nil _)
      intro app h hD r hr
      have hr1 : r ∈ (fineDiff e_SrcSelector.C app.m_sd3.lines app.m_sd1.lines f
        app.m_diff3LineList).1 := hr
      simp only [fineDiff, List.mem_map] at hr1
      obtain ⟨x, hx, rfl⟩ := hr1
      exact ⟨(h.1 hD x hx).1, (h.1 hD x hx).2, rfl⟩
    · intro app _ hc hD
      obtain ⟨⟨t1, -, t3⟩, d1, -, d3⟩ := hD
      rw [t1, t3, d1, d3] at hc
      cases hc

theorem weaveClosed_true (mask : IgnoreFlags) : WeaveClosed mask (fun _ _ _ _ => True) :=
  ⟨fun _ _ _ _ _ _ => trivial, fun _ _ _ _ _ _ => trivial, fun _ _ _ _ _ _ => trivial,
    fun _ _ _ _ _ _ _ _ _ => trivial⟩

/-- The three-way branch with the engine of the specification ends without an exception,
and on three text sources that hold data every equality flag of the result is the line
comparison under the ignore-mask of the fine differ. -/
theorem spec_diffThreeWay_exact (mask : IgnoreFlags) (io : Engine) (opts : Options)
    (f : IgnoreFlags) (b1 b2 : Bool) :
    Stage.Triple (fun _ => True) (runStages (diffThreeWay (specEngine mask io) opts f b1 b2))
      (OnWeave (fun s1 s2 s3 l => AllText s1 s2 s3 ∧ AllData s1 s2 s3 →
        ∀ r ∈ l, FlagsExact f s1 s2 s3 r)) := by
  rw [diffThreeWay_split]
  exact runStages_triple_append
    (spec_threeWayHead_keeps mask io opts f b1 b2 (fun _ _ _ _ => True)
      (fun _ _ _ _ _ _ => trivial) (fun _ _ _ _ _ _ => trivial) (fun _ _ _ _ _ _ => trivial)
      (weaveClosed_true mask))
    (runStages_triple_append (spec_threeWayFineAgain_exact mask io f) (threeWayEnd_keeps _))

/-- With the engine of the specification, `mainInit` ends with a property of the sources
and the Diff3Line list that holds of the empty list, that both branches of the `try` block
establish from the empty list, and that the whitespace classification keeps. -/
theorem spec_mainInit_weave (mask : IgnoreFlags) (io : Engine) (opts : Options)
    (inFlags : InitFlags) (app : KDiff3App)
    (J : SourceData → SourceData → SourceData → Diff3LineList → Prop)
    (h0 : ∀ s1 s2 s3, J s1 s2 s3 [])
    (h2 : app.m_sd3.empty = true → Stage.Triple (fun a => a.m_diff3LineList = [])
      (runStages (diffTwoWay (specEngine mask io) (mainInitIgnoreFlags opts))) (OnWeave J))
    (h3 : app.m_sd3.empty = false → ∀ b1 b2, Stage.Triple (fun a => a.m_diff3LineList = [])
      (runStages (diffThreeWay (specEngine mask io) opts (mainInitIgnoreFlags opts) b1 b2))
      (OnWeave J))
    (hW : ∀ s1 s2 s3 l b, J s1 s2 s3 l →
      J s1 s2 s3 (calcWhiteDiff3Lines s1.lines s2.lines s3.lines b l)) :
    OnWeave J (mainInit (specEngine mask io) opts inFlags app) := by
  have hlist := mainInitLoad_list (specEngine mask io) inFlags app
  have hsd3 := mainInitLoad_sd3 (specEngine mask io) inFlags app
  have key : ∀ L : KDiff3App, L.m_diff3LineList = [] → L.m_sd3 = app.m_sd3 → ∀ b bl,
      OnWeave J (mainInitTry (specEngine mask io) opts inFlags b bl L).1 ∧
        (mainInitTry (specEngine mask io) opts inFlags b bl L).2 = none := by
    intro L hL hs b bl
    unfold mainInitTry
    split
    · unfold Stage.ite
      split
      · rename_i hc
        exact h2 (by rw [← hs]; exact hc) L hL
      · rename_i hc
        exact h3 (by rw [← hs]; simpa using hc) bl inFlags.useCurrentEncoding L hL
    · refine ⟨?_, rfl⟩
      show J L.m_sd1 L.m_sd2 L.m_sd3 L.m_diff3LineList
      rw [hL]
      exact h0 _ _ _
  obtain ⟨hw, hnone⟩ := key _ hlist hsd3 (isFirstRun app) (effLoadFiles inFlags app)
  have hcatch : mainInitCatch (specEngine mask io) (mainInitRun (specEngine mask io) opts
      inFlags app) = (mainInitRun (specEngine mask io) opts inFlags app).1 := by
    unfold mainInitCatch
    unfold mainInitRun
    rw [hnone]
  have hfinal := mainInit_tail_keeps mask io opts inFlags (isFirstRun app)
    (effLoadFiles inFlags app) J hW _ hw
  unfold mainInit mainInitDiffed
  rw [hcatch]
  exact hfinal

theorem flagsPresent_closed (mask : IgnoreFlags) :
    WeaveClosed mask (fun _ _ _ l => ∀ r ∈ l, FlagsPresent r) where
  correct := fun _ _ _ l hints h => correctManualDiffAlignment_flags hints l h
  trim := fun _ _ _ l hints h => calcDiff3LineListTrim_flags _ _ _ _ hints l h
  usingBC := fun _ _ _ l d h => calcDiff3LineListUsingBC_flags d l h
  fine := fun _ _ _ l sel l1 l2 m h => fineDiff_flags sel l1 l2 m l h

theorem twoWayRow_usingAB (d : DiffList) (rows : Diff3LineList)
    (h : ∀ r ∈ rows, TwoWayRow r) : ∀ r ∈ calcDiff3LineListUsingAB d rows, TwoWayRow r := by
  intro r hr
  refine ⟨?_, calcDiff3LineListUsingAB_flags d rows (fun x hx => (h x hx).2) r hr⟩
  unfold calcDiff3LineListUsingAB at hr
  rcases List.mem_append.1 hr with h1 | h1
  · exact (h r h1).1
  · exact (seedOps_lines 0 0 _).2.2 r h1

theorem twoWayRow_fineDiff (sel : e_SrcSelector) (l1 l2 : List LineData) (m : IgnoreFlags)
    (rows : Diff3LineList) (h : ∀ r ∈ rows, TwoWayRow r) :
    ∀ r ∈ (fineDiff sel l1 l2 m rows).1, TwoWayRow r := by
  intro r hr
  refine ⟨?_, fineDiff_flags sel l1 l2 m rows (fun x hx => (h x hx).2) r hr⟩
  simp only [fineDiff, List.mem_map] at hr
  obtain ⟨x, hx, rfl⟩ := hr
  exact (getLine_fineDiffLine sel l1 l2 m e_SrcSelector.C x).trans (h x hx).1

theorem rangeMaxWith_spec (r : Int) (win : ScrollWindow) (hf : win.fits) (hr : 0 ≤ r) :
    rangeMaxWith r win.w win.v = max r win.overhang := by
  obtain ⟨⟨h1, h2⟩, h3, h4⟩ := hf
  unfold rangeMaxWith ScrollWindow.w ScrollWindow.v ScrollWindow.overhang wrapInt32
  cases hp : win.present <;> cases hv : win.isVisible <;>
    simp only [Bool.and_self, Bool.and_false, Bool.false_and, Bool.false_eq_true, if_false,
      if_true, false_and, true_and, and_false, gt_iff_lt, lt_self_iff_false] <;>
    omega

theorem overhang_nonpos (win : ScrollWindow)
    (h : win.present = true → win.isVisible = true →
      win.getMaxTextWidth ≤ win.getVisibleTextAreaWidth) : win.overhang ≤ 0 := by
  unfold ScrollWindow.overhang
  split
  · rename_i hc
    have := h hc.1 hc.2.1
    omega
  · exact le_refl 0

theorem cString_set (buf : List TCHAR) (n : Nat) (h : n < (cString buf).length) :
    cString (buf.set n 0) = (cString buf).take n := by
  induction buf generalizing n with
  | nil => simp [cString] at h
  | cons c cs ih =>
    unfold cString at h ⊢
    by_cases hc : c = 0
    · simp [hc] at h
    · cases n with
      | zero => simp [List.takeWhile]
      | succ m =>
        simp only [List.set_cons_succ, List.takeWhile_cons, hc, ne_eq, not_false_eq_true,
          decide_True, if_true, List.take_succ_cons, List.cons.injEq, true_and]
        simp only [List.takeWhile_cons, hc, ne_eq, not_false_eq_true, decide_True, if_true,
          List.length_cons, Nat.add_lt_add_iff_right] at h
        exact ih m h

theorem lastIndexOf_none (c : Char) (l : List Char) (h : c ∉ l) : lastIndexOf c l = none := by
  induction l with
  | nil => rfl
  | cons x xs ih =>
    simp only [List.mem_cons, not_or] at h
    simp only [lastIndexOf, ih h.2, if_neg (Ne.symm h.1)]

theorem lastIndexOf_last (c : Char) (d n : List Char) (h : c ∉ n) :
    lastIndexOf c (d ++ c :: n) = some d.length := by
  induction d with
  | nil => simp [lastIndexOf, lastIndexOf_none c n h]
  | cons x xs ih => simp [lastIndexOf, ih]

theorem drop_past (c : Char) (d n : List Char) : (d ++ c :: n).drop (d.length + 1) = n := by
  induction d with
  | nil => rfl
  | cons x xs ih => simp

/-- What `stripDirectory` leaves of a name: the part behind the last '/'; without a '/',
the part behind the last backslash; without either, the name. -/
theorem stripDirectory_spec :
    (∀ d n : List Char, '/' ∉ n → stripDirectory (String.mk (d ++ '/' :: n)) = String.mk n) ∧
    (∀ d n : List Char, '/' ∉ d → '/' ∉ n → '\\' ∉ n →
      stripDirectory (String.mk (d ++ '\\' :: n)) = String.mk n) ∧
    (∀ f : String, '/' ∉ f.toList → '\\' ∉ f.toList → stripDirectory f = f) := by
  refine ⟨?_, ?_, ?_⟩
  · intro d n h
    unfold stripDirectory
    simp only [String.toList, lastIndexOf_last '/' d n h, drop_past]
  · intro d n hd hn hb
    unfold stripDirectory
    have h1 : lastIndexOf '/' (d ++ '\\' :: n) = none :=
      lastIndexOf_none _ _ (by simp [hd, hn])
    simp only [String.toList, h1, lastIndexOf_last '\\' d n hb, drop_past]
  · intro f h1 h2
    unfold stripDirectory
    rw [lastIndexOf_none _ _ h1, lastIndexOf_none _ _ h2]

theorem diffTwoWay_emits_mask {P : Event → Prop} (eng : Engine) (f : IgnoreFlags)
    (hP : ∀ e, e.FromDiffWith f → P e) :
    ∀ st ∈ diffTwoWay eng f, Stage.Emits P st := by
  have hQ : ∀ e, e.fromDiff = true → (∀ sel m, e = Event.fineDiff sel m → m = f) → P e :=
    fun e h1 h2 => hP e ⟨h1, h2⟩
  simp only [diffTwoWay, stRunDiff12, stUsingAB, stFineDiffAB, stStep, progressStep,
    List.forall_mem_cons, List.not_mem_nil, false_implies, implies_true, and_true]
  repeat' first
    | apply And.intro
    | exact Stage.call_emits _ _ _ (hQ _ rfl (fun _ _ h => by cases h))
        (fun _ _ => LogGrows.of_log_eq rfl)
    | exact Stage.call_emits _ _ _ (hQ _ rfl (fun _ _ h => by cases h; rfl))
        (fun _ _ => LogGrows.emit _ _ (hQ _ rfl (fun _ _ h => by cases h)))
    | exact Stage.total_emits _ (fun _ => LogGrows.emit _ _ (hQ _ rfl (fun _ _ h => by cases h)))
    | exact Stage.total_emits _ (fun _ => LogGrows.of_log_eq rfl)
    | (apply Stage.when_emits
       simp only [List.forall_mem_cons, List.not_mem_nil, false_implies, implies_true,
         and_true])
    | (apply Stage.ite_emits <;>
       simp only [List.forall_mem_cons, List.not_mem_nil, false_implies, implies_true,
         and_true])

theorem diffThreeWay_emits_mask {P : Event → Prop} (eng : Engine) (opts : Options)
    (f : IgnoreFlags) (b1 b2 : Bool) (hP : ∀ e, e.FromDiffWith f → P e) :
    ∀ st ∈ diffThreeWay eng opts f b1 b2, Stage.Emits P st := by
  have hQ : ∀ e, e.fromDiff = true → (∀ sel m, e = Event.fineDiff sel m → m = f) → P e :=
    fun e h1 h2 => hP e ⟨h1, h2⟩
  simp only [diffThreeWay, threeWayLoad, threeWayAB, threeWayAC, threeWayBC, threeWayFine,
    threeWayFineAgain, threeWayEnd, List.cons_append, List.nil_append,
    stRunDiff12, stRunDiff13, stRunDiff23, stUsingAB, stUsingAC,
    stUsingBC, stCorrectManualDiffAlignment, stTrim, stFineDiffAB, stFineDiffBC, stFineDiffAC,
    stDebugLineCheck, stStep, progressStep,
    List.forall_mem_cons, List.not_mem_nil, false_implies, implies_true, and_true]
  repeat' first
    | apply And.intro
    | exact Stage.call_emits _ _ _ (hQ _ rfl (fun _ _ h => by cases h))
        (fun _ _ => LogGrows.of_log_eq rfl)
    | exact Stage.call_emits _ _ _ (hQ _ rfl (fun _ _ h => by cases h; rfl))
        (fun _ _ => LogGrows.emit _ _ (hQ _ rfl (fun _ _ h => by cases h)))
    | exact Stage.total_emits _ (fun _ => LogGrows.emit _ _ (hQ _ rfl (fun _ _ h => by cases h)))
    | exact Stage.total_emits _ (fun _ => LogGrows.of_log_eq rfl)
    | (apply Stage.when_emits
       simp only [List.forall_mem_cons, List.not_mem_nil, false_implies, implies_true,
         and_true])

theorem mainInitTry_emits_mask {P : Event → Prop} (eng : Engine) (opts : Options)
    (inFlags : InitFlags) (b1 b2 : Bool)
    (hP : ∀ e, e.FromDiffWith (mainInitIgnoreFlags opts) → P e) :
    Stage.Emits P (mainInitTry eng opts inFlags b1 b2) := by
  intro app
  unfold mainInitTry
  split
  · exact Stage.ite_emits _ _ _ (diffTwoWay_emits_mask eng _ hP)
      (diffThreeWay_emits_mask eng opts _ _ _ hP) app
  · exact LogGrows.emit _ _ (hP _ ⟨rfl, fun _ _ h => by cases h⟩)

theorem fromLoad_fineWith (f : IgnoreFlags) (e : Event) (h : e.fromLoad = true) :
    e.FineWith f := by
  intro sel m he
  subst he
  cases h

theorem fromCatch_fineWith (f : IgnoreFlags) (e : Event) (h : e.fromCatch = true) :
    e.FineWith f := by
  intro sel m he
  subst he
  cases h

theorem isWhiteStage_fineWith (f : IgnoreFlags) (e : Event) (h : e.isWhiteStage = true) :
    e.FineWith f := by
  intro sel m he
  subst he
  cases h

theorem fromFinish_fineWith (f : IgnoreFlags) (e : Event) (h : e.fromFinish = true) :
    e.FineWith f := by
  intro sel m he
  subst he
  cases h

theorem Stage.total_frames {I : KDiff3App → Prop} (f : KDiff3App → KDiff3App)
    (h : ∀ app, I app → I (f app)) : Stage.Frames I (Stage.total f) :=
  fun app hI => h app hI

theorem Stage.call_frames {I : KDiff3App → Prop} {α : Type} (e : Event)
    (r : KDiff3App → Except Exn α) (store : α → KDiff3App → KDiff3App)
    (he : ∀ app, I app → I (emit e app))
    (hs : ∀ a app, I app → I (store a app)) : Stage.Frames I (Stage.call e r store) := by
  intro app hI
  unfold Stage.call
  cases r app with
  | error x => exact he app hI
  | ok a => exact hs a _ (he app hI)

theorem runStages_frames {I : KDiff3App → Prop} (l : List Stage)
    (h : ∀ st ∈ l, Stage.Frames I st) : Stage.Frames I (runStages l) := by
  induction l with
  | nil => exact fun _ hI => hI
  | cons st rest ih =>
    intro app hI
    have h1 := h st (by simp) app hI
    unfold runStages
    rcases hst : st app with ⟨app1, _ | x⟩
    · rw [hst] at h1
      exact ih (fun s hs => h s (by simp [hs])) app1 h1
    · rw [hst] at h1
      exact h1

theorem Stage.when_frames {I : KDiff3App → Prop} (c : KDiff3App → Bool) (body : List Stage)
    (h : ∀ st ∈ body, Stage.Frames I st) : Stage.Frames I (Stage.when c body) := by
  intro app hI
  unfold Stage.when
  split
  · exact runStages_frames body h app hI
  · exact hI

theorem Stage.ite_frames {I : KDiff3App → Prop} (c : KDiff3App → Bool) (t e : List Stage)
    (ht : ∀ st ∈ t, Stage.Frames I st) (he : ∀ st ∈ e, Stage.Frames I st) :
    Stage.Frames I (Stage.ite c t e) := by
  intro app hI
  unfold Stage.ite
  split
  · exact runStages_frames t ht app hI
  · exact runStages_frames e he app hI

/-- No statement of the `try` block writes the manual-hint list. -/
theorem mainInitTry_hints (eng : Engine) (opts : Options) (inFlags : InitFlags) (b1 b2 : Bool)
    (L : ManualDiffHelpList) :
    Stage.Frames (fun a => a.m_manualDiffHelpList = L) (mainInitTry eng opts inFlags b1 b2) := by
  intro app hI
  unfold mainInitTry
  split
  · refine Stage.ite_frames (I := fun a => a.m_manualDiffHelpList = L) _ _ _ ?_ ?_ app hI
    · simp only [diffTwoWay, stRunDiff12, stUsingAB, stFineDiffAB, stStep, progressStep,
        List.forall_mem_cons, List.not_mem_nil, false_implies, implies_true, and_true]
      repeat' first
        | apply And.intro
        | exact Stage.call_frames _ _ _ (fun _ h => h) (fun _ _ h => h)
        | exact Stage.total_frames _ (fun _ h => h)
        | (apply Stage.when_frames
           simp only [List.forall_mem_cons, List.not_mem_nil, false_implies, implies_true,
             and_true])
        | (apply Stage.ite_frames <;>
           simp only [List.forall_mem_cons, List.not_mem_nil, false_implies, implies_true,
             and_true])
    · simp only [diffThreeWay, threeWayLoad, threeWayAB, threeWayAC, threeWayBC, threeWayFine,
        threeWayFineAgain, threeWayEnd, List.cons_append, List.nil_append,
        stRunDiff12, stRunDiff13, stRunDiff23, stUsingAB, stUsingAC,
        stUsingBC, stCorrectManualDiffAlignment, stTrim, stFineDiffAB, stFineDiffBC,
        stFineDiffAC, stDebugLineCheck, stStep, progressStep,
        List.forall_mem_cons, List.not_mem_nil, false_implies, implies_true, and_true]
      repeat' first
        | apply And.intro
        | exact Stage.call_frames _ _ _ (fun _ h => h) (fun _ _ h => h)
        | exact Stage.total_frames _ (fun _ h => h)
        | (apply Stage.when_frames
           simp only [List.forall_mem_cons, List.not_mem_nil, false_implies, implies_true,
             and_true])
  · exact hI

theorem mainInitLoad_hints (eng : Engine) (inFlags : InitFlags) (app : KDiff3App)
    (h : inFlags.loadFiles = false) :
    (mainInitLoad eng inFlags app).m_manualDiffHelpList = app.m_manualDiffHelpList := by
  have he : effLoadFiles inFlags app = false := by
    unfold effLoadFiles
    split
    · rfl
    · exact h
  unfold mainInitLoad
  simp only [he, Bool.false_eq_true, if_false]
  rfl

/-- Without the `loadFiles` flag, `mainInit` keeps the manual-hint list unless the `try`
block ends in `std::bad_alloc`. -/
theorem mainInit_keeps_hints (eng : Engine) (opts : Options) (inFlags : InitFlags)
    (app : KDiff3App) (h : inFlags.loadFiles = false)
    (hx : (mainInitRun eng opts inFlags app).2 ≠ some Exn.badAlloc) :
    (mainInit eng opts inFlags app).m_manualDiffHelpList = app.m_manualDiffHelpList := by
  have h1 := mainInitLoad_hints eng inFlags app h
  have h2 : (mainInitRun eng opts inFlags app).1.m_manualDiffHelpList =
      app.m_manualDiffHelpList :=
    mainInitTry_hints eng opts inFlags (isFirstRun app) (effLoadFiles inFlags app)
      app.m_manualDiffHelpList (mainInitLoad eng inFlags app) h1
  have h3 : (mainInitCatch eng (mainInitRun eng opts inFlags app)).m_manualDiffHelpList =
      app.m_manualDiffHelpList := by
    generalize mainInitRun eng opts inFlags app = r at hx h2
    rcases r with ⟨a, _ | _ | w⟩
    · exact h2
    · exact absurd rfl hx
    · exact h2
  have h4 : (mainInitDiffed eng opts inFlags app).m_manualDiffHelpList =
      app.m_manualDiffHelpList := by
    unfold mainInitDiffed
    generalize mainInitCatch eng (mainInitRun eng opts inFlags app) = c at h3
    unfold mainInitWhite
    split
    · exact h3
    · exact h3
  have h5 : (mainInitNeededLines eng (mainInitDiffed eng opts inFlags app)).m_manualDiffHelpList
      = app.m_manualDiffHelpList := by
    generalize mainInitDiffed eng opts inFlags app = d at h4
    unfold mainInitNeededLines
    split
    · exact h4
    · exact h4
  unfold mainInit
  rw [(mainInitFinish_fields inFlags _ _).2.2.2.2.2.1]
  exact h5

theorem mainInit_no_hint_events (e : Event)
    (h : (e.fromLoad || e.fromDiff || e.fromCatch || e.isWhiteStage || e.fromFinish) = true) :
    e.isInsertEntry = false ∧ e ≠ Event.nothingSelectedMessage := by
  cases e <;>
    first
    | exact ⟨rfl, fun hc => Event.noConfusion hc⟩
    | exact Bool.noConfusion h

theorem Traced.quiet {p : Event → Bool} {base : List Event}
    {S : SourceData × SourceData × SourceData} {tr : List Event} {a b : KDiff3App}
    (h : Traced p base S tr a) (h1 : b.m_sd1 = a.m_sd1) (h2 : b.m_sd2 = a.m_sd2)
    (h3 : b.m_sd3 = a.m_sd3) (l : List Event) (hl : b.log = a.log ++ l)
    (hq : l.filter p = []) : Traced p base S tr b := by
  obtain ⟨⟨s1, s2, s3⟩, evs, e1, e2⟩ := h
  refine ⟨⟨h1.trans s1, h2.trans s2, h3.trans s3⟩, evs ++ l, ?_, ?_⟩
  · rw [hl, e1, List.append_assoc]
  · rw [List.filter_append, e2, hq, List.append_nil]

theorem Traced.loud {p : Event → Bool} {base : List Event}
    {S : SourceData × SourceData × SourceData} {tr : List Event} {a b : KDiff3App}
    (h : Traced p base S tr a) (h1 : b.m_sd1 = a.m_sd1) (h2 : b.m_sd2 = a.m_sd2)
    (h3 : b.m_sd3 = a.m_sd3) (e : Event) (hl : b.log = a.log ++ [e])
    (hq : p e = true) : Traced p base S (tr ++ [e]) b := by
  obtain ⟨⟨s1, s2, s3⟩, evs, e1, e2⟩ := h
  refine ⟨⟨h1.trans s1, h2.trans s2, h3.trans s3⟩, evs ++ [e], ?_, ?_⟩
  · rw [hl, e1, List.append_assoc]
  · rw [List.filter_append, e2]
    simp [hq]

theorem Stage.Frames.post {I : KDiff3App → Prop} {st : Stage} (h : Stage.Frames I st) :
    Stage.Post I st I :=
  fun app hI _ => h app hI

theorem runStages_post_nil (P : KDiff3App → Prop) : Stage.Post P (runStages []) P :=
  fun _ h _ => h

theorem runStages_post_cons {P Q R : KDiff3App → Prop} {st : Stage} {rest : List Stage}
    (h1 : Stage.Post P st Q) (h2 : Stage.Post Q (runStages rest) R) :
    Stage.Post P (runStages (st :: rest)) R := by
  intro app hP
  have q := h1 app hP
  unfold runStages
  rcases hst : st app with ⟨app1, _ | x⟩
  · rw [hst] at q
    exact h2 app1 (q rfl)
  · intro hc
    cases hc

theorem runStages_post_append {P Q R : KDiff3App → Prop} {l1 l2 : List Stage}
    (h1 : Stage.Post P (runStages l1) Q) (h2 : Stage.Post Q (runStages l2) R) :
    Stage.Post P (runStages (l1 ++ l2)) R := by
  induction l1 generalizing P with
  | nil =>
    intro app hP
    exact h2 app (h1 app hP rfl)
  | cons st rest ih =>
    intro app hP
    have h := h1 app hP
    unfold runStages at h
    rw [List.cons_append]
    unfold runStages
    rcases hst : st app with ⟨app1, _ | x⟩
    · rw [hst] at h
      exact ih (P := fun a => a = app1) (fun a ha => by subst ha; exact h) app1 rfl
    · intro hc
      cases hc

theorem Stage.call_post {P Q : KDiff3App → Prop} {α : Type} (e : Event)
    (r : KDiff3App → Except Exn α) (store : α → KDiff3App → KDiff3App)
    (h : ∀ a app, P app → Q (store a (emit e app))) : Stage.Post P (Stage.call e r store) Q := by
  intro app hP
  unfold Stage.call
  cases r app with
  | error x =>
    intro hc
    cases hc
  | ok a => exact fun _ => h a app hP

theorem Stage.when_post {P Q : KDiff3App → Prop} (c : KDiff3App → Bool) (body : List Stage)
    (hc : ∀ a, P a → c a = true) (h : Stage.Post P (runStages body) Q) :
    Stage.Post P (Stage.when c body) Q := by
  intro app hP
  unfold Stage.when
  rw [if_pos (hc app hP)]
  exact h app hP

theorem Stage.when_post_skip {P : KDiff3App → Prop} (c : KDiff3App → Bool)
    (body : List Stage) (hc : ∀ a, P a → c a = false) :
    Stage.Post P (Stage.when c body) P := by
  intro app hP
  unfold Stage.when
  rw [if_neg (by rw [hc app hP]; exact Bool.false_ne_true)]
  exact fun _ => hP

/-- A weave stage that stores its result in one of the lists adds its event to the
trace. -/
theorem Stage.call_loud {p : Event → Bool} {base : List Event}
    {S : SourceData × SourceData × SourceData} {tr : List Event} {α : Type} (e : Event)
    (r : KDiff3App → Except Exn α) (store : α → KDiff3App → KDiff3App) (hp : p e = true)
    (hs : ∀ a app, (store a app).m_sd1 = app.m_sd1 ∧ (store a app).m_sd2 = app.m_sd2 ∧
      (store a app).m_sd3 = app.m_sd3 ∧ (store a app).log = app.log) :
    Stage.Post (Traced p base S tr) (Stage.call e r store) (Traced p base S (tr ++ [e])) := by
  apply Stage.call_post
  intro a app h
  obtain ⟨s1, s2, s3, s4⟩ := hs a (emit e app)
  exact h.loud s1 s2 s3 e (by rw [s4]; rfl) hp

/-- The fine-diff rounds and the end of the three-way branch (lines 265-313) call no weave
pass and leave the sources alone. -/
theorem threeWayFines_quiet (eng : Engine) (opts : Options) (f : IgnoreFlags)
    (base : List Event) (S : SourceData × SourceData × SourceData) (tr : List Event) :
    Stage.Frames (Traced Event.isWeaveStage base S tr)
      (runStages (threeWayFine eng opts f ++ (threeWayFineAgain eng f ++ threeWayEnd))) := by
  apply runStages_frames
  simp only [threeWayFine, threeWayFineAgain, threeWayEnd, List.cons_append, List.nil_append,
    stFineDiffAB, stFineDiffBC, stFineDiffAC, stDebugLineCheck, stStep, progressStep,
    List.forall_mem_cons, List.not_mem_nil, false_implies, implies_true, and_true]
  repeat' first
    | apply And.intro
    | exact Stage.call_frames _ _ _ (fun _ h => h.quiet rfl rfl rfl [_] rfl rfl)
        (fun _ _ h => h.quiet rfl rfl rfl [_] rfl rfl)
    | exact Stage.total_frames _ (fun _ h => h.quiet rfl rfl rfl [_] rfl rfl)
    | exact Stage.total_frames _
        (fun _ h => h.quiet rfl rfl rfl [] (List.append_nil _).symm rfl)
    | (apply Stage.when_frames
       simp only [List.forall_mem_cons, List.not_mem_nil, false_implies, implies_true,
         and_true])

theorem stStep_quiet (base : List Event) (S : SourceData × SourceData × SourceData)
    (tr : List Event) :
    Stage.Post (Traced Event.isWeaveStage base S tr) stStep
      (Traced Event.isWeaveStage base S tr) :=
  Stage.Frames.post (Stage.total_frames _ (fun _ h => h.quiet rfl rfl rfl [_] rfl rfl))

/-- Lines 219-228 on text sources A and B: the AB diff, then pass 1. -/
theorem threeWayAB_trace (eng : Engine) (base : List Event)
    (S : SourceData × SourceData × SourceData) (tr : List Event)
    (hT : AllText S.1 S.2.1 S.2.2) :
    Stage.Post (Traced Event.isWeaveStage base S tr) (runStages (threeWayAB eng))
      (Traced Event.isWeaveStage base S
        (tr ++ [Event.runDiff e_SrcSelector.A e_SrcSelector.B] ++
          [Event.calcDiff3LineListUsingAB])) := by
  unfold threeWayAB
  refine runStages_post_cons (Stage.when_post _ _ ?_ ?_)
    (runStages_post_cons (stStep_quiet _ _ _) (runStages_post_nil _))
  · intro a h
    rw [h.1.1, h.1.2.1, hT.1, hT.2.1]
    rfl
  · exact runStages_post_cons
      (Stage.call_loud _ _ _ rfl (fun _ _ => ⟨rfl, rfl, rfl, rfl⟩))
      (runStages_post_cons (Stage.call_loud _ _ _ rfl (fun _ _ => ⟨rfl, rfl, rfl, rfl⟩))
        (runStages_post_nil _))

/-- Lines 230-241 on text sources A and C: the AC diff, pass 2, the manual alignment
correction and the trim. -/
theorem threeWayAC_trace (eng : Engine) (base : List Event)
    (S : SourceData × SourceData × SourceData) (tr : List Event)
    (hT : AllText S.1 S.2.1 S.2.2) :
    Stage.Post (Traced Event.isWeaveStage base S tr) (runStages (threeWayAC eng))
      (Traced Event.isWeaveStage base S
        (tr ++ [Event.runDiff e_SrcSelector.A e_SrcSelector.C] ++
          [Event.calcDiff3LineListUsingAC] ++ [Event.correctManualDiffAlignment] ++
          [Event.calcDiff3LineListTrim])) := by
  unfold threeWayAC
  refine runStages_post_cons (Stage.when_post _ _ ?_ ?_)
    (runStages_post_cons (stStep_quiet _ _ _) (runStages_post_nil _))
  · intro a h
    rw [h.1.1, h.1.2.2, hT.1, hT.2.2]
    rfl
  · exact runStages_post_cons
      (Stage.call_loud _ _ _ rfl (fun _ _ => ⟨rfl, rfl, rfl, rfl⟩))
      (runStages_post_cons (Stage.call_loud _ _ _ rfl (fun _ _ => ⟨rfl, rfl, rfl, rfl⟩))
        (runStages_post_cons (Stage.call_loud _ _ _ rfl (fun _ _ => ⟨rfl, rfl, rfl, rfl⟩))
          (runStages_post_cons (Stage.call_loud _ _ _ rfl (fun _ _ => ⟨rfl, rfl, rfl, rfl⟩))
            (runStages_post_nil _))))

/-- Lines 243-263 on text sources B and C. -/
theorem threeWayBC_trace (eng : Engine) (opts : Options) (base : List Event)
    (S : SourceData × SourceData × SourceData) (tr : List Event)
    (hT : AllText S.1 S.2.1 S.2.2) :
    Stage.Post (Traced Event.isWeaveStage base S tr) (runStages (threeWayBC eng opts))
      (Traced Event.isWeaveStage base S (tr ++ weaveCallsBC opts)) := by
  unfold threeWayBC weaveCallsBC
  have hdbg : ∀ t, Stage.Frames (Traced Event.isWeaveStage base S t)
      (Stage.when (fun _ => !opts.bDiff3AlignBC)
        [stDebugLineCheck (fun app => app.m_sd1.lineCount) e_SrcSelector.A,
          stDebugLineCheck (fun app => app.m_sd2.lineCount) e_SrcSelector.B,
          stDebugLineCheck (fun app => app.m_sd3.lineCount) e_SrcSelector.C]) := by
    intro t
    apply Stage.when_frames
    simp only [stDebugLineCheck, List.forall_mem_cons, List.not_mem_nil, false_implies,
      implies_true, and_true]
    exact ⟨Stage.total_frames _ (fun _ h => h.quiet rfl rfl rfl [_] rfl rfl),
      Stage.total_frames _ (fun _ h => h.quiet rfl rfl rfl [_] rfl rfl),
      Stage.total_frames _ (fun _ h => h.quiet rfl rfl rfl [_] rfl rfl)⟩
  refine runStages_post_cons (Stage.when_post _ _ ?_ ?_)
    (runStages_post_cons (stStep_quiet _ _ _)
      (runStages_post_cons (hdbg _).post (runStages_post_nil _)))
  · intro a h
    rw [h.1.2.1, h.1.2.2, hT.2.1, hT.2.2]
    rfl
  · refine runStages_post_cons
      (Stage.call_loud _ _ _ rfl (fun _ _ => ⟨rfl, rfl, rfl, rfl⟩))
      (runStages_post_cons ?_ (runStages_post_nil _))
    cases hb : opts.bDiff3AlignBC with
    | false =>
      have e : tr ++ Event.runDiff e_SrcSelector.B e_SrcSelector.C ::
          (if false = true then [Event.calcDiff3LineListUsingBC,
            Event.correctManualDiffAlignment, Event.calcDiff3LineListTrim] else []) =
          tr ++ [Event.runDiff e_SrcSelector.B e_SrcSelector.C] := rfl
      rw [e]
      exact Stage.when_post_skip _ _ (fun _ _ => rfl)
    | true =>
      have e : tr ++ Event.runDiff e_SrcSelector.B e_SrcSelector.C ::
          (if true = true then [Event.calcDiff3LineListUsingBC,
            Event.correctManualDiffAlignment, Event.calcDiff3LineListTrim] else []) =
          tr ++ [Event.runDiff e_SrcSelector.B e_SrcSelector.C] ++
            [Event.calcDiff3LineListUsingBC] ++ [Event.correctManualDiffAlignment] ++
            [Event.calcDiff3LineListTrim] := by simp
      rw [e]
      exact Stage.when_post _ _ (fun _ _ => rfl) (runStages_post_cons
        (Stage.call_loud _ _ _ rfl (fun _ _ => ⟨rfl, rfl, rfl, rfl⟩))
        (runStages_post_cons (Stage.call_loud _ _ _ rfl (fun _ _ => ⟨rfl, rfl, rfl, rfl⟩))
          (runStages_post_cons (Stage.call_loud _ _ _ rfl (fun _ _ => ⟨rfl, rfl, rfl, rfl⟩))
            (runStages_post_nil _))))

theorem logged_quiet {p : Event → Bool} {base t : List Event} {a b : KDiff3App}
    (h : ∃ evs, a.log = base ++ evs ∧ evs.filter p = t) (l : List Event)
    (hl : b.log = a.log ++ l) (hq : l.filter p = []) :
    ∃ evs, b.log = base ++ evs ∧ evs.filter p = t := by
  obtain ⟨evs, e1, e2⟩ := h
  refine ⟨evs ++ l, ?_, ?_⟩
  · rw [hl, e1, List.append_assoc]
  · rw [List.filter_append, e2, hq, List.append_nil]

theorem logGrows_quiet {p : Event → Bool} {base t : List Event} {a b : KDiff3App}
    (h : ∃ evs, a.log = base ++ evs ∧ evs.filter p = t)
    (hg : LogGrows (fun e => p e = false) a b) :
    ∃ evs, b.log = base ++ evs ∧ evs.filter p = t := by
  obtain ⟨l, hl, hq⟩ := hg
  refine logged_quiet h l hl ?_
  rw [List.filter_eq_nil_iff]
  intro e he
  rw [hq e he]
  exact Bool.false_ne_true

/-- Lines 202-217 call no weave pass. -/
theorem threeWayLoad_quiet (eng : Engine) (b1 b2 : Bool) (base tr : List Event) :
    Stage.Frames (fun a => ∃ evs, a.log = base ++ evs ∧ evs.filter Event.isWeaveStage = tr)
      (runStages (threeWayLoad eng b1 b2)) := by
  apply runStages_frames
  simp only [threeWayLoad, stStep, progressStep, List.forall_mem_cons, List.not_mem_nil,
    false_implies, implies_true, and_true]
  repeat' first
    | apply And.intro
    | exact Stage.total_frames _ (fun _ h => logged_quiet h [_] rfl rfl)
    | (apply Stage.when_frames
       simp only [List.forall_mem_cons, List.not_mem_nil, false_implies, implies_true,
         and_true])

/-- What follows the reading of C in the three-way branch leaves the sources alone. -/
theorem threeWayRest_sources (eng : Engine) (opts : Options) (f : IgnoreFlags)
    (S : SourceData × SourceData × SourceData) :
    Stage.Frames (fun a => a.m_sd1 = S.1 ∧ a.m_sd2 = S.2.1 ∧ a.m_sd3 = S.2.2)
      (runStages (threeWayAB eng ++ (threeWayAC eng ++ (threeWayBC eng opts ++
        (threeWayFine eng opts f ++ (threeWayFineAgain eng f ++ threeWayEnd)))))) := by
  apply runStages_frames
  simp only [threeWayAB, threeWayAC, threeWayBC, threeWayFine,
    threeWayFineAgain, threeWayEnd, List.cons_append, List.nil_append,
    stRunDiff12, stRunDiff13, stRunDiff23, stUsingAB, stUsingAC,
    stUsingBC, stCorrectManualDiffAlignment, stTrim, stFineDiffAB, stFineDiffBC,
    stFineDiffAC, stDebugLineCheck, stStep, progressStep,
    List.forall_mem_cons, List.not_mem_nil, false_implies, implies_true, and_true]
  repeat' first
    | apply And.intro
    | exact Stage.call_frames _ _ _ (fun _ h => h) (fun _ _ h => h)
    | exact Stage.total_frames _ (fun _ h => h)
    | (apply Stage.when_frames
       simp only [List.forall_mem_cons, List.not_mem_nil, false_implies, implies_true,
         and_true])

/-- The three-way branch, when it ends without an exception with three text sources, has
made the weave calls `weaveCalls opts`, in this order, and no other. -/
theorem diffThreeWay_trace (eng : Engine) (opts : Options) (f : IgnoreFlags) (b1 b2 : Bool)
    (base : List Event) :
    Stage.Post (fun a => a.log = base) (runStages (diffThreeWay eng opts f b1 b2))
      (fun a => AllText a.m_sd1 a.m_sd2 a.m_sd3 →
        ∃ evs, a.log = base ++ evs ∧ evs.filter Event.isWeaveStage = weaveCalls opts) := by
  unfold diffThreeWay
  refine runStages_post_append
    (Q := fun a => ∃ evs, a.log = base ++ evs ∧ evs.filter Event.isWeaveStage = []) ?_ ?_
  · intro a ha _
    exact threeWayLoad_quiet eng b1 b2 base [] a ⟨[], by rw [ha, List.append_nil], rfl⟩
  · intro X hX hnone hT
    have hS := threeWayRest_sources eng opts f (X.m_sd1, X.m_sd2, X.m_sd3) X ⟨rfl, rfl, rfl⟩
    have hT0 : AllText X.m_sd1 X.m_sd2 X.m_sd3 := by
      obtain ⟨s1, s2, s3⟩ := hS
      simp only at s1 s2 s3
      rw [← s1, ← s2, ← s3]
      exact hT
    have h0 : Traced Event.isWeaveStage base (X.m_sd1, X.m_sd2, X.m_sd3) [] X :=
      ⟨⟨rfl, rfl, rfl⟩, hX⟩
    exact (runStages_post_append (threeWayAB_trace eng base _ _ hT0)
      (runStages_post_append (threeWayAC_trace eng base _ _ hT0)
        (runStages_post_append (threeWayBC_trace eng opts base _ _ hT0)
          (threeWayFines_quiet eng opts f base _ _).post)) X h0 hnone).2

/-- An exception in the `try` block leaves an error message in `mErrors`. -/
theorem mainInit_exception_errors (eng : Engine) (opts : Options) (inFlags : InitFlags)
    (app : KDiff3App) (x : Exn) (hx : (mainInitRun eng opts inFlags app).2 = some x) :
    (mainInit eng opts inFlags app).mErrors ≠ [] := by
  have hc : (mainInitCatch eng (mainInitRun eng opts inFlags app)).mErrors ≠ [] := by
    generalize mainInitRun eng opts inFlags app = r at hx
    rcases r with ⟨a, _ | _ | w⟩
    · cases hx
    · show a.mErrors ++ [msgNotEnoughMemory] ≠ []
      simp
    · show a.mErrors ++ [msgInternalError w] ≠ []
      simp
  have hd : (mainInitDiffed eng opts inFlags app).mErrors ≠ [] := by
    unfold mainInitDiffed
    generalize mainInitCatch eng (mainInitRun eng opts inFlags app) = c at hc
    unfold mainInitWhite
    rw [if_neg]
    · exact hc
    · intro h
      simp only [Bool.and_eq_true, List.isEmpty_iff] at h
      exact hc h.1.1.2
  obtain ⟨-, -, -, -, -, -, -, -, -, f10, -, -⟩ := mainInitFinish_fields inFlags
    (effLoadFiles inFlags app) (mainInitNeededLines eng (mainInitDiffed eng opts inFlags app))
  show (mainInitFinish _ _ _).mErrors ≠ []
  rw [f10]
  generalize mainInitDiffed eng opts inFlags app = d at hd
  unfold mainInitNeededLines
  split
  · exact hd
  · show d.mErrors ++ [msgTooManyLines] ≠ []
    simp

/-- What follows a `try` block that ended without an exception: the sources stay, and no
weave pass is called. -/
theorem mainInit_tail_quiet (eng : Engine) (opts : Options) (inFlags : InitFlags)
    (app : KDiff3App) (hx : (mainInitRun eng opts inFlags app).2 = none) :
    (mainInit eng opts inFlags app).m_sd1 = (mainInitRun eng opts inFlags app).1.m_sd1 ∧
    (mainInit eng opts inFlags app).m_sd2 = (mainInitRun eng opts inFlags app).1.m_sd2 ∧
    (mainInit eng opts inFlags app).m_sd3 = (mainInitRun eng opts inFlags app).1.m_sd3 ∧
    LogGrows (fun e => e.isWeaveStage = false) (mainInitRun eng opts inFlags app).1
      (mainInit eng opts inFlags app) := by
  have hc : mainInitCatch eng (mainInitRun eng opts inFlags app) =
      (mainInitRun eng opts inFlags app).1 := by
    unfold mainInitCatch
    rw [hx]
  have l4 := mainInitWhite_emits (P := fun e => e.isWeaveStage = false)
    (fun e h => by cases e <;> first | rfl | exact Bool.noConfusion h) eng opts
    (isFirstRun app) (mainInitCatch eng (mainInitRun eng opts inFlags app))
  have l5 : LogGrows (fun e => e.isWeaveStage = false) (mainInitDiffed eng opts inFlags app)
      (mainInitNeededLines eng (mainInitDiffed eng opts inFlags app)) :=
    LogGrows.of_log_eq (mainInitNeededLines_log eng _)
  have l6 := mainInitFinish_emits (P := fun e => e.isWeaveStage = false)
    (fun e h => by cases e <;> first | rfl | exact Bool.noConfusion h) inFlags
    (effLoadFiles inFlags app) (mainInitNeededLines eng (mainInitDiffed eng opts inFlags app))
  have hlog := (l4.trans l5).trans l6
  rw [hc] at hlog
  obtain ⟨-, -, -, -, -, -, f7, f8, f9, -, -, -⟩ := mainInitFinish_fields inFlags
    (effLoadFiles inFlags app) (mainInitNeededLines eng (mainInitDiffed eng opts inFlags app))
  have hn : ∀ d : KDiff3App, (mainInitNeededLines eng d).m_sd1 = d.m_sd1 ∧
      (mainInitNeededLines eng d).m_sd2 = d.m_sd2 ∧
      (mainInitNeededLines eng d).m_sd3 = d.m_sd3 := by
    intro d
    unfold mainInitNeededLines
    split <;> exact ⟨rfl, rfl, rfl⟩
  have hw : ∀ c : KDiff3App, (mainInitWhite eng opts (isFirstRun app) c).m_sd1 = c.m_sd1 ∧
      (mainInitWhite eng opts (isFirstRun app) c).m_sd2 = c.m_sd2 ∧
      (mainInitWhite eng opts (isFirstRun app) c).m_sd3 = c.m_sd3 := by
    intro c
    unfold mainInitWhite
    split <;> exact ⟨rfl, rfl, rfl⟩
  have hd : (mainInitDiffed eng opts inFlags app).m_sd1 =
        (mainInitRun eng opts inFlags app).1.m_sd1 ∧
      (mainInitDiffed eng opts inFlags app).m_sd2 =
        (mainInitRun eng opts inFlags app).1.m_sd2 ∧
      (mainInitDiffed eng opts inFlags app).m_sd3 =
        (mainInitRun eng opts inFlags app).1.m_sd3 := by
    unfold mainInitDiffed
    rw [hc]
    exact hw _
  refine ⟨?_, ?_, ?_, hlog⟩
  · show (mainInitFinish _ _ _).m_sd1 = _
    rw [f7, (hn _).1, hd.1]
  · show (mainInitFinish _ _ _).m_sd2 = _
    rw [f8, (hn _).2.1, hd.2.1]
  · show (mainInitFinish _ _ _).m_sd3 = _
    rw [f9, (hn _).2.2, hd.2.2]

theorem stepCount_append (a b : List Event) : stepCount (a ++ b) = stepCount a + stepCount b :=
  List.count_append _ _ _

theorem declaredSteps_append (a b : List Event) :
    declaredSteps (a ++ b) = declaredSteps a ++ declaredSteps b :=
  List.filterMap_append _ _ _

theorem noProgress_counts (l : List Event) (h : ∀ e ∈ l, e.isNoProgress = true) :
    stepCount l = 0 ∧ declaredSteps l = [] := by
  induction l with
  | nil => exact ⟨rfl, rfl⟩
  | cons e l ih =>
    obtain ⟨i1, i2⟩ := ih (fun x hx => h x (by simp [hx]))
    have he := h e (by simp)
    cases e <;> first
      | exact Bool.noConfusion he
      | exact ⟨by simpa [stepCount] using i1, by simpa [declaredSteps] using i2⟩

theorem Stepped.still {base : List Event} {k : Nat} {a b : KDiff3App} (h : Stepped base k a)
    (l : List Event) (hl : b.log = a.log ++ l) (hq : ∀ e ∈ l, e.isNoProgress = true) :
    Stepped base k b := by
  obtain ⟨evs, e1, e2, e3⟩ := h
  obtain ⟨q1, q2⟩ := noProgress_counts l hq
  refine ⟨evs ++ l, ?_, ?_, ?_⟩
  · rw [hl, e1, List.append_assoc]
  · rw [stepCount_append, e2, q1, Nat.add_zero]
  · rw [declaredSteps_append, e3, q2, List.append_nil]

theorem Stepped.next {base : List Event} {k : Nat} {a : KDiff3App} (h : Stepped base k a) :
    Stepped base (k + 1) (progressStep a) := by
  obtain ⟨evs, e1, e2, e3⟩ := h
  refine ⟨evs ++ [Event.step], ?_, ?_, ?_⟩
  · show a.log ++ [Event.step] = _
    rw [e1, List.append_assoc]
  · rw [stepCount_append, e2]
    rfl
  · rw [declaredSteps_append, e3]
    rfl

theorem runStages_steps_nil : Stage.Steps 0 (runStages []) :=
  fun _ _ _ h _ => h

theorem runStages_steps_cons {n m : Nat} {st : Stage} {rest : List Stage}
    (h1 : Stage.Steps n st) (h2 : Stage.Steps m (runStages rest)) :
    Stage.Steps (n + m) (runStages (st :: rest)) := by
  intro base k
  have h := runStages_post_cons (h1 base k) (h2 base (k + n))
  rw [Nat.add_assoc] at h
  exact h

theorem runStages_steps_append {n m : Nat} {l1 l2 : List Stage}
    (h1 : Stage.Steps n (runStages l1)) (h2 : Stage.Steps m (runStages l2)) :
    Stage.Steps (n + m) (runStages (l1 ++ l2)) := by
  intro base k
  have h := runStages_post_append (h1 base k) (h2 base (k + n))
  rw [Nat.add_assoc] at h
  exact h

theorem Stage.steps_cast {n m : Nat} {st : Stage} (h : Stage.Steps n st) (e : n = m) :
    Stage.Steps m st := e ▸ h

theorem stStep_steps : Stage.Steps 1 (Stage.total progressStep) :=
  fun _ _ _ h _ => h.next

theorem Stage.total_steps (f : KDiff3App → KDiff3App) (e : KDiff3App → Event)
    (hl : ∀ app, (f app).log = app.log ++ [e app]) (he : ∀ app, (e app).isNoProgress = true) :
    Stage.Steps 0 (Stage.total f) := by
  intro base k app h _
  refine h.still [e app] (hl app) ?_
  intro x hx
  rw [List.mem_singleton.1 hx]
  exact he app

theorem Stage.total_steps_same (f : KDiff3App → KDiff3App)
    (hl : ∀ app, (f app).log = app.log) : Stage.Steps 0 (Stage.total f) := by
  intro base k app h _
  exact h.still [] (by rw [List.append_nil]; exact hl app) (fun _ hx => by cases hx)

theorem Stage.call_steps {α : Type} (e : Event) (r : KDiff3App → Except Exn α)
    (store : α → KDiff3App → KDiff3App) (he : e.isNoProgress = true)
    (hs : ∀ a app, (store a app).log = app.log) : Stage.Steps 0 (Stage.call e r store) := by
  intro base k
  apply Stage.call_post
  intro a app h
  refine h.still [e] ?_ ?_
  · rw [hs]
    rfl
  · intro x hx
    rw [List.mem_singleton.1 hx]
    exact he

theorem Stage.call_steps_two {α : Type} (e : Event) (r : KDiff3App → Except Exn α)
    (store : α → KDiff3App → KDiff3App) (e2 : α → Event) (he : e.isNoProgress = true)
    (hs : ∀ a app, (store a app).log = app.log ++ [e2 a])
    (h2 : ∀ a, (e2 a).isNoProgress = true) : Stage.Steps 0 (Stage.call e r store) := by
  intro base k
  apply Stage.call_post
  intro a app h
  refine h.still [e, e2 a] ?_ ?_
  · rw [hs]
    show (app.log ++ [e]) ++ [e2 a] = _
    rw [List.append_assoc]
    rfl
  · intro x hx
    simp only [List.mem_cons, List.mem_singleton, List.not_mem_nil, or_false] at hx
    rcases hx with rfl | rfl
    · exact he
    · exact h2 a

theorem Stage.when_steps {m : Nat} (c : KDiff3App → Bool) (body : List Stage)
    (h : Stage.Steps m (runStages body)) (h0 : m = 0) : Stage.Steps 0 (Stage.when c body) := by
  subst h0
  intro base k app hP
  unfold Stage.when
  split
  · exact h base k app hP
  · exact fun _ => hP

theorem Stage.when_steps_const {m : Nat} (b : Bool) (body : List Stage)
    (h : Stage.Steps m (runStages body)) :
    Stage.Steps (if b then m else 0) (Stage.when (fun _ => b) body) := by
  intro base k app hP
  unfold Stage.when
  cases b with
  | true => exact h base k app hP
  | false => exact fun _ => hP

theorem Stage.ite_steps {n m : Nat} (c : KDiff3App → Bool) (t e : List Stage)
    (ht : Stage.Steps n (runStages t)) (he : Stage.Steps m (runStages e)) (hnm : m = n) :
    Stage.Steps n (Stage.ite c t e) := by
  subst hnm
  intro base k app hP
  unfold Stage.ite
  split
  · exact ht base k app hP
  · exact he base k app hP

theorem runStages_steps_sum {n m t : Nat} {st : Stage} {rest : List Stage}
    (h1 : Stage.Steps n st) (h2 : Stage.Steps m (runStages rest)) (e : n + m = t) :
    Stage.Steps t (runStages (st :: rest)) :=
  e ▸ runStages_steps_cons h1 h2

/-- The two-way branch calls `step()` twice. -/
theorem diffTwoWay_steps (eng : Engine) (f : IgnoreFlags) :
    Stage.Steps 2 (runStages (diffTwoWay eng f)) := by
  unfold diffTwoWay stRunDiff12 stUsingAB stFineDiffAB stStep
  repeat' first
    | exact runStages_steps_nil
    | apply runStages_steps_sum
    | exact stStep_steps
    | exact Stage.call_steps _ _ _ rfl (fun _ _ => rfl)
    | exact Stage.call_steps_two _ _ _ _ rfl (fun _ _ => rfl) (fun _ => rfl)
    | exact Stage.total_steps _ _ (fun _ => rfl) (fun _ => rfl)
    | apply Stage.when_steps
    | apply Stage.ite_steps
    | rfl

/-- Lines 202-217 call `step()` once when C is read, and not otherwise. -/
theorem threeWayLoad_steps (eng : Engine) (b1 b2 : Bool) :
    Stage.Steps (if b1 then 1 else 0) (runStages (threeWayLoad eng b1 b2)) := by
  unfold threeWayLoad stStep
  refine runStages_steps_sum
    (Stage.when_steps_const b1 _ (runStages_steps_cons
      (Stage.total_steps _ _ (fun _ => rfl) (fun _ => rfl))
      (runStages_steps_cons stStep_steps runStages_steps_nil)))
    (runStages_steps_cons (Stage.total_steps _ _ (fun _ => rfl) (fun _ => rfl))
      (runStages_steps_cons (Stage.total_steps _ _ (fun _ => rfl) (fun _ => rfl))
        (runStages_steps_cons (Stage.total_steps _ _ (fun _ => rfl) (fun _ => rfl))
          runStages_steps_nil))) ?_
  cases b1 <;> rfl

/-- Lines 219-313 call `step()` eight times: three for the comparisons, two in the first
round of fine diffs and three in the second. -/
theorem threeWayRest_steps (eng : Engine) (opts : Options) (f : IgnoreFlags) :
    Stage.Steps 8 (runStages (threeWayAB eng ++ (threeWayAC eng ++ (threeWayBC eng opts ++
      (threeWayFine eng opts f ++ (threeWayFineAgain eng f ++ threeWayEnd)))))) := by
  simp only [threeWayAB, threeWayAC, threeWayBC, threeWayFine, threeWayFineAgain, threeWayEnd,
    List.cons_append, List.nil_append]
  unfold stRunDiff12 stRunDiff13 stRunDiff23 stUsingAB stUsingAC stUsingBC
    stCorrectManualDiffAlignment stTrim stFineDiffAB stFineDiffBC stFineDiffAC
    stDebugLineCheck stStep
  repeat' first
    | exact runStages_steps_nil
    | apply runStages_steps_sum
    | exact stStep_steps
    | exact Stage.call_steps _ _ _ rfl (fun _ _ => rfl)
    | exact Stage.call_steps_two _ _ _ _ rfl (fun _ _ => rfl) (fun _ => rfl)
    | exact Stage.total_steps _ _ (fun _ => rfl) (fun _ => rfl)
    | exact Stage.total_steps_same _ (fun _ => rfl)
    | apply Stage.when_steps
    | rfl

/-- The three-way branch calls `step()` eight times, and once more when C is read. -/
theorem diffThreeWay_steps (eng : Engine) (opts : Options) (f : IgnoreFlags) (b1 b2 : Bool) :
    Stage.Steps ((if b1 then 1 else 0) + 8) (runStages (diffThreeWay eng opts f b1 b2)) := by
  unfold diffThreeWay
  exact runStages_steps_append (threeWayLoad_steps eng b1 b2) (threeWayRest_steps eng opts f)

/-- Lines 93-166: what is declared with `setMaxNofSteps`, and the steps of the two file
reads. -/
theorem mainInitLoad_progress (eng : Engine) (inFlags : InitFlags) (app : KDiff3App) :
    ∃ evs, (mainInitLoad eng inFlags app).log = app.log ++ evs ∧
      stepCount evs = (if effLoadFiles inFlags app then 2 else 0) ∧
      declaredSteps evs =
        [if effLoadFiles inFlags app then (if app.m_sd3.empty then 4 else 9)
          else (if app.m_sd3.empty then 2 else 6)] := by
  unfold mainInitLoad
  by_cases h : effLoadFiles inFlags app = true
  · refine ⟨[Event.mergeResultReset, Event.setMaxNofSteps (if app.m_sd3.empty then 4 else 9),
      Event.readAndPreprocess e_SrcSelector.A inFlags.useCurrentEncoding, Event.step,
      Event.readAndPreprocess e_SrcSelector.B inFlags.useCurrentEncoding, Event.step,
      Event.statusReset], ?_, ?_, ?_⟩
    · simp [h, resetDiffData, emit, progressStep]
    · rw [if_pos h]
      rfl
    · rw [if_pos h]
      rfl
  · refine ⟨[Event.setMaxNofSteps (if app.m_sd3.empty then 2 else 6), Event.statusReset],
      ?_, ?_, ?_⟩
    · simp [h, emit]
    · rw [if_neg h]
      rfl
    · rw [if_neg h]
      rfl

/-- What follows a `try` block that ended without an exception logs only events of the
whitespace stage and of lines 359-415. -/
theorem mainInit_tail_emits {P : Event → Prop}
    (hP : ∀ e, (e.isWhiteStage || e.fromFinish) = true → P e)
    (eng : Engine) (opts : Options) (inFlags : InitFlags)
    (app : KDiff3App) (hx : (mainInitRun eng opts inFlags app).2 = none) :
    LogGrows P (mainInitRun eng opts inFlags app).1 (mainInit eng opts inFlags app) := by
  have hc : mainInitCatch eng (mainInitRun eng opts inFlags app) =
      (mainInitRun eng opts inFlags app).1 := by
    unfold mainInitCatch
    rw [hx]
  have l4 := mainInitWhite_emits (P := P) (fun e h => hP e (by simp [h])) eng opts
    (isFirstRun app) (mainInitCatch eng (mainInitRun eng opts inFlags app))
  have l5 : LogGrows P (mainInitDiffed eng opts inFlags app)
      (mainInitNeededLines eng (mainInitDiffed eng opts inFlags app)) :=
    LogGrows.of_log_eq (mainInitNeededLines_log eng _)
  have l6 := mainInitFinish_emits (P := P) (fun e h => hP e (by simp [h])) inFlags
    (effLoadFiles inFlags app) (mainInitNeededLines eng (mainInitDiffed eng opts inFlags app))
  have hlog := (l4.trans l5).trans l6
  rw [hc] at hlog
  exact hlog

/-- The progress accounting of every `mainInit` run that is not a first run and ends
without error: one `setMaxNofSteps` call, with 4 or 2 in two-way mode and 9 or 6 in
three-way mode (with and without loading), and `step()` calls that number 4 or 2 in
two-way mode, but 11 or 8 in three-way mode. -/
theorem mainInit_progress (eng : Engine) (opts : Options) (inFlags : InitFlags)
    (app : KDiff3App) (hfirst : isFirstRun app = false)
    (hErr : (mainInit eng opts inFlags app).mErrors = []) :
    ∃ evs, (mainInit eng opts inFlags app).log = app.log ++ evs ∧
      declaredSteps evs =
        [if inFlags.loadFiles then (if app.m_sd3.empty then 4 else 9)
          else (if app.m_sd3.empty then 2 else 6)] ∧
      stepCount evs =
        if inFlags.loadFiles then (if app.m_sd3.empty then 4 else 11)
          else (if app.m_sd3.empty then 2 else 8) := by
  have heff : effLoadFiles inFlags app = inFlags.loadFiles := by
    unfold effLoadFiles
    rw [hfirst]
    rfl
  have hL : (mainInitLoad eng inFlags app).mErrors = [] := by
    by_contra hne
    exact mainInit_load_errors _ opts inFlags app hne hErr
  have hnone : (mainInitRun eng opts inFlags app).2 = none := by
    cases hx : (mainInitRun eng opts inFlags app).2 with
    | none => rfl
    | some x => exact absurd hErr (mainInit_exception_errors eng opts inFlags app x hx)
  obtain ⟨evs0, e0, c0, d0⟩ := mainInitLoad_progress eng inFlags app
  rw [heff] at c0 d0
  have hsd3 := mainInitLoad_sd3 eng inFlags app
  have htry : Stepped (mainInitLoad eng inFlags app).log
      (if app.m_sd3.empty then 2 else (if inFlags.loadFiles then 1 else 0) + 8)
      (mainInitRun eng opts inFlags app).1 := by
    have hrun : mainInitRun eng opts inFlags app =
        Stage.ite (fun a => a.m_sd3.empty) (diffTwoWay eng (mainInitIgnoreFlags opts))
          (diffThreeWay eng opts (mainInitIgnoreFlags opts) (effLoadFiles inFlags app)
            inFlags.useCurrentEncoding) (mainInitLoad eng inFlags app) := by
      unfold mainInitRun mainInitTry
      rw [hfirst]
      simp only [hL, List.isEmpty_nil, Bool.not_false, Bool.and_self, if_true]
    rw [hrun] at hnone ⊢
    clear hrun e0 hL
    generalize mainInitLoad eng inFlags app = L at hnone hsd3 ⊢
    have h0 : Stepped L.log 0 L := ⟨[], (List.append_nil _).symm, rfl, rfl⟩
    unfold Stage.ite at hnone ⊢
    simp only [hsd3] at hnone ⊢
    cases h3 : app.m_sd3.empty with
    | true =>
      rw [h3] at hnone
      simp only [if_true] at hnone ⊢
      have h := diffTwoWay_steps eng (mainInitIgnoreFlags opts) _ 0 _ h0 hnone
      rw [Nat.zero_add] at h
      exact h
    | false =>
      rw [h3] at hnone
      simp only [Bool.false_eq_true, if_false] at hnone ⊢
      rw [heff] at hnone ⊢
      have h := diffThreeWay_steps eng opts (mainInitIgnoreFlags opts)
        inFlags.loadFiles inFlags.useCurrentEncoding _ 0 _ h0 hnone
      rw [Nat.zero_add] at h
      exact h
  obtain ⟨evs1, e1, c1, d1⟩ := htry
  obtain ⟨evs2, e2, q2⟩ := mainInit_tail_emits (P := fun e => e.isNoProgress = true)
    (fun e h => by cases e <;> first | rfl | exact Bool.noConfusion h) eng opts inFlags app hnone
  obtain ⟨c2, d2⟩ := noProgress_counts evs2 q2
  refine ⟨evs0 ++ (evs1 ++ evs2), ?_, ?_, ?_⟩
  · rw [e2, e1, e0]
    simp only [List.append_assoc]
  · rw [declaredSteps_append, declaredSteps_append, d0, d1, d2]
    rfl
  · rw [stepCount_append, stepCount_append, c0, c1, c2]
    cases inFlags.loadFiles <;> cases app.m_sd3.empty <;> rfl

theorem caseInsensitiveCompare_le (a b : String) :
    caseInsensitiveCompare a b ≤ 0 ↔ foldCase a ≤ foldCase b := by
  unfold caseInsensitiveCompare
  rcases lt_trichotomy (foldCase a) (foldCase b) with h | h | h
  · simp [h, le_of_lt h]
  · simp [h]
  · simp [h, lt_asymm h, not_le.2 h]

theorem caseInsensitiveCompare_total : TotalPreorderCompare caseInsensitiveCompare where
  opposite := by
    intro a b
    unfold caseInsensitiveCompare
    rcases lt_trichotomy (foldCase a) (foldCase b) with h | h | h
    · simp [h, lt_asymm h]
    · simp [h]
    · simp [h, lt_asymm h]
  transitive := by
    intro a b c h1 h2
    rw [caseInsensitiveCompare_le] at h1 h2 ⊢
    exact le_trans h1 h2

theorem append_ne_empty (s t : String) (h : s ≠ "") : s ++ t ≠ "" := by
  intro hc
  apply h
  have h1 := congrArg String.length hc
  simp only [String.length_append] at h1
  have h2 : s.length = 0 := by
    have : ("" : String).length = 0 := rfl
    omega
  exact String.ext (List.length_eq_zero.mp h2)

/-! ## The claims -/

/-- C4: every call of `mainInit` empties the Diff3Line list and the Diff3Line vector
before any weave pass runs (no differ or weave call is logged up to that point), so the
result of `mainInit` does not depend on the list and vector it finds; clearing the manual
hints is such a call, and so is adding a hint when the selection is valid. -/
theorem mainInit_rebuilds_from_scratch (eng : Engine) (opts : Options) (inFlags : InitFlags)
    (app : KDiff3App) :
    ((mainInitLoad eng inFlags app).m_diff3LineList = [] ∧
      (mainInitLoad eng inFlags app).mDiff3LineVector = [] ∧
      (∃ evs, (mainInitLoad eng inFlags app).log = app.log ++ evs ∧
        ∀ e ∈ evs, e.isWeaveStage = false)) ∧
    (∀ l v : Diff3LineList,
      mainInit eng opts inFlags { app with m_diff3LineList := l, mDiff3LineVector := v } =
        mainInit eng opts inFlags app) ∧
    slotClearManualDiffHelpList eng opts app =
      mainInit eng opts initWithoutReload { app with m_manualDiffHelpList := [] } ∧
    (∀ (sel1 sel2 sel3 : SelectionRange) (winIdx : e_SrcSelector) (firstLine lastLine : Nat),
      findSelection app sel1 sel2 sel3 = (winIdx, (some firstLine, some lastLine)) →
      firstLine ≤ lastLine →
      slotAddManualDiffHelp eng opts sel1 sel2 sel3 app =
        mainInit eng opts initWithoutReload
          { emit (Event.insertEntry winIdx firstLine lastLine) app with
            m_manualDiffHelpList :=
              eng.insertEntry winIdx firstLine lastLine app.m_manualDiffHelpList }) := by
  refine ⟨⟨mainInitLoad_list eng inFlags app, mainInitLoad_vector eng inFlags app,
    mainInitLoad_no_weave eng inFlags app⟩, mainInit_forgets eng opts inFlags app, rfl, ?_⟩
  intro sel1 sel2 sel3 winIdx firstLine lastLine hsel hle
  unfold slotAddManualDiffHelp
  rw [hsel]
  simp [Nat.not_lt.2 hle]

/-- Witness for C4: with line 0 selected in window A, adding a manual hint on the rebuilt
two-way state is a `mainInit` call on the state with the hint inserted. -/
theorem mainInit_rebuilds_from_scratch_witness :
    findSelection rebuiltApp (some 0, some 0) (none, none) (none, none) =
      (e_SrcSelector.A, (some 0, some 0)) ∧
    slotAddManualDiffHelp demoEngine plainOptions (some 0, some 0) (none, none) (none, none)
        rebuiltApp =
      mainInit demoEngine plainOptions initWithoutReload
        { emit (Event.insertEntry e_SrcSelector.A 0 0) rebuiltApp with
          m_manualDiffHelpList :=
            demoEngine.insertEntry e_SrcSelector.A 0 0 rebuiltApp.m_manualDiffHelpList } :=
  ⟨by decide,
   (mainInit_rebuilds_from_scratch demoEngine plainOptions initWithoutReload rebuiltApp).2.2.2
     (some 0, some 0) (none, none) (none, none) e_SrcSelector.A 0 0 (by decide) (by decide)⟩

/-- C5: if a stage of the `try` block raises `std::bad_alloc`, then on return the three
pairwise diff lists, the Diff3Line list, the Diff3Line vector and the manual-hint list are
empty, the three sources have been reset, the out-of-memory message has been appended to
the error list, and neither `calcWhiteDiff3Lines` nor `calcDiff3LineVector` has run. -/
theorem mainInit_bad_alloc_abandons (eng : Engine) (opts : Options) (inFlags : InitFlags)
    (app : KDiff3App) (h : (mainInitRun eng opts inFlags app).2 = some Exn.badAlloc) :
    (mainInit eng opts inFlags app).m_diffList12 = [] ∧
    (mainInit eng opts inFlags app).m_diffList23 = [] ∧
    (mainInit eng opts inFlags app).m_diffList13 = [] ∧
    (mainInit eng opts inFlags app).m_diff3LineList = [] ∧
    (mainInit eng opts inFlags app).mDiff3LineVector = [] ∧
    (mainInit eng opts inFlags app).m_manualDiffHelpList = [] ∧
    (mainInit eng opts inFlags app).m_sd1 =
      eng.sourceReset (mainInitRun eng opts inFlags app).1.m_sd1 ∧
    (mainInit eng opts inFlags app).m_sd2 =
      eng.sourceReset (mainInitRun eng opts inFlags app).1.m_sd2 ∧
    (mainInit eng opts inFlags app).m_sd3 =
      eng.sourceReset (mainInitRun eng opts inFlags app).1.m_sd3 ∧
    (mainInit eng opts inFlags app).mErrors =
      (mainInitRun eng opts inFlags app).1.mErrors ++ [msgNotEnoughMemory] ∧
    ∃ evs, (mainInit eng opts inFlags app).log = app.log ++ evs ∧
      Event.calcWhiteDiff3Lines ∉ evs ∧ Event.calcDiff3LineVector ∉ evs := by
  obtain ⟨h1, h2, h3, h4, h5, h6, h7, h8, h9, h10, evs, hl, hp⟩ :=
    mainInit_after_bad_alloc eng opts inFlags app h
  exact ⟨h1, h2, h3, h4, h5, h6, h7, h8, h9, h10, evs, hl,
    fun hm => by simpa [Event.isWhiteStage] using hp _ hm,
    fun hm => by simpa [Event.isWhiteStage] using hp _ hm⟩

/-- Witness for C5: the pairwise differ runs out of memory on the two-way state. -/
theorem mainInit_bad_alloc_abandons_witness :
    (mainInitRun demoEngineOom plainOptions initWithoutReload twoWayApp).2 =
      some Exn.badAlloc ∧
    (mainInit demoEngineOom plainOptions initWithoutReload twoWayApp).m_diff3LineList = [] :=
  ⟨by decide,
   (mainInit_bad_alloc_abandons demoEngineOom plainOptions initWithoutReload twoWayApp
     (by decide)).2.2.2.1⟩

/-- C6, counterexample: after a successful rebuild that left one Diff3Line and one pairwise
diff entry, a rebuild in which the differ raises `std::bad_alloc` returns with both lists
empty; the state of the successful rebuild is not restored. -/
theorem mainInit_oom_restore_counterexample :
    rebuiltApp.mErrors = [] ∧
    rebuiltApp.m_diff3LineList =
      [{ Diff3Line.ofLines (some 0) (some 0) none with bAEqB := true }] ∧
    rebuiltApp.m_diffList12 = [⟨1, 0, 0⟩] ∧
    (mainInitRun demoEngineOom plainOptions initWithoutReload rebuiltApp).2 =
      some Exn.badAlloc ∧
    (mainInit demoEngineOom plainOptions initWithoutReload rebuiltApp).m_diff3LineList = [] ∧
    (mainInit demoEngineOom plainOptions initWithoutReload rebuiltApp).m_diffList12 = [] ∧
    (mainInit demoEngineOom plainOptions initWithoutReload rebuiltApp).m_diff3LineList ≠
      rebuiltApp.m_diff3LineList := by
  decide

/-- C6, amended: when a stage fails with out-of-memory during a rebuild, the containers
are discarded and nothing is restored - whatever an earlier rebuild (with any engine,
options and flags) had left, the Diff3Line list, the Diff3Line vector and the three
pairwise diff lists are empty when `mainInit` returns. -/
theorem mainInit_oom_restores_nothing (eng1 eng2 : Engine) (opts1 opts2 : Options)
    (flags1 flags2 : InitFlags) (app : KDiff3App)
    (h : (mainInitRun eng2 opts2 flags2 (mainInit eng1 opts1 flags1 app)).2 =
      some Exn.badAlloc) :
    (mainInit eng2 opts2 flags2 (mainInit eng1 opts1 flags1 app)).m_diff3LineList = [] ∧
    (mainInit eng2 opts2 flags2 (mainInit eng1 opts1 flags1 app)).mDiff3LineVector = [] ∧
    (mainInit eng2 opts2 flags2 (mainInit eng1 opts1 flags1 app)).m_diffList12 = [] ∧
    (mainInit eng2 opts2 flags2 (mainInit eng1 opts1 flags1 app)).m_diffList23 = [] ∧
    (mainInit eng2 opts2 flags2 (mainInit eng1 opts1 flags1 app)).m_diffList13 = [] := by
  obtain ⟨h1, h2, h3, h4, h5, -⟩ :=
    mainInit_after_bad_alloc eng2 opts2 flags2 (mainInit eng1 opts1 flags1 app) h
  exact ⟨h4, h5, h1, h2, h3⟩

/-- Witness for C6 (amended): the failing rebuild after the successful one. -/
theorem mainInit_oom_restores_nothing_witness :
    (mainInitRun demoEngineOom plainOptions initWithoutReload
      (mainInit demoEngine plainOptions initWithoutReload twoWayApp)).2 = some Exn.badAlloc ∧
    (mainInit demoEngineOom plainOptions initWithoutReload
      (mainInit demoEngine plainOptions initWithoutReload twoWayApp)).m_diff3LineList = [] :=
  ⟨by decide,
   (mainInit_oom_restores_nothing demoEngine demoEngineOom plainOptions plainOptions
     initWithoutReload initWithoutReload twoWayApp (by decide)).1⟩

/-- C7: `mainInit` appends the error about too many lines exactly when the number of
Diff3Lines does not fit `LineType`; otherwise it sets `m_neededLines` to the number of
Diff3Lines and leaves the error list as it is.  The number of Diff3Lines is the one of
the list `mainInit` returns with. -/
theorem mainInit_too_many_lines (eng : Engine) (opts : Options) (inFlags : InitFlags)
    (app : KDiff3App) :
    (mainInit eng opts inFlags app).m_diff3LineList =
      (mainInitDiffed eng opts inFlags app).m_diff3LineList ∧
    ((mainInit eng opts inFlags app).mErrors =
        (mainInitDiffed eng opts inFlags app).mErrors ++ [msgTooManyLines] ↔
      safeLineType eng.lineTypeMax (mainInit eng opts inFlags app).m_diff3LineList.length
        = none) ∧
    (safeLineType eng.lineTypeMax (mainInit eng opts inFlags app).m_diff3LineList.length
        ≠ none →
      (mainInit eng opts inFlags app).m_neededLines =
        ((mainInit eng opts inFlags app).m_diff3LineList.length : Int) ∧
      (mainInit eng opts inFlags app).mErrors =
        (mainInitDiffed eng opts inFlags app).mErrors) := by
  obtain ⟨-, -, -, f4, -, -, -, -, -, f10, f11, -⟩ :=
    mainInitFinish_fields inFlags (effLoadFiles inFlags app)
      (mainInitNeededLines eng (mainInitDiffed eng opts inFlags app))
  have hl : (mainInit eng opts inFlags app).m_diff3LineList =
      (mainInitDiffed eng opts inFlags app).m_diff3LineList := by
    show (mainInitFinish _ _ _).m_diff3LineList = _
    rw [f4]
    unfold mainInitNeededLines
    split <;> rfl
  have he : (mainInit eng opts inFlags app).mErrors =
      (mainInitNeededLines eng (mainInitDiffed eng opts inFlags app)).mErrors := f10
  have hn : (mainInit eng opts inFlags app).m_neededLines =
      (mainInitNeededLines eng (mainInitDiffed eng opts inFlags app)).m_neededLines := f11
  refine ⟨hl, ?_, ?_⟩
  · rw [he, hl]
    unfold mainInitNeededLines
    cases hs : safeLineType eng.lineTypeMax
      (mainInitDiffed eng opts inFlags app).m_diff3LineList.length with
    | none => simp
    | some n => simp
  · rw [he, hn, hl]
    unfold mainInitNeededLines
    cases hs : safeLineType eng.lineTypeMax
      (mainInitDiffed eng opts inFlags app).m_diff3LineList.length with
    | none => simp
    | some n =>
      simp only [ne_eq, not_false_eq_true, and_true, forall_const, reduceCtorEq]
      unfold safeLineType at hs
      split at hs
      · simpa using hs.symm
      · cases hs

/-- Witness for C7: one Diff3Line fits a 32-bit line index. -/
theorem mainInit_too_many_lines_witness :
    safeLineType demoEngine.lineTypeMax
      (mainInit demoEngine plainOptions initWithoutReload twoWayApp).m_diff3LineList.length
      ≠ none ∧
    (mainInit demoEngine plainOptions initWithoutReload twoWayApp).m_neededLines = 1 :=
  ⟨by decide,
   ((mainInit_too_many_lines demoEngine plainOptions initWithoutReload twoWayApp).2.2
     (by decide)).1⟩

/-- C8, amended: in two-way mode, when A or B is not text, `mainInit` runs neither the
pairwise differ, nor a weave pass, nor the fine differ, never sets a text-equality result
after the status reset, and leaves the Diff3Line list empty; and when loading reported no
error and the run is not a first run, it sets `binaryEqualAB` from `isBinaryEqualWith`. -/
theorem mainInit_binary_only (eng : Engine) (opts : Options) (inFlags : InitFlags)
    (app : KDiff3App) (h3 : (mainInitLoad eng inFlags app).m_sd3.empty = true)
    (ht : ((mainInitLoad eng inFlags app).m_sd1.text &&
      (mainInitLoad eng inFlags app).m_sd2.text) = false) :
    (mainInit eng opts inFlags app).m_diff3LineList = [] ∧
    (mainInit eng opts inFlags app).status.bTextAEqB = false ∧
    (∃ evs, (mainInit eng opts inFlags app).log = app.log ++ evs ∧
      ∀ e ∈ evs, e.isWeaveStage = false ∧ e.isFineStage = false) ∧
    ((mainInitLoad eng inFlags app).mErrors = [] → isFirstRun app = false →
      (mainInit eng opts inFlags app).status.bBinaryAEqB =
        eng.isBinaryEqualWith (mainInitLoad eng inFlags app).m_sd1
          (mainInitLoad eng inFlags app).m_sd2 ∧
      Event.setBinaryEqualAB (eng.isBinaryEqualWith (mainInitLoad eng inFlags app).m_sd1
          (mainInitLoad eng inFlags app).m_sd2) ∈ (mainInit eng opts inFlags app).log) := by
  have hP1 : ∀ e : Event, e.fromLoad = true → e.isWeaveStage = false ∧ e.isFineStage = false :=
    fun e h => by cases e <;> first | exact ⟨rfl, rfl⟩ | cases h
  obtain ⟨t1, t2, t3, t4⟩ := mainInit_tail_binary eng opts inFlags (isFirstRun app)
    (effLoadFiles inFlags app) (mainInitLoad eng inFlags app) (mainInitLoad_list eng inFlags app)
    (mainInitLoad_status eng inFlags app) h3 ht
  exact ⟨t1, t2, (mainInitLoad_emits hP1 eng inFlags app).trans t3, t4⟩

/-- Witness for C8 (amended): two binary sources, loaded without error. -/
theorem mainInit_binary_only_witness :
    (mainInitLoad plainIO initWithReload binaryApp).m_sd3.empty = true ∧
    ((mainInitLoad plainIO initWithReload binaryApp).m_sd1.text &&
      (mainInitLoad plainIO initWithReload binaryApp).m_sd2.text) = false ∧
    (mainInit plainIO plainOptions initWithReload binaryApp).m_diff3LineList = [] ∧
    (mainInit plainIO plainOptions initWithReload binaryApp).status.bBinaryAEqB = true :=
  ⟨by decide, by decide,
   (mainInit_binary_only plainIO plainOptions initWithReload binaryApp (by decide)
     (by decide)).1,
   by decide⟩

/-- C8, counterexample: two-way mode, A and B binary and equal, and reading A reported an
error.  `mainInit` does not set `binaryEqualAB` from `isBinaryEqualWith`: the comparison
would say "equal", the status says "not equal", and no `setBinaryEqualAB` call is made. -/
theorem mainInit_binary_only_counterexample :
    (mainInitLoad failingReadIO initWithReload binaryApp).m_sd3.empty = true ∧
    (mainInitLoad failingReadIO initWithReload binaryApp).m_sd1.text = false ∧
    failingReadIO.isBinaryEqualWith (mainInitLoad failingReadIO initWithReload binaryApp).m_sd1
      (mainInitLoad failingReadIO initWithReload binaryApp).m_sd2 = true ∧
    (mainInit failingReadIO plainOptions initWithReload binaryApp).status.bBinaryAEqB = false ∧
    (∀ b : Bool, Event.setBinaryEqualAB b ∉
      (mainInit failingReadIO plainOptions initWithReload binaryApp).log) := by
  decide

/-- C9, amended: with word wrap disabled, a non-empty Diff3Line list whose size fits
`LineType`, and a first diff text window (or a first visible Diff3Line that is already
determined), `recalcWordWrap` returns with `m_neededLines` equal to the number of
Diff3Lines, and a following `slotFinishRecalcWordWrap` does not change that value. -/
theorem recalcWordWrap_identity (eng : Engine) (w : WrapEnv) (width : Int) (opts : Options)
    (app : KDiff3App) (hw : opts.wordWrapOn = false) (hne : app.m_diff3LineList ≠ [])
    (hfit : app.m_diff3LineList.length ≤ eng.lineTypeMax)
    (hwin : app.hasDiffTextWindow1 = true ∨ 0 ≤ app.m_firstD3LIdx) :
    ∃ st, recalcWordWrap eng w width (opts, app) = Except.ok st ∧
      st.2.m_neededLines = (app.m_diff3LineList.length : Int) ∧
      st.1.wordWrapOn = false ∧
      ∀ (w1 : WrapEnv) (width1 : Int),
        (slotFinishRecalcWordWrap w1 width1 st).2.m_neededLines =
          (app.m_diff3LineList.length : Int) := by
  have hguard : ¬ (app.m_firstD3LIdx < 0 ∧ app.hasDiffTextWindow1 = false) := by
    rintro ⟨h1, h2⟩
    rcases hwin with h | h
    · rw [h] at h2; cases h2
    · omega
  have hsafe : safeLineType eng.lineTypeMax app.m_diff3LineList.length =
      some (app.m_diff3LineList.length : Int) := by
    simp [safeLineType, hfit]
  have hemp : app.m_diff3LineList.isEmpty = false := by
    cases h : app.m_diff3LineList with
    | nil => exact absurd h hne
    | cons _ _ => rfl
  unfold recalcWordWrap
  simp only [hguard, if_false, hw, Bool.false_eq_true]
  by_cases hneg : app.m_firstD3LIdx < 0
  · simp only [hneg, if_true, hemp, Bool.not_false, hsafe]
    refine ⟨_, rfl, ?_⟩
    obtain ⟨h1, h2⟩ := recalcWordWrapStart_off w width opts (windowsRecalcWordWrap false 0 0
      { { { app with m_bRecalcWordWrapPosted := true } with
          m_firstD3LIdx := w.convertLineToDiff3LineIdx w.firstLine } with
        m_neededLines := (app.m_diff3LineList.length : Int) }) hw
    rw [(windowsRecalcWordWrap_fields false 0 0 _).1] at h1
    have h3 := congrArg Options.wordWrapOn h2
    rw [hw] at h3
    exact ⟨h1, h3, fun w1 width1 => by
      rw [(slotFinishRecalcWordWrap_off w1 width1 _ h3).1]; exact h1⟩
  · simp only [hneg, if_false, hemp, Bool.not_false, hsafe]
    refine ⟨_, rfl, ?_⟩
    obtain ⟨h1, h2⟩ := recalcWordWrapStart_off w width opts (windowsRecalcWordWrap false 0 0
      { { app with m_bRecalcWordWrapPosted := true } with
        m_neededLines := (app.m_diff3LineList.length : Int) }) hw
    rw [(windowsRecalcWordWrap_fields false 0 0 _).1] at h1
    have h3 := congrArg Options.wordWrapOn h2
    rw [hw] at h3
    exact ⟨h1, h3, fun w1 width1 => by
      rw [(slotFinishRecalcWordWrap_off w1 width1 _ h3).1]; exact h1⟩

/-- Witness for C9 (amended): the rebuilt two-way state, one Diff3Line, word wrap off. -/
theorem recalcWordWrap_identity_witness :
    plainOptions.wordWrapOn = false ∧ rebuiltApp.m_diff3LineList ≠ [] ∧
    rebuiltApp.m_diff3LineList.length ≤ demoEngine.lineTypeMax ∧
    (rebuiltApp.hasDiffTextWindow1 = true ∨ 0 ≤ rebuiltApp.m_firstD3LIdx) ∧
    ∃ st, recalcWordWrap demoEngine plainWrapEnv (-1) (plainOptions, rebuiltApp) = Except.ok st ∧
      st.2.m_neededLines = (rebuiltApp.m_diff3LineList.length : Int) ∧
      st.1.wordWrapOn = false ∧
      ∀ (w1 : WrapEnv) (width1 : Int),
        (slotFinishRecalcWordWrap w1 width1 st).2.m_neededLines =
          (rebuiltApp.m_diff3LineList.length : Int) :=
  ⟨rfl, by decide, by decide, Or.inl (by decide),
   recalcWordWrap_identity demoEngine plainWrapEnv (-1) plainOptions rebuiltApp rfl (by decide)
     (by decide) (Or.inl (by decide))⟩

/-- C9, counterexample: word wrap disabled, one Diff3Line, but no first diff text window
and the first visible Diff3Line not yet determined.  `recalcWordWrap` returns early and
`m_neededLines` keeps its old value 7 instead of becoming 1. -/
theorem recalcWordWrap_identity_counterexample :
    plainOptions.wordWrapOn = false ∧ noWindowApp.m_diff3LineList.length = 1 ∧
    noWindowApp.m_diff3LineList.length ≤ demoEngine.lineTypeMax ∧
    neededLinesOf (recalcWordWrap demoEngine plainWrapEnv (-1) (plainOptions, noWindowApp)) =
      some 7 := by
  decide

/-- C10, amended: for every display row `r` of the display map at width `w`, mapping `r`
back to its Diff3Line index and that index forward again gives the first display row of
the Diff3Line that `r` belongs to - `r` minus its sub-row.  The result is `r` exactly
when `r` is the first row of its Diff3Line, which is always so when `w` is zero or
wrapping is disabled. -/
theorem wordWrap_round_trip (wordWrap : Bool) (w : Nat) (lA lB lC : List LineData)
    (rows : Diff3LineList) (r : Nat)
    (h : r < (displayCounts wordWrap w lA lB lC rows).sum) :
    convertDiff3LineIdxToLine (displayCounts wordWrap w lA lB lC rows)
        (convertLineToDiff3LineIdx (displayCounts wordWrap w lA lB lC rows) r) +
      (locateRow (displayCounts wordWrap w lA lB lC rows) r).2 = r ∧
    (convertDiff3LineIdxToLine (displayCounts wordWrap w lA lB lC rows)
        (convertLineToDiff3LineIdx (displayCounts wordWrap w lA lB lC rows) r) = r ↔
      (locateRow (displayCounts wordWrap w lA lB lC rows) r).2 = 0) ∧
    (wordWrap = false ∨ w = 0 →
      convertDiff3LineIdxToLine (displayCounts wordWrap w lA lB lC rows)
        (convertLineToDiff3LineIdx (displayCounts wordWrap w lA lB lC rows) r) = r) := by
  have h1 := (locateRow_spec _ r h).1
  simp only [convertDiff3LineIdxToLine, convertLineToDiff3LineIdx, displayRow, Nat.add_zero]
  refine ⟨h1, ?_, ?_⟩
  · constructor <;> intro h2 <;> omega
  · intro hw
    have h0 := locateRow_ones _ r (displayCounts_ones wordWrap w lA lB lC rows hw) h
    omega

/-- Witness for C10 (amended): display row 2 of the nine-column line at width 4. -/
theorem wordWrap_round_trip_witness :
    2 < (displayCounts true 4 wideLines [] [] wideRows).sum ∧
    convertDiff3LineIdxToLine (displayCounts true 4 wideLines [] [] wideRows)
        (convertLineToDiff3LineIdx (displayCounts true 4 wideLines [] [] wideRows) 2) +
      (locateRow (displayCounts true 4 wideLines [] [] wideRows) 2).2 = 2 :=
  ⟨by decide, (wordWrap_round_trip true 4 wideLines [] [] wideRows 2 (by decide)).1⟩

/-- C10, counterexample: a line of nine columns at width 4 takes three display rows.
Display row 1 maps back to Diff3Line 0, and Diff3Line 0 maps forward to display row 0, not
1.  In the driver: with display row 1 the first visible one, `recalcWordWrap` (whose
finishing slot runs at once) leaves the scroll bar at row 0. -/
theorem wordWrap_round_trip_counterexample :
    displayCounts true 4 wideLines [] [] wideRows = [3] ∧
    convertLineToDiff3LineIdx (displayCounts true 4 wideLines [] [] wideRows) 1 = 0 ∧
    convertDiff3LineIdxToLine (displayCounts true 4 wideLines [] [] wideRows)
      (convertLineToDiff3LineIdx (displayCounts true 4 wideLines [] [] wideRows) 1) = 0 ∧
    wideApp.vScrollValue = 1 ∧
    vScrollValueOf (recalcWordWrap demoEngine (specWrapEnv wideCounts 1) (-1)
      ({ plainOptions with wordWrapOn := true }, wideApp)) = some 0 := by
  decide

/-- C2: for every pair of line arrays, whatever the manual hints and the ignore-mask, the
pairwise differ returns a `DiffEdit` sequence that covers both inputs exactly: the sum of
`nofEquals + diff1` is the length of the first array and the sum of `nofEquals + diff2`
the length of the second. -/
theorem runDiff_covers_inputs (mask : IgnoreFlags) (io : Engine) (hints : ManualDiffHelpList)
    (l1 l2 : List LineData) (s1 s2 : e_SrcSelector) :
    ∃ d : DiffList, (specEngine mask io).runDiff hints l1 l2 s1 s2 = Except.ok d ∧
      (d.map (fun e => e.nofEquals + e.diff1)).sum = l1.length ∧
      (d.map (fun e => e.nofEquals + e.diff2)).sum = l2.length :=
  ⟨runDiff mask hints l1 l2 s1 s2, rfl, (runDiff_sum mask hints l1 l2 s1 s2).1,
    (runDiff_sum mask hints l1 l2 s1 s2).2⟩

/-- C1: after a three-way `mainInit` run of the engine of the specification that ends
without error on three text sources - seed from AB, fold-in of AC, manual alignment
correction, trim, and the BC fold-in when that option is set - the non-absent line
indices of each source, read in list order, are exactly `0, 1, ..., lineCount - 1`. -/
theorem weave_covers_sources (mask : IgnoreFlags) (io : Engine) (opts : Options)
    (inFlags : InitFlags) (app : KDiff3App) (h3 : app.m_sd3.empty = false)
    (hErr : (mainInit (specEngine mask io) opts inFlags app).mErrors = [])
    (hText : (mainInit (specEngine mask io) opts inFlags app).m_sd1.text = true ∧
      (mainInit (specEngine mask io) opts inFlags app).m_sd2.text = true ∧
      (mainInit (specEngine mask io) opts inFlags app).m_sd3.text = true) :
    linesOf e_SrcSelector.A (mainInit (specEngine mask io) opts inFlags app).m_diff3LineList =
      List.range (mainInit (specEngine mask io) opts inFlags app).m_sd1.lineCount ∧
    linesOf e_SrcSelector.B (mainInit (specEngine mask io) opts inFlags app).m_diff3LineList =
      List.range (mainInit (specEngine mask io) opts inFlags app).m_sd2.lineCount ∧
    linesOf e_SrcSelector.C (mainInit (specEngine mask io) opts inFlags app).m_diff3LineList =
      List.range (mainInit (specEngine mask io) opts inFlags app).m_sd3.lineCount := by
  have hfirst : isFirstRun app = false := by
    simp [isFirstRun, h3]
  have hL : (mainInitLoad (specEngine mask io) inFlags app).mErrors = [] := by
    by_contra hne
    exact mainInit_load_errors _ opts inFlags app hne hErr
  have hl3 : (mainInitLoad (specEngine mask io) inFlags app).m_sd3.empty = false := by
    rw [mainInitLoad_sd3]; exact h3
  have hlist := mainInitLoad_list (specEngine mask io) inFlags app
  have hrun : mainInitRun (specEngine mask io) opts inFlags app =
      runStages (diffThreeWay (specEngine mask io) opts (mainInitIgnoreFlags opts)
        (effLoadFiles inFlags app) inFlags.useCurrentEncoding)
        (mainInitLoad (specEngine mask io) inFlags app) := by
    unfold mainInitRun mainInitTry
    rw [hfirst]
    simp only [hL, List.isEmpty_nil, Bool.not_false, Bool.and_self, if_true, Stage.ite, hl3,
      Bool.false_eq_true, if_false]
  obtain ⟨hw, hnone⟩ := spec_diffThreeWay_weaves mask io opts (mainInitIgnoreFlags opts)
    (effLoadFiles inFlags app) inFlags.useCurrentEncoding
    (mainInitLoad (specEngine mask io) inFlags app) hlist
  rw [← hrun] at hw hnone
  have hcatch : mainInitCatch (specEngine mask io) (mainInitRun (specEngine mask io) opts
      inFlags app) = (mainInitRun (specEngine mask io) opts inFlags app).1 := by
    unfold mainInitCatch
    rw [hnone]
  have hfinal := mainInit_tail_keeps mask io opts inFlags (isFirstRun app)
    (effLoadFiles inFlags app) _ woven_white _ hw
  rw [← hcatch] at hfinal
  exact hfinal hText

/-- Witness for C1: the three-way rebuild of three three-line sources, with the BC fold-in
switched on. -/
theorem weave_covers_sources_witness :
    threeWayApp.m_sd3.empty = false ∧
    (mainInit (specEngine IgnoreFlags.none plainIO) alignBCOptions initWithoutReload
      threeWayApp).mErrors = [] ∧
    linesOf e_SrcSelector.A (mainInit (specEngine IgnoreFlags.none plainIO) alignBCOptions
      initWithoutReload threeWayApp).m_diff3LineList = List.range 3 ∧
    linesOf e_SrcSelector.B (mainInit (specEngine IgnoreFlags.none plainIO) alignBCOptions
      initWithoutReload threeWayApp).m_diff3LineList = List.range 3 ∧
    linesOf e_SrcSelector.C (mainInit (specEngine IgnoreFlags.none plainIO) alignBCOptions
      initWithoutReload threeWayApp).m_diff3LineList = List.range 3 :=
  ⟨by decide, by decide,
    weave_covers_sources IgnoreFlags.none plainIO alignBCOptions initWithoutReload threeWayApp
      (by decide) (by decide) (by decide)⟩

/-- C3: for every Diff3Line of the list that `mainInit` ends with, run on the engine of the
specification: `equalAB` implies that the A and the B index are present, `equalAC` that the
A and the C index are, `equalBC` that the B and the C index are; and, in a two-way run or
in a three-way run on three text sources that hold data (the sources the fine differ runs
on), `equalAB` together with `equalBC` implies `equalAC`. -/
theorem weave_flags_consistent (mask : IgnoreFlags) (io : Engine) (opts : Options)
    (inFlags : InitFlags) (app : KDiff3App) (r : Diff3Line)
    (hr : r ∈ (mainInit (specEngine mask io) opts inFlags app).m_diff3LineList) :
    (r.bAEqB = true → r.lineA.isSome = true ∧ r.lineB.isSome = true) ∧
    (r.bAEqC = true → r.lineA.isSome = true ∧ r.lineC.isSome = true) ∧
    (r.bBEqC = true → r.lineB.isSome = true ∧ r.lineC.isSome = true) ∧
    ((app.m_sd3.empty = false →
        AllText (mainInit (specEngine mask io) opts inFlags app).m_sd1
          (mainInit (specEngine mask io) opts inFlags app).m_sd2
          (mainInit (specEngine mask io) opts inFlags app).m_sd3 ∧
        AllData (mainInit (specEngine mask io) opts inFlags app).m_sd1
          (mainInit (specEngine mask io) opts inFlags app).m_sd2
          (mainInit (specEngine mask io) opts inFlags app).m_sd3) →
      r.bAEqB = true → r.bBEqC = true → r.bAEqC = true) := by
  have hP : FlagsPresent r :=
    spec_mainInit_weave mask io opts inFlags app (fun _ _ _ l => ∀ r ∈ l, FlagsPresent r)
      (fun _ _ _ _ hx => by cases hx)
      (fun _ => (spec_diffTwoWay_keeps mask io _ _
        (fun _ _ _ l d h => calcDiff3LineListUsingAB_flags d l h)
        (fun _ _ _ l sel l1 l2 m h => fineDiff_flags sel l1 l2 m l h)).weaken
        (fun a ha x hx => by rw [show a.m_diff3LineList = [] from ha] at hx; cases hx)
        (fun _ h => h))
      (fun _ b1 b2 => (spec_diffThreeWay_keeps mask io opts _ b1 b2 _
        (fun _ _ _ _ _ h => h)
        (fun _ _ _ l d h => calcDiff3LineListUsingAB_flags d l h)
        (fun _ _ _ l d h => calcDiff3LineListUsingAC_flags d l h)
        (flagsPresent_closed mask)).weaken
        (fun a ha x hx => by rw [show a.m_diff3LineList = [] from ha] at hx; cases hx)
        (fun _ h => h))
      (fun _ _ _ l b h => calcWhiteDiff3Lines_flags _ _ _ b l h) r hr
  refine ⟨hP.1, hP.2.1, hP.2.2, ?_⟩
  intro hFine hab hbc
  cases h3 : app.m_sd3.empty with
  | true =>
    have hT : TwoWayRow r :=
      spec_mainInit_weave mask io opts inFlags app (fun _ _ _ l => ∀ r ∈ l, TwoWayRow r)
        (fun _ _ _ _ hx => by cases hx)
        (fun _ => (spec_diffTwoWay_keeps mask io _ _
          (fun _ _ _ l d h => twoWayRow_usingAB d l h)
          (fun _ _ _ l sel l1 l2 m h => twoWayRow_fineDiff sel l1 l2 m l h)).weaken
          (fun a ha x hx => by rw [show a.m_diff3LineList = [] from ha] at hx; cases hx)
          (fun _ h => h))
        (fun hc => by rw [h3] at hc; cases hc)
        (fun _ _ _ l b h x hx => by
          simp only [calcWhiteDiff3Lines, List.mem_map] at hx
          obtain ⟨y, hy, rfl⟩ := hx
          exact h y hy) r hr
    have hc := (hP.2.2 hbc).2
    rw [hT.1] at hc
    cases hc
  | false =>
    have hE := spec_mainInit_weave mask io opts inFlags app
      (fun s1 s2 s3 l => AllText s1 s2 s3 ∧ AllData s1 s2 s3 →
        ∀ r ∈ l, FlagsExact (mainInitIgnoreFlags opts) s1 s2 s3 r)
      (fun _ _ _ _ _ hx => by cases hx)
      (fun hc => by rw [h3] at hc; cases hc)
      (fun _ b1 b2 => (spec_diffThreeWay_exact mask io opts _ b1 b2).weaken
        (fun _ _ => trivial) (fun _ h => h))
      (fun _ _ _ l b h hD x hx => by
        simp only [calcWhiteDiff3Lines, List.mem_map] at hx
        obtain ⟨y, hy, rfl⟩ := hx
        exact h hD y hy)
    exact flagsExact_trans _ _ _ _ r (hE (hFine h3) r hr) hab hbc

/-- Witness for C3: the triple `(0, 0, 0)` of the three-way rebuild of three three-line
sources that agree in their first line. -/
theorem weave_flags_consistent_witness :
    equalRow ∈ (mainInit (specEngine IgnoreFlags.none plainIO) alignBCOptions
      initWithoutReload threeWayApp).m_diff3LineList ∧
    equalRow.bAEqB = true ∧ equalRow.bBEqC = true ∧ equalRow.bAEqC = true :=
  ⟨by decide, rfl, rfl,
    (weave_flags_consistent IgnoreFlags.none plainIO alignBCOptions initWithoutReload
      threeWayApp equalRow (by decide)).2.2.2
      (fun _ => ⟨⟨by decide, by decide, by decide⟩, ⟨by decide, by decide, by decide⟩⟩)
      rfl rfl⟩

/-- C11: when word wrap is on and the progress dialog reports cancellation,
`slotFinishRecalcWordWrap` leaves `m_neededLines`, the Diff3Line list, the first visible
index, the scroll bar and `m_bRecalcWordWrapPosted` as they are; after ending the
background task, if one was started, it logs nothing but the switch of word wrap to off
(exactly when the cancel reason is a user abort) and the re-posted recalculation - no
finishing pass and no scroll bar call; word wrap is off afterwards iff the reason is a
user abort. -/
theorem slotFinishRecalcWordWrap_cancelled (w : WrapEnv) (width : Int) (opts : Options)
    (app : KDiff3App) (hOn : opts.wordWrapOn = true) (hC : w.wasCancelled = true) :
    (slotFinishRecalcWordWrap w width (opts, app)).2.m_neededLines = app.m_neededLines ∧
    (slotFinishRecalcWordWrap w width (opts, app)).2.m_diff3LineList = app.m_diff3LineList ∧
    (slotFinishRecalcWordWrap w width (opts, app)).2.m_firstD3LIdx = app.m_firstD3LIdx ∧
    (slotFinishRecalcWordWrap w width (opts, app)).2.vScrollMax = app.vScrollMax ∧
    (slotFinishRecalcWordWrap w width (opts, app)).2.vScrollValue = app.vScrollValue ∧
    (slotFinishRecalcWordWrap w width (opts, app)).2.m_bRecalcWordWrapPosted =
      app.m_bRecalcWordWrapPosted ∧
    (slotFinishRecalcWordWrap w width (opts, app)).2.m_bFinishMainInit =
      app.m_bFinishMainInit ∧
    (slotFinishRecalcWordWrap w width (opts, app)).2.log =
      app.log ++ (if app.mRunnablesStarted then [Event.endBackgroundTask] else []) ++
        (if w.cancelReasonUserAbort then [Event.setWordWrap false] else []) ++
        [Event.sigRecalcWordWrap] ∧
    (slotFinishRecalcWordWrap w width (opts, app)).1 =
      { opts with wordWrapOn := !w.cancelReasonUserAbort } := by
  unfold slotFinishRecalcWordWrap finishBackground
  simp only [hOn, hC, Bool.and_self, if_true]
  cases hA : w.cancelReasonUserAbort <;> cases hR : app.mRunnablesStarted <;>
    simp only [Bool.false_eq_true, if_false, if_true, emit, Bool.not_false, Bool.not_true,
      List.append_nil, List.append_assoc, List.singleton_append, and_self, and_true] <;>
    first
    | rfl
    | (refine ⟨trivial, trivial, trivial, trivial, trivial, trivial, trivial, trivial, ?_⟩
       rcases opts with ⟨o1, o2, o3, o4⟩
       cases hOn
       rfl)

/-- Witness for C11: a user abort while the background work of a rewrap is under way. -/
theorem slotFinishRecalcWordWrap_cancelled_witness :
    (slotFinishRecalcWordWrap abortedWrapEnv (-1)
      ({ plainOptions with wordWrapOn := true }, wrappingApp)).2.m_neededLines = 5 ∧
    (slotFinishRecalcWordWrap abortedWrapEnv (-1)
      ({ plainOptions with wordWrapOn := true }, wrappingApp)).2.log =
        [Event.endBackgroundTask, Event.setWordWrap false, Event.sigRecalcWordWrap] ∧
    (slotFinishRecalcWordWrap abortedWrapEnv (-1)
      ({ plainOptions with wordWrapOn := true }, wrappingApp)).1.wordWrapOn = false :=
  have h := slotFinishRecalcWordWrap_cancelled abortedWrapEnv (-1)
    { plainOptions with wordWrapOn := true } wrappingApp rfl rfl
  ⟨h.1, h.2.2.2.2.2.2.2.1, by rw [h.2.2.2.2.2.2.2.2]; rfl⟩

/-- C12: `setHScrollBarRange` sets the range `[0, R]`, where `R` is the maximum of 0 and
of the overhangs `w - v` of the windows that exist, are visible and have a visible width
above zero; so `R` is never negative, and `R` is 0 when no visible window's maximum text
width exceeds its visible width. -/
theorem setHScrollBarRange_range (win1 win2 win3 winM : ScrollWindow) (advance : Int)
    (h1 : win1.fits) (h2 : win2.fits) (h3 : win3.fits) (hm : winM.fits) :
    (setHScrollBarRange win1 win2 win3 winM advance).rangeMin = 0 ∧
    (setHScrollBarRange win1 win2 win3 winM advance).rangeMax =
      max (max (max (max 0 win1.overhang) win2.overhang) win3.overhang) winM.overhang ∧
    0 ≤ (setHScrollBarRange win1 win2 win3 winM advance).rangeMax ∧
    ((∀ win ∈ [win1, win2, win3, winM], win.present = true → win.isVisible = true →
        win.getMaxTextWidth ≤ win.getVisibleTextAreaWidth) →
      (setHScrollBarRange win1 win2 win3 winM advance).rangeMax = 0) := by
  have e : (setHScrollBarRange win1 win2 win3 winM advance).rangeMax =
      max (max (max (max 0 win1.overhang) win2.overhang) win3.overhang) winM.overhang := by
    show rangeMaxWith (rangeMaxWith (rangeMaxWith (rangeMaxWith 0 win1.w win1.v) win2.w win2.v)
      win3.w win3.v) winM.w winM.v = _
    rw [rangeMaxWith_spec 0 win1 h1 (le_refl 0),
      rangeMaxWith_spec _ win2 h2 (le_max_left _ _),
      rangeMaxWith_spec _ win3 h3 (le_trans (le_max_left _ _) (le_max_left _ _)),
      rangeMaxWith_spec _ winM hm
        (le_trans (le_max_left _ _) (le_trans (le_max_left _ _) (le_max_left _ _)))]
  refine ⟨rfl, e, ?_, ?_⟩
  · rw [e]
    exact le_trans (le_max_left _ _) (le_trans (le_max_left _ _)
      (le_trans (le_max_left _ _) (le_max_left _ _)))
  · intro h
    rw [e]
    have o1 := overhang_nonpos win1 (h win1 (by simp))
    have o2 := overhang_nonpos win2 (h win2 (by simp))
    have o3 := overhang_nonpos win3 (h win3 (by simp))
    have o4 := overhang_nonpos winM (h winM (by simp))
    simp only [max_def]
    split_ifs <;> omega

/-- Witness for C12: a window with an overhang of 120, one without overhang, a hidden and
a missing one. -/
theorem setHScrollBarRange_range_witness :
    (setHScrollBarRange wideWindow narrowWindow hiddenWindow missingWindow 7).rangeMin = 0 ∧
    (setHScrollBarRange wideWindow narrowWindow hiddenWindow missingWindow 7).rangeMax = 120 :=
  have h := setHScrollBarRange_range wideWindow narrowWindow hiddenWindow missingWindow 7
    (by decide) (by decide) (by decide) (by decide)
  ⟨h.1, h.2.1.trans (by decide)⟩

/-- C19: for visible widths `v1`, `v2`, `v3`, `vm` that are not negative (0 for a window
that is missing or not visible), the page step `setHScrollBarRange` sets is 0 when all
four are 0, and otherwise the least of those that are above zero. -/
theorem setHScrollBarRange_pageStep (win1 win2 win3 winM : ScrollWindow) (advance : Int)
    (h1 : 0 ≤ win1.v) (h2 : 0 ≤ win2.v) (h3 : 0 ≤ win3.v) (hm : 0 ≤ winM.v) :
    ((win1.v = 0 ∧ win2.v = 0 ∧ win3.v = 0 ∧ winM.v = 0) →
      (setHScrollBarRange win1 win2 win3 winM advance).pageStep = 0) ∧
    (¬ (win1.v = 0 ∧ win2.v = 0 ∧ win3.v = 0 ∧ winM.v = 0) →
      0 < (setHScrollBarRange win1 win2 win3 winM advance).pageStep ∧
      ((setHScrollBarRange win1 win2 win3 winM advance).pageStep = win1.v ∨
        (setHScrollBarRange win1 win2 win3 winM advance).pageStep = win2.v ∨
        (setHScrollBarRange win1 win2 win3 winM advance).pageStep = win3.v ∨
        (setHScrollBarRange win1 win2 win3 winM advance).pageStep = winM.v) ∧
      ∀ win ∈ [win1, win2, win3, winM], 0 < win.v →
        (setHScrollBarRange win1 win2 win3 winM advance).pageStep ≤ win.v) := by
  have e : (setHScrollBarRange win1 win2 win3 winM advance).pageStep =
      pageStepWith (pageStepWith (pageStepWith win1.v win2.v) win3.v) winM.v := rfl
  rw [e]
  simp only [List.mem_cons, List.mem_singleton, List.not_mem_nil, or_false, forall_eq_or_imp,
    forall_eq]
  generalize win1.v = a at *
  generalize win2.v = b at *
  generalize win3.v = c at *
  generalize winM.v = d at *
  unfold pageStepWith
  split_ifs <;> omega

/-- Witness for C19: visible widths 80, 60, 0 (hidden) and 0 (missing) give the page step
60. -/
theorem setHScrollBarRange_pageStep_witness :
    (setHScrollBarRange wideWindow narrowWindow hiddenWindow missingWindow 7).pageStep = 60 ∧
    (setHScrollBarRange wideWindow narrowWindow hiddenWindow missingWindow 7).pageStep ≤
      wideWindow.v :=
  have h := setHScrollBarRange_pageStep wideWindow narrowWindow hiddenWindow missingWindow 7
    (by decide) (by decide) (by decide) (by decide)
  ⟨by decide, (h.2 (by decide)).2.2 wideWindow (by simp) (by decide)⟩

/-- C14: for every non-empty encoding name `e` and whatever `setGenerateByteOrderMark` was
called with before, `setEncoding(e)` never fails its final assertion; it fails the
assertion on the codecs exactly when Qt has no codec for the stored name, and otherwise it
returns with `hasBOM()` true if and only if `e` is "UTF-8-BOM" or starts with "UTF-16" or
with "UTF-32". -/
theorem setEncoding_hasBOM (codecKnown : String → Bool) (e : String) (generate : Bool)
    (s : EncodedDataStream) (he : e ≠ "") :
    (s.setGenerateByteOrderMark generate).setEncoding codecKnown e ≠
      Except.error EncodingAssert.bomEncoding ∧
    (codecKnown (storedEncoding e) = false →
      (s.setGenerateByteOrderMark generate).setEncoding codecKnown e =
        Except.error EncodingAssert.codecsValid) ∧
    (codecKnown (storedEncoding e) = true →
      ∃ s1, (s.setGenerateByteOrderMark generate).setEncoding codecKnown e = Except.ok s1 ∧
        (s1.hasBOM = true ↔
          (e = "UTF-8-BOM" ∨ startsWith e "UTF-16" = true ∨ startsWith e "UTF-32" = true))) := by
  unfold EncodedDataStream.setEncoding EncodedDataStream.setGenerateByteOrderMark
    storedEncoding EncodedDataStream.hasBOM
  simp only [if_neg he]
  by_cases h8 : e = "UTF-8-BOM"
  · simp only [h8, if_true]
    cases hk : codecKnown "UTF-8" <;> simp
  · simp only [h8, if_false]
    cases hk : codecKnown e <;> cases h16 : startsWith e "UTF-16" <;>
      cases h32 : startsWith e "UTF-32" <;> simp [h8]

/-- Witness for C14: "UTF-16" after the byte order mark was switched off. -/
theorem setEncoding_hasBOM_witness :
    "UTF-16" ≠ "" ∧
    (freshStream.setGenerateByteOrderMark false).setEncoding fewCodecs "UTF-16" ≠
      Except.error EncodingAssert.bomEncoding ∧
    (freshStream.setGenerateByteOrderMark false).setEncoding fewCodecs "UTF-16" =
      Except.ok ⟨true, true, "UTF-16", true, false⟩ :=
  ⟨by decide, (setEncoding_hasBOM fewCodecs "UTF-16" false freshStream (by decide)).1, rfl⟩

/-- C15: for every string and every `newLength` below its length, `resize(newLength)`
leaves exactly the first `newLength` characters, so that `length()` is `newLength`; with
`newLength` equal to the length the string is unchanged. -/
theorem resize_truncates (s : STRING) (newLength : Nat) :
    (newLength < s.length →
      (s.resize newLength).c_str = s.c_str.take newLength ∧
      (s.resize newLength).length = newLength) ∧
    (newLength = s.length → s.resize newLength = s) := by
  constructor
  · intro h
    have e : (s.resize newLength).c_str = s.c_str.take newLength := by
      unfold STRING.resize STRING.c_str
      simp only [if_pos h]
      exact cString_set s._str newLength h
    refine ⟨e, ?_⟩
    show ((s.resize newLength).c_str).length = newLength
    rw [e, List.length_take]
    exact Nat.min_eq_left (Nat.le_of_lt h)
  · intro h
    unfold STRING.resize
    simp only [h, Nat.lt_irrefl, gt_iff_lt, if_false]

/-- Witness for C15: "kdiff3" cut to its first three characters. -/
theorem resize_truncates_witness :
    3 < sampleString.length ∧ (sampleString.resize 3).c_str = [107, 100, 105] ∧
    (sampleString.resize 3).length = 3 :=
  ⟨by decide, ((resize_truncates sampleString 3).1 (by decide)).1.trans (by decide),
    ((resize_truncates sampleString 3).1 (by decide)).2⟩

/-- C20: with `f1`, `f2`, `f3` the alias names of A, B, C stripped of their directory part,
if at least one of them is non-empty and every non-empty one is the name `n`, the window
title is `n` followed by " - KDiff3"; if all three are empty the title is "KDiff3". -/
theorem createCaption_equal_names (app : KDiff3App) (n : String) :
    ((stripDirectory app.m_sd1.aliasName ≠ "" ∨ stripDirectory app.m_sd2.aliasName ≠ "" ∨
        stripDirectory app.m_sd3.aliasName ≠ "") →
      (stripDirectory app.m_sd1.aliasName = "" ∨ stripDirectory app.m_sd1.aliasName = n) →
      (stripDirectory app.m_sd2.aliasName = "" ∨ stripDirectory app.m_sd2.aliasName = n) →
      (stripDirectory app.m_sd3.aliasName = "" ∨ stripDirectory app.m_sd3.aliasName = n) →
      createCaption app = n ++ " - KDiff3") ∧
    (stripDirectory app.m_sd1.aliasName = "" → stripDirectory app.m_sd2.aliasName = "" →
      stripDirectory app.m_sd3.aliasName = "" → createCaption app = "KDiff3") := by
  unfold createCaption captionOfEqualNames
  generalize stripDirectory app.m_sd1.aliasName = f1
  generalize stripDirectory app.m_sd2.aliasName = f2
  generalize stripDirectory app.m_sd3.aliasName = f3
  constructor
  · intro hne h1 h2 h3
    by_cases hn : n = ""
    · subst hn
      simp only [or_self] at h1 h2 h3
      subst h1 h2 h3
      simp at hne
    · rcases h1 with rfl | rfl <;> rcases h2 with rfl | rfl <;> rcases h3 with rfl | rfl <;>
        simp [hn, Ne.symm hn] at hne ⊢
  · intro h1 h2 h3
    subst h1 h2 h3
    simp

/-- Witness for C20: `/x/a.txt` and `/y/a.txt` give the title "a.txt - KDiff3". -/
theorem createCaption_equal_names_witness :
    createCaption sameNameApp = "a.txt" ++ " - KDiff3" :=
  (createCaption_equal_names sameNameApp "a.txt").1 (by decide) (by decide) (by decide)
    (by decide)

/-- C18, at the failing input: a run on three three-line text sources that is not a first
run, meets no error and raises no exception.  Without loading, `setMaxNofSteps(6)` is
declared and `step()` is called 8 times; with loading, 9 is declared and 11 steps are
made.  (The second round of fine diffs, lines 288-301, makes three steps, the first round
two.)  In two-way mode the numbers agree: 2 and 2, 4 and 4. -/
theorem mainInit_three_way_steps :
    isFirstRun threeWayApp = false ∧
    (mainInit plainIO plainOptions initWithoutReload threeWayApp).mErrors = [] ∧
    (mainInitRun plainIO plainOptions initWithoutReload threeWayApp).2 = none ∧
    declaredSteps (mainInit plainIO plainOptions initWithoutReload threeWayApp).log = [6] ∧
    stepCount (mainInit plainIO plainOptions initWithoutReload threeWayApp).log = 8 ∧
    (mainInit plainIO plainOptions initWithReload threeWayApp).mErrors = [] ∧
    (mainInitRun plainIO plainOptions initWithReload threeWayApp).2 = none ∧
    declaredSteps (mainInit plainIO plainOptions initWithReload threeWayApp).log = [9] ∧
    stepCount (mainInit plainIO plainOptions initWithReload threeWayApp).log = 11 ∧
    declaredSteps (mainInit plainIO plainOptions initWithoutReload twoWayApp).log = [2] ∧
    stepCount (mainInit plainIO plainOptions initWithoutReload twoWayApp).log = 2 ∧
    declaredSteps (mainInit plainIO plainOptions initWithReload twoWayApp).log = [4] ∧
    stepCount (mainInit plainIO plainOptions initWithReload twoWayApp).log = 4 := by
  decide

/-- C16: the ignore-mask of a `mainInit` run is computed from the options alone - it
contains `ignoreComments` iff the option `ignoreComments` is on, `ignoreWhiteSpace` iff the
option `whiteSpaceIsEqual` is on, and no other relaxation - and every fine-diff call that
the run logs, in two-way and in three-way mode, carries this mask. -/
theorem mainInit_single_mask (eng : Engine) (opts : Options) (inFlags : InitFlags)
    (app : KDiff3App) :
    (mainInitIgnoreFlags opts).ignoreComments = opts.ignoreComments ∧
    (mainInitIgnoreFlags opts).ignoreWhiteSpace = opts.whiteSpaceIsEqual ∧
    (mainInitIgnoreFlags opts).ignoreCase = false ∧
    ∃ evs, (mainInit eng opts inFlags app).log = app.log ++ evs ∧
      ∀ e ∈ evs, ∀ sel m, e = Event.fineDiff sel m → m = mainInitIgnoreFlags opts := by
  refine ⟨?_, ?_, ?_, ?_⟩
  · unfold mainInitIgnoreFlags
    cases opts.ignoreComments <;> cases opts.whiteSpaceIsEqual <;> rfl
  · unfold mainInitIgnoreFlags
    cases opts.ignoreComments <;> cases opts.whiteSpaceIsEqual <;> rfl
  · unfold mainInitIgnoreFlags
    cases opts.ignoreComments <;> cases opts.whiteSpaceIsEqual <;> rfl
  · have l1 := mainInitLoad_emits (P := Event.FineWith (mainInitIgnoreFlags opts))
      (fromLoad_fineWith _) eng inFlags app
    have l2 := mainInitTry_emits_mask (P := Event.FineWith (mainInitIgnoreFlags opts)) eng opts
      inFlags (isFirstRun app) (effLoadFiles inFlags app) (fun e h => h.2)
      (mainInitLoad eng inFlags app)
    have l3 := mainInitCatch_emits (P := Event.FineWith (mainInitIgnoreFlags opts))
      (fromCatch_fineWith _) eng (mainInitRun eng opts inFlags app)
    have l4 := mainInitWhite_emits (P := Event.FineWith (mainInitIgnoreFlags opts))
      (isWhiteStage_fineWith _) eng opts (isFirstRun app)
      (mainInitCatch eng (mainInitRun eng opts inFlags app))
    have l5 : LogGrows (Event.FineWith (mainInitIgnoreFlags opts))
        (mainInitDiffed eng opts inFlags app)
        (mainInitNeededLines eng (mainInitDiffed eng opts inFlags app)) :=
      LogGrows.of_log_eq (mainInitNeededLines_log eng _)
    have l6 := mainInitFinish_emits (P := Event.FineWith (mainInitIgnoreFlags opts))
      (fromFinish_fineWith _) inFlags (effLoadFiles inFlags app)
      (mainInitNeededLines eng (mainInitDiffed eng opts inFlags app))
    exact (l1.trans (l2.trans (l3.trans (l4.trans l5)))).trans l6

/-- Witness for C16: the three-way rebuild of three text sources logs six fine-diff calls,
all with the mask of the options. -/
theorem mainInit_single_mask_witness :
    ((mainInit demoEngine alignBCOptions initWithoutReload threeWayApp).log.filter
      Event.isFineCall).length = 6 ∧
    ∃ evs, (mainInit demoEngine alignBCOptions initWithoutReload threeWayApp).log =
        threeWayApp.log ++ evs ∧
      ∀ e ∈ evs, ∀ sel m, e = Event.fineDiff sel m → m = mainInitIgnoreFlags alignBCOptions :=
  ⟨by decide,
    (mainInit_single_mask demoEngine alignBCOptions initWithoutReload threeWayApp).2.2.2⟩

/-- C17: `slotAddManualDiffHelp` inserts a hint exactly when the selection it found has a
valid first line, a valid last line and first line <= last line.  Then it calls
`insertEntry` once, with the window and the two lines, and rebuilds with `mainInit` without
the `loadFiles` flag: the log of the slot holds no other `insertEntry` call and no "nothing
selected" message, and the list with the new entry is still there afterwards unless the
rebuild runs out of memory.  Otherwise it only shows the message: the list is unchanged and
`mainInit` is not called. -/
theorem slotAddManualDiffHelp_inserts (eng : Engine) (opts : Options)
    (sel1 sel2 sel3 : SelectionRange) (app : KDiff3App) :
    (∀ a b, (findSelection app sel1 sel2 sel3).2 = (some a, some b) → a ≤ b →
      slotAddManualDiffHelp eng opts sel1 sel2 sel3 app =
        mainInit eng opts initWithoutReload
          { emit (Event.insertEntry (findSelection app sel1 sel2 sel3).1 a b) app with
            m_manualDiffHelpList := eng.insertEntry (findSelection app sel1 sel2 sel3).1 a b
              app.m_manualDiffHelpList } ∧
      (∃ evs, (slotAddManualDiffHelp eng opts sel1 sel2 sel3 app).log =
          app.log ++ Event.insertEntry (findSelection app sel1 sel2 sel3).1 a b :: evs ∧
        ∀ e ∈ evs, e.isInsertEntry = false ∧ e ≠ Event.nothingSelectedMessage) ∧
      ((mainInitRun eng opts initWithoutReload
          { emit (Event.insertEntry (findSelection app sel1 sel2 sel3).1 a b) app with
            m_manualDiffHelpList := eng.insertEntry (findSelection app sel1 sel2 sel3).1 a b
              app.m_manualDiffHelpList }).2 ≠ some Exn.badAlloc →
        (slotAddManualDiffHelp eng opts sel1 sel2 sel3 app).m_manualDiffHelpList =
          eng.insertEntry (findSelection app sel1 sel2 sel3).1 a b app.m_manualDiffHelpList)) ∧
    ((∀ a b, (findSelection app sel1 sel2 sel3).2 = (some a, some b) → b < a) →
      slotAddManualDiffHelp eng opts sel1 sel2 sel3 app =
        emit Event.nothingSelectedMessage app ∧
      (slotAddManualDiffHelp eng opts sel1 sel2 sel3 app).m_manualDiffHelpList =
        app.m_manualDiffHelpList ∧
      (slotAddManualDiffHelp eng opts sel1 sel2 sel3 app).log =
        app.log ++ [Event.nothingSelectedMessage]) ∧
    initWithoutReload.loadFiles = false := by
  refine ⟨?_, ?_, rfl⟩
  · intro a b hsel hle
    have hslot : slotAddManualDiffHelp eng opts sel1 sel2 sel3 app =
        mainInit eng opts initWithoutReload
          { emit (Event.insertEntry (findSelection app sel1 sel2 sel3).1 a b) app with
            m_manualDiffHelpList := eng.insertEntry (findSelection app sel1 sel2 sel3).1 a b
              app.m_manualDiffHelpList } := by
      unfold slotAddManualDiffHelp
      rcases hf : findSelection app sel1 sel2 sel3 with ⟨win, x, y⟩
      rw [hf] at hsel
      simp only [Prod.mk.injEq] at hsel
      obtain ⟨rfl, rfl⟩ := hsel
      simp only [if_neg (Nat.not_lt.2 hle)]
    refine ⟨hslot, ?_, ?_⟩
    · rw [hslot]
      obtain ⟨evs, h1, h2⟩ := mainInit_emits (P := fun e => e.isInsertEntry = false ∧
        e ≠ Event.nothingSelectedMessage) mainInit_no_hint_events eng opts initWithoutReload
          { emit (Event.insertEntry (findSelection app sel1 sel2 sel3).1 a b) app with
            m_manualDiffHelpList := eng.insertEntry (findSelection app sel1 sel2 sel3).1 a b
              app.m_manualDiffHelpList }
      refine ⟨evs, ?_, h2⟩
      rw [h1]
      show (app.log ++ [_]) ++ evs = _
      rw [List.append_assoc, List.singleton_append]
    · intro hx
      rw [hslot]
      exact mainInit_keeps_hints eng opts initWithoutReload _ rfl hx
  · intro hbad
    have hslot : slotAddManualDiffHelp eng opts sel1 sel2 sel3 app =
        emit Event.nothingSelectedMessage app := by
      unfold slotAddManualDiffHelp
      rcases hf : findSelection app sel1 sel2 sel3 with ⟨win, x, y⟩
      rw [hf] at hbad
      cases x with
      | none => rfl
      | some a =>
        cases y with
        | none => rfl
        | some b =>
          simp only [if_pos (hbad a b rfl)]
    rw [hslot]
    exact ⟨rfl, rfl, rfl⟩

/-- Witness for C17: with line 0 selected in window A the hint `(A, 0, 0)` is in the list
after the slot; with a selection that ends before it starts the list stays empty. -/
theorem slotAddManualDiffHelp_inserts_witness :
    (slotAddManualDiffHelp plainIO plainOptions firstLineSelected nothingSelected
      nothingSelected twoWayApp).m_manualDiffHelpList = [⟨e_SrcSelector.A, 0, 0⟩] ∧
    (slotAddManualDiffHelp plainIO plainOptions (some 2, some 1) nothingSelected
      nothingSelected twoWayApp).m_manualDiffHelpList = [] :=
  ⟨((slotAddManualDiffHelp_inserts plainIO plainOptions firstLineSelected nothingSelected
      nothingSelected twoWayApp).1 0 0 rfl (Nat.le_refl 0)).2.2 (by decide),
    ((slotAddManualDiffHelp_inserts plainIO plainOptions (some 2, some 1) nothingSelected
      nothingSelected twoWayApp).2.1 (fun a b h => by cases h; decide)).2.1⟩

/-- C13: in a three-way run of `mainInit` that ends without error with A, B and C all
text, the calls of the pairwise differ and of the weave passes are, in this order: the AB
diff, `calcDiff3LineListUsingAB`, the AC diff, `calcDiff3LineListUsingAC`,
`correctManualDiffAlignment`, `calcDiff3LineListTrim`, the BC diff, and then, if and only
if `m_bDiff3AlignBC` is set, `calcDiff3LineListUsingBC`, `correctManualDiffAlignment` and
`calcDiff3LineListTrim`.  The BC diff is computed in either case; without the option no
weave pass follows it. -/
theorem mainInit_weave_order (eng : Engine) (opts : Options) (inFlags : InitFlags)
    (app : KDiff3App) (h3 : app.m_sd3.empty = false)
    (hErr : (mainInit eng opts inFlags app).mErrors = [])
    (hText : AllText (mainInit eng opts inFlags app).m_sd1
      (mainInit eng opts inFlags app).m_sd2 (mainInit eng opts inFlags app).m_sd3) :
    ∃ evs, (mainInit eng opts inFlags app).log = app.log ++ evs ∧
      evs.filter Event.isWeaveStage =
        [Event.runDiff e_SrcSelector.A e_SrcSelector.B, Event.calcDiff3LineListUsingAB,
          Event.runDiff e_SrcSelector.A e_SrcSelector.C, Event.calcDiff3LineListUsingAC,
          Event.correctManualDiffAlignment, Event.calcDiff3LineListTrim,
          Event.runDiff e_SrcSelector.B e_SrcSelector.C] ++
        (if opts.bDiff3AlignBC then
          [Event.calcDiff3LineListUsingBC, Event.correctManualDiffAlignment,
            Event.calcDiff3LineListTrim]
        else []) := by
  have hfirst : isFirstRun app = false := by
    simp [isFirstRun, h3]
  have hL : (mainInitLoad eng inFlags app).mErrors = [] := by
    by_contra hne
    exact mainInit_load_errors _ opts inFlags app hne hErr
  have hl3 : (mainInitLoad eng inFlags app).m_sd3.empty = false := by
    rw [mainInitLoad_sd3]; exact h3
  have hrun : mainInitRun eng opts inFlags app =
      runStages (diffThreeWay eng opts (mainInitIgnoreFlags opts)
        (effLoadFiles inFlags app) inFlags.useCurrentEncoding)
        (mainInitLoad eng inFlags app) := by
    unfold mainInitRun mainInitTry
    rw [hfirst]
    simp only [hL, List.isEmpty_nil, Bool.not_false, Bool.and_self, if_true, Stage.ite, hl3,
      Bool.false_eq_true, if_false]
  have hnone : (mainInitRun eng opts inFlags app).2 = none := by
    cases hx : (mainInitRun eng opts inFlags app).2 with
    | none => rfl
    | some x => exact absurd hErr (mainInit_exception_errors eng opts inFlags app x hx)
  obtain ⟨t1, t2, t3, tlog⟩ := mainInit_tail_quiet eng opts inFlags app hnone
  rw [t1, t2, t3] at hText
  have hload : ∃ evs, (mainInitLoad eng inFlags app).log = app.log ++ evs ∧
      evs.filter Event.isWeaveStage = [] :=
    logGrows_quiet (t := []) ⟨[], (List.append_nil _).symm, rfl⟩
      (mainInitLoad_emits (P := fun e => e.isWeaveStage = false)
        (fun e h => by cases e <;> first | rfl | exact Bool.noConfusion h) eng inFlags app)
  obtain ⟨evs0, e0, q0⟩ := hload
  rw [hrun] at hnone hText tlog
  obtain ⟨evs1, e1, q1⟩ := diffThreeWay_trace eng opts (mainInitIgnoreFlags opts)
    (effLoadFiles inFlags app) inFlags.useCurrentEncoding (mainInitLoad eng inFlags app).log
    (mainInitLoad eng inFlags app) rfl hnone hText
  obtain ⟨evs2, e2, q2⟩ := logGrows_quiet (p := Event.isWeaveStage) (t := [])
    ⟨[], (List.append_nil _).symm, rfl⟩ tlog
  refine ⟨evs0 ++ (evs1 ++ evs2), ?_, ?_⟩
  · rw [e2, e1, e0]
    simp only [List.append_assoc, List.nil_append]
  · rw [List.filter_append, List.filter_append, q0, q1, q2, List.nil_append, List.append_nil]
    rfl

/-- Witness for C13: the three-way rebuild of three text sources with `m_bDiff3AlignBC`
set. -/
theorem mainInit_weave_order_witness :
    (mainInit demoEngine alignBCOptions initWithoutReload threeWayApp).log.filter
        Event.isWeaveStage =
      [Event.runDiff e_SrcSelector.A e_SrcSelector.B, Event.calcDiff3LineListUsingAB,
        Event.runDiff e_SrcSelector.A e_SrcSelector.C, Event.calcDiff3LineListUsingAC,
        Event.correctManualDiffAlignment, Event.calcDiff3LineListTrim,
        Event.runDiff e_SrcSelector.B e_SrcSelector.C, Event.calcDiff3LineListUsingBC,
        Event.correctManualDiffAlignment, Event.calcDiff3LineListTrim] ∧
    ∃ evs, (mainInit demoEngine alignBCOptions initWithoutReload threeWayApp).log =
        threeWayApp.log ++ evs ∧
      evs.filter Event.isWeaveStage =
        [Event.runDiff e_SrcSelector.A e_SrcSelector.B, Event.calcDiff3LineListUsingAB,
          Event.runDiff e_SrcSelector.A e_SrcSelector.C, Event.calcDiff3LineListUsingAC,
          Event.correctManualDiffAlignment, Event.calcDiff3LineListTrim,
          Event.runDiff e_SrcSelector.B e_SrcSelector.C] ++
        (if alignBCOptions.bDiff3AlignBC then
          [Event.calcDiff3LineListUsingBC, Event.correctManualDiffAlignment,
            Event.calcDiff3LineListTrim]
        else []) :=
  ⟨by decide, mainInit_weave_order demoEngine alignBCOptions initWithoutReload threeWayApp
    (by decide) (by decide) ⟨by decide, by decide, by decide⟩⟩

/-- C23, at the failing input: on an entry with no operation running, `isSimOpRunning()`
is still false after `startSimOp()`; after `startOperation()` it is true, also once
`endSimOp()` has been called, and `endOperation()` makes it false again.  For every object
state `isSimOpRunning()` is `isOperationRunning()`: it reads `m_bOperationComplete`, and
`m_bSimOpComplete` is never read.  The half of the claim about `isOperationRunning()`
holds for every state. -/
theorem isSimOpRunning_reads_operation_flag :
    idleInfo.startSimOp.isSimOpRunning = false ∧
    idleInfo.startOperation.isSimOpRunning = true ∧
    idleInfo.startOperation.endSimOp.isSimOpRunning = true ∧
    idleInfo.startSimOp.startOperation.endOperation.isSimOpRunning = false ∧
    (∀ m : MergeFileInfos, m.isSimOpRunning = m.isOperationRunning) ∧
    (∀ m : MergeFileInfos, m.startOperation.isOperationRunning = true ∧
      m.endOperation.isOperationRunning = false ∧
      m.startSimOp.isOperationRunning = m.isOperationRunning ∧
      m.endSimOp.isOperationRunning = m.isOperationRunning) :=
  ⟨rfl, rfl, rfl, rfl, fun _ => rfl, fun _ => ⟨rfl, rfl, rfl, rfl⟩⟩

/-- C24: when the case-insensitive name comparison is that of a total preorder, `MfiCompare`
is a strict weak ordering for either sort order - irreflexive, asymmetric, transitive, and
with transitive incomparability; in both orders an entry that is a directory in A, B or C
comes before an entry that is a directory in none of them, whatever the names; and between
entries of the same kind the names decide, below for the ascending and above for the
descending order. -/
theorem mfiCompare_strict_weak (fileName : MergeFileInfos → String)
    (compare : String → String → Int) (hc : TotalPreorderCompare compare) (c : MfiCompare) :
    (∀ x, c.call fileName compare x x = false) ∧
    (∀ x y, c.call fileName compare x y = true → c.call fileName compare y x = false) ∧
    (∀ x y z, c.call fileName compare x y = true → c.call fileName compare y z = true →
      c.call fileName compare x z = true) ∧
    (∀ x y z, c.call fileName compare x y = false → c.call fileName compare y x = false →
      c.call fileName compare y z = false → c.call fileName compare z y = false →
      c.call fileName compare x z = false ∧ c.call fileName compare z x = false) ∧
    (∀ x y, x.hasDir = true → y.hasDir = false →
      c.call fileName compare x y = true ∧ c.call fileName compare y x = false) ∧
    (∀ x y, x.hasDir = y.hasDir →
      c.call fileName compare x y =
        if c.mOrder = SortOrder.AscendingOrder then
          decide (compare (fileName x) (fileName y) < 0)
        else decide (compare (fileName x) (fileName y) > 0)) := by
  have key : ∀ x y, c.call fileName compare x y =
      if x.hasDir = y.hasDir then
        (if c.mOrder = SortOrder.AscendingOrder then
          decide (compare (fileName x) (fileName y) < 0)
        else decide (compare (fileName x) (fileName y) > 0))
      else x.hasDir := fun _ _ => rfl
  obtain ⟨o⟩ := c
  refine ⟨?_, ?_, ?_, ?_, ?_, ?_⟩
  · intro x
    have h1 := hc.opposite (fileName x) (fileName x)
    rw [key]
    cases o <;> simp <;> omega
  · intro x y
    have h1 := hc.opposite (fileName x) (fileName y)
    have h2 := hc.opposite (fileName y) (fileName x)
    rw [key, key]
    cases o <;> cases x.hasDir <;> cases y.hasDir <;> simp <;> omega
  · intro x y z
    have a1 := hc.opposite (fileName x) (fileName y)
    have a2 := hc.opposite (fileName y) (fileName x)
    have a3 := hc.opposite (fileName y) (fileName z)
    have a4 := hc.opposite (fileName z) (fileName y)
    have a5 := hc.opposite (fileName x) (fileName z)
    have a6 := hc.opposite (fileName z) (fileName x)
    have t1 := hc.transitive (fileName z) (fileName x) (fileName y)
    have t2 := hc.transitive (fileName y) (fileName z) (fileName x)
    have t3 := hc.transitive (fileName x) (fileName y) (fileName z)
    have t4 := hc.transitive (fileName z) (fileName y) (fileName x)
    have t5 := hc.transitive (fileName x) (fileName z) (fileName y)
    have t6 := hc.transitive (fileName y) (fileName x) (fileName z)
    rw [key, key, key]
    cases o <;> cases x.hasDir <;> cases y.hasDir <;> cases z.hasDir <;> simp <;> omega
  · intro x y z
    have a1 := hc.opposite (fileName x) (fileName y)
    have a2 := hc.opposite (fileName y) (fileName x)
    have a3 := hc.opposite (fileName y) (fileName z)
    have a4 := hc.opposite (fileName z) (fileName y)
    have a5 := hc.opposite (fileName x) (fileName z)
    have a6 := hc.opposite (fileName z) (fileName x)
    have t3 := hc.transitive (fileName x) (fileName y) (fileName z)
    have t4 := hc.transitive (fileName z) (fileName y) (fileName x)
    rw [key, key, key, key, key, key]
    cases o <;> cases x.hasDir <;> cases y.hasDir <;> cases z.hasDir <;> simp <;> omega
  · intro x y hx hy
    rw [key, key, hx, hy]
    exact ⟨rfl, rfl⟩
  · intro x y h
    rw [key, if_pos h]

/-- Witness for C24: with the case-insensitive comparison of the folded names, a directory
`doc` comes before the file `main.cpp` in the descending order too, and not the other way
round. -/
theorem mfiCompare_strict_weak_witness :
    MfiCompare.call flagName caseInsensitiveCompare ⟨SortOrder.DescendingOrder⟩
      dirInfo idleInfo = true ∧
    MfiCompare.call flagName caseInsensitiveCompare ⟨SortOrder.DescendingOrder⟩
      idleInfo dirInfo = false :=
  (mfiCompare_strict_weak flagName caseInsensitiveCompare caseInsensitiveCompare_total
    ⟨SortOrder.DescendingOrder⟩).2.2.2.2.1 dirInfo idleInfo (by decide) (by decide)

/-- C22: if all three sources are empty and hold no data when `mainInit` is called, then
whatever the flags (also with `loadFiles`) the run logs exactly `setMaxNofSteps(2)`, the
status reset, `ProgressProxy::clear()` and the calls of the closing part (the merge result
window, and with `initGUI` the caption and the posted word-wrap recalculation): no source is
read, and no pairwise differ, weave pass or fine differ is called.  The manual-hint list and
the three sources are as before, the Diff3Line list and the vector are empty, the error list
is empty and `m_neededLines` is 0. -/
theorem mainInit_first_run (eng : Engine) (opts : Options) (inFlags : InitFlags)
    (app : KDiff3App) (h : isFirstRun app = true) :
    (mainInit eng opts inFlags app).log =
      app.log ++ [Event.setMaxNofSteps 2, Event.statusReset, Event.progressClear,
        Event.mergeResultInit inFlags.autoSolve] ++
      (if inFlags.initGUI = true then
        Event.createCaption ::
          (if app.m_bRecalcWordWrapPosted = true then [] else [Event.sigRecalcWordWrap])
       else []) ∧
    (∀ e ∈ (mainInit eng opts inFlags app).log.drop app.log.length,
      e.isReadCall = false ∧ e.isWeaveStage = false ∧ e.isFineStage = false) ∧
    (mainInit eng opts inFlags app).m_manualDiffHelpList = app.m_manualDiffHelpList ∧
    (mainInit eng opts inFlags app).m_diff3LineList = [] ∧
    (mainInit eng opts inFlags app).mDiff3LineVector = [] ∧
    (mainInit eng opts inFlags app).m_neededLines = 0 ∧
    (mainInit eng opts inFlags app).mErrors = [] ∧
    (mainInit eng opts inFlags app).m_sd1 = app.m_sd1 ∧
    (mainInit eng opts inFlags app).m_sd2 = app.m_sd2 ∧
    (mainInit eng opts inFlags app).m_sd3 = app.m_sd3 := by
  have h3 : app.m_sd3.empty = true := by
    unfold isFirstRun at h
    simp only [Bool.and_eq_true] at h
    exact h.2.1
  have hlog : (mainInit eng opts inFlags app).log =
      app.log ++ [Event.setMaxNofSteps 2, Event.statusReset, Event.progressClear,
        Event.mergeResultInit inFlags.autoSolve] ++
      (if inFlags.initGUI = true then
        Event.createCaption ::
          (if app.m_bRecalcWordWrapPosted = true then [] else [Event.sigRecalcWordWrap])
       else []) := by
    by_cases g1 : inFlags.initGUI = true <;>
      by_cases g2 : app.m_bRecalcWordWrapPosted = true <;>
      simp [mainInit, mainInitDiffed, mainInitRun, mainInitTry, mainInitCatch, mainInitWhite,
        mainInitNeededLines, safeLineType, mainInitFinish, postRecalcWordWrap,
        mainInitLoad_first_run, h, h3, emit, g1, g2]
  refine ⟨hlog, ?_, ?_⟩
  · rw [hlog, List.append_assoc, List.drop_left]
    by_cases g1 : inFlags.initGUI = true <;>
      by_cases g2 : app.m_bRecalcWordWrapPosted = true <;>
      simp [g1, g2, Event.isReadCall, Event.isWeaveStage, Event.isFineStage]
  · by_cases g1 : inFlags.initGUI = true <;>
      by_cases g2 : app.m_bRecalcWordWrapPosted = true <;>
      simp [mainInit, mainInitDiffed, mainInitRun, mainInitTry, mainInitCatch, mainInitWhite,
        mainInitNeededLines, safeLineType, mainInitFinish, postRecalcWordWrap,
        mainInitLoad_first_run, h, emit, g1, g2]

/-- Witness for C22: a reload asked for in front of the first load keeps the one manual hint
and leaves no row. -/
theorem mainInit_first_run_witness :
    isFirstRun firstRunApp = true ∧ initWithReload.loadFiles = true ∧
    (mainInit plainIO plainOptions initWithReload firstRunApp).log =
      [Event.setMaxNofSteps 2, Event.statusReset, Event.progressClear,
        Event.mergeResultInit true] ∧
    (mainInit plainIO plainOptions initWithReload firstRunApp).m_manualDiffHelpList =
      [⟨e_SrcSelector.A, 0, 0⟩] ∧
    (mainInit plainIO plainOptions initWithReload firstRunApp).m_diff3LineList = [] ∧
    (mainInit plainIO plainOptions initWithReload firstRunApp).mDiff3LineVector = [] ∧
    (mainInit plainIO plainOptions initWithReload firstRunApp).m_neededLines = 0 :=
  have w := mainInit_first_run plainIO plainOptions initWithReload firstRunApp (by decide)
  ⟨by decide, rfl, w.1, w.2.2.1, w.2.2.2.1, w.2.2.2.2.1, w.2.2.2.2.2.1⟩

/-- C21: with `f1`, `f2`, `f3` the alias names of A, B, C stripped of their directory part,
if no single name `n` is such that each of them is empty or `n` (two non-empty ones
differ), the window title is the non-empty ones, in the order A, B, C, joined by " <-> ",
followed by " - KDiff3". -/
theorem createCaption_different_names (app : KDiff3App)
    (h : ¬ ∃ n : String,
      (stripDirectory app.m_sd1.aliasName = "" ∨ stripDirectory app.m_sd1.aliasName = n) ∧
      (stripDirectory app.m_sd2.aliasName = "" ∨ stripDirectory app.m_sd2.aliasName = n) ∧
      (stripDirectory app.m_sd3.aliasName = "" ∨ stripDirectory app.m_sd3.aliasName = n)) :
    createCaption app =
      String.intercalate " <-> "
        ([stripDirectory app.m_sd1.aliasName, stripDirectory app.m_sd2.aliasName,
          stripDirectory app.m_sd3.aliasName].filter (fun f => f ≠ "")) ++ " - KDiff3" := by
  unfold createCaption captionOfEqualNames captionOfAllNames
  generalize stripDirectory app.m_sd1.aliasName = f1 at h ⊢
  generalize stripDirectory app.m_sd2.aliasName = f2 at h ⊢
  generalize stripDirectory app.m_sd3.aliasName = f3 at h ⊢
  have n12 : f1 ≠ "" → ∀ t u : String, f1 ++ t ++ u ≠ "" := fun hn t u =>
    append_ne_empty _ _ (append_ne_empty _ _ hn)
  have n2 : f2 ≠ "" → ∀ t u : String, f2 ++ t ++ u ≠ "" := fun hn t u =>
    append_ne_empty _ _ (append_ne_empty _ _ hn)
  have n14 : f1 ≠ "" → ∀ t u v w : String, f1 ++ t ++ u ++ v ++ w ≠ "" := fun hn t u v w =>
    append_ne_empty _ _ (append_ne_empty _ _ (n12 hn t u))
  by_cases e1 : f1 = "" <;> by_cases e2 : f2 = "" <;> by_cases e3 : f3 = ""
  · exact absurd ⟨"", Or.inl e1, Or.inl e2, Or.inl e3⟩ h
  · exact absurd ⟨f3, Or.inl e1, Or.inl e2, Or.inr rfl⟩ h
  · exact absurd ⟨f2, Or.inl e1, Or.inr rfl, Or.inl e3⟩ h
  · have d : f2 ≠ f3 := fun hc => h ⟨f2, Or.inl e1, Or.inr rfl, Or.inr hc.symm⟩
    subst e1
    simp [e2, e3, d, n2 e2, String.intercalate, String.intercalate.go]
  · exact absurd ⟨f1, Or.inr rfl, Or.inl e2, Or.inl e3⟩ h
  · have d : f1 ≠ f3 := fun hc => h ⟨f1, Or.inr rfl, Or.inl e2, Or.inr hc.symm⟩
    subst e2
    simp [e1, e3, d, n12 e1, String.intercalate, String.intercalate.go]
  · have d : f1 ≠ f2 := fun hc => h ⟨f1, Or.inr rfl, Or.inr hc.symm, Or.inl e3⟩
    subst e3
    simp [e1, e2, d, n12 e1, String.intercalate, String.intercalate.go]
  · have d : ¬ (f1 = f2 ∧ f1 = f3) := fun hc =>
      h ⟨f1, Or.inr rfl, Or.inr hc.1.symm, Or.inr hc.2.symm⟩
    simp [e1, e2, e3, d, n14 e1, n12 e1, String.intercalate, String.intercalate.go]

/-- Witness for C21: `/x/a.txt` as A and `/y/b.txt` as C give "a.txt <-> b.txt - KDiff3". -/
theorem createCaption_different_names_witness :
    createCaption twoNamesApp = "a.txt <-> b.txt - KDiff3" :=
  (createCaption_different_names twoNamesApp (by
    intro hc
    obtain ⟨n, h1, -, h3⟩ := hc
    have a1 : stripDirectory twoNamesApp.m_sd1.aliasName = "a.txt" := by decide
    have a3 : stripDirectory twoNamesApp.m_sd3.aliasName = "b.txt" := by decide
    rw [a1] at h1
    rw [a3] at h3
    rcases h1 with h1 | h1
    · exact absurd h1 (by decide)
    · rcases h3 with h3 | h3
      · exact absurd h3 (by decide)
      · exact absurd (h1.trans h3.symm) (by decide))).trans (by decide)

end KDiff3
